import Mathlib

/-!
# Butterchurn visualizer component (`src/src/App.jsx`)

A shallow embedding of the `ButterchurnVisualizer` React component: its refs
and React state become one record, each callback (`initialize`, the audio
element's `onloadeddata` / `onerror` handlers, `renderCombinedFrame`, the effect
cleanup, `handlePresetChange`, `handleResize`) becomes a function on that
record, and whatever the browser or a library decides (frequency data, a
thrown exception, the preset table) is an explicit argument.

JavaScript numbers are doubles: a number is modelled by the rational it
denotes, and each quotient, difference, product and sum of the render loop is
the exact result rounded to the nearest double (`toDouble`); sums of bytes are
integers far below `2 ^ 53` and exact as they are.  React state setters are
taken to act at once, each callback runs to completion before the next event,
and console logging is not part of the state.
-/

namespace Butterchurn

/-! ## JavaScript numbers

A finite IEEE 754 double is modelled by the rational number it denotes, and an
arithmetic operation on doubles by the exact operation followed by `toDouble`.
Doubles overflow to `Infinity` from `2 ^ 1024 - 2 ^ 970` on and `toDouble`
does not; below that bound it is the rounding of the standard.  Every number
the render loop rounds has magnitude at most 255. -/

/-- Rounding of a rational to the nearest integer, a tie going to the even
one. -/
def roundHalfEven (t : ℚ) : ℤ :=
  if t - ⌊t⌋ < 1 / 2 then ⌊t⌋
  else if 1 / 2 < t - ⌊t⌋ then ⌊t⌋ + 1
  else if ⌊t⌋ % 2 = 0 then ⌊t⌋
  else ⌊t⌋ + 1

/-- The exponent of the spacing of the doubles around `x`: the doubles of
magnitude in `[2 ^ k, 2 ^ (k + 1)]` are the multiples of `2 ^ (k - 52)` there
(53 significant bits), and below `2 ^ (-1022)` the spacing stays `2 ^ (-1074)`
(subnormal numbers). -/
def ulpExponent (x : ℚ) : ℤ := max (Int.log 2 |x| - 52) (-1074)

/-- The double nearest to `x`, a tie going to the one with the even
significand: the rounding every arithmetic operation of JavaScript applies to
its exact result. -/
def toDouble (x : ℚ) : ℚ := roundHalfEven (x / 2 ^ ulpExponent x) * 2 ^ ulpExponent x

/-- The rational `x` is a double: rounding leaves it as it is. -/
def IsDouble (x : ℚ) : Prop := toDouble x = x

instance (x : ℚ) : Decidable (IsDouble x) := inferInstanceAs (Decidable (toDouble x = x))

/-! ## Frequency bands and smoothing (lines 253-309) -/

/-- The loop `for (let i = lo; i < hi; i++) sum += a[i]` started with
`sum = 0`: the indices `lo, lo+1, ..., hi-1` are visited in order. -/
def sumRange (a : List Nat) (lo hi : Nat) : Nat :=
  (List.range' lo (hi - lo)).foldl (fun sum i => sum + a.getD i 0) 0

/-- The value `Math.floor(dataLen * 0.15)` (line 272). -/
def bassEnd (dataLen : Nat) : Nat := dataLen * 15 / 100

/-- The value `Math.floor(dataLen * 0.4)` (line 273). -/
def midEnd (dataLen : Nat) : Nat := dataLen * 4 / 10

/-- The accumulator `bassSum` after its loop (lines 276-279). -/
def bassSum (a : List Nat) : Nat := sumRange a 0 (bassEnd a.length)

/-- The accumulator `midSum` after its loop (lines 282-285). -/
def midSum (a : List Nat) : Nat := sumRange a (bassEnd a.length) (midEnd a.length)

/-- The accumulator `trebleSum` after its loop (lines 288-292); `trebleStart` is `midEnd`. -/
def trebleSum (a : List Nat) : Nat := sumRange a (midEnd a.length) a.length

/-- The quotient `bassSum / bassEnd` of line 280 (and `0` for an empty band)
as an exact rational; the constant `bassAvg` is this quotient rounded to a
double, which `normBassRaw` does. -/
def bassAvg (a : List Nat) : ℚ :=
  if bassEnd a.length > 0 then (bassSum a : ℚ) / (bassEnd a.length : ℚ) else 0

/-- The quotient of line 286 as an exact rational, rounded in `normMidRaw`. -/
def midAvg (a : List Nat) : ℚ :=
  if midEnd a.length - bassEnd a.length > 0 then
    (midSum a : ℚ) / ((midEnd a.length - bassEnd a.length : Nat) : ℚ)
  else 0

/-- The quotient of line 293 as an exact rational, rounded in `normTrebleRaw`. -/
def trebleAvg (a : List Nat) : ℚ :=
  if a.length - midEnd a.length > 0 then
    (trebleSum a : ℚ) / ((a.length - midEnd a.length : Nat) : ℚ)
  else 0

/-- The constant `smoothingFactor = 0.08` (line 253): the double the literal
`0.08` denotes. -/
def smoothingFactor : ℚ := toDouble (8 / 100)

/-- One smoothing assignment `s += (raw - s) * smoothingFactor` (lines
301-303): the difference, the product and the sum are each rounded. -/
def smooth (s raw : ℚ) : ℚ := toDouble (s + toDouble (toDouble (raw - s) * smoothingFactor))

/-- The constants `normBassRaw`, `normMidRaw`, `normTrebleRaw` (lines 296-298):
the band average, rounded as the quotient of line 280 (286, 293) is, divided
by `128.0`. -/
def normBassRaw (a : List Nat) : ℚ := toDouble (toDouble (bassAvg a) / 128)

def normMidRaw (a : List Nat) : ℚ := toDouble (toDouble (midAvg a) / 128)

def normTrebleRaw (a : List Nat) : ℚ := toDouble (toDouble (trebleAvg a) / 128)

/-- The constant `smoothedOverallLevel` (line 309),
`(smoothedBass + smoothedMid + smoothedTreble) / 3.0`: the two sums, taken from
left to right, and the quotient are each rounded. -/
def smoothedOverallLevel (smoothedBass smoothedMid smoothedTreble : ℚ) : ℚ :=
  toDouble (toDouble (toDouble (smoothedBass + smoothedMid) + smoothedTreble) / 3)

/-! ## Objects held by the component -/

/-- The element the component is rendered into (`mountRef.current`): its
client size and the number of renderer canvases appended to it. -/
structure MountEl where
  clientWidth : Nat
  clientHeight : Nat
  appended : Nat
  deriving DecidableEq, Repr

/-- The property `AudioContext.state`. -/
inductive ContextState where
  | suspended
  | running
  | closed
  deriving DecidableEq, Repr

structure AudioContext where
  state : ContextState
  deriving DecidableEq, Repr

/-- The `Audio` element.  `error` is `audioEl.error?.code`; `playPauseListeners`
counts the `handleAudioPlayPause` closures registered for each of the four
media events; the four Booleans say whether the `on...` handler is set. -/
structure AudioEl where
  src : String
  preload : String
  crossOrigin : String
  paused : Bool
  error : Option Nat
  playPauseListeners : Nat
  onerror : Bool
  onloadeddata : Bool
  onstalled : Bool
  onsuspend : Bool
  deriving DecidableEq, Repr

/-- The `AnalyserNode`; `connected` is set by `analyser.connect(destination)`. -/
structure Analyser where
  fftSize : Nat
  connected : Bool
  deriving DecidableEq, Repr

/-- The read-only property `AnalyserNode.frequencyBinCount`, half the FFT size. -/
def Analyser.frequencyBinCount (a : Analyser) : Nat := a.fftSize / 2

/-- An object read from the preset table under some key and handed to
`loadPreset`: a preset definition of the preset library or, under the names
every plain object inherits, a member of `Object.prototype`.  It is only ever
passed on; `code` stands for its content. -/
structure Preset where
  code : Nat
  deriving DecidableEq, Repr

/-- The butterchurn visualizer: the size of the texture it renders, whether
`connectAudio` has run, the arguments of the last `loadPreset` call, and the
number of `render()` calls. -/
structure Visualizer where
  width : Nat
  height : Nat
  audioConnected : Bool
  loaded : Option (Preset × ℚ)
  renders : Nat
  deriving DecidableEq, Repr

/-- A quotient `width / height` of two client sizes, kept as the pair. -/
structure Aspect where
  width : Nat
  height : Nat
  deriving DecidableEq, Repr

/-- The `THREE.PerspectiveCamera`; `projectionUpdates` counts the calls of
`updateProjectionMatrix()`. -/
structure Camera where
  fov : Nat
  aspect : Aspect
  positionZ : Nat
  projectionUpdates : Nat
  deriving DecidableEq, Repr

/-- The `THREE.WebGLRenderer`: its size and the number of `render` calls. -/
structure Renderer where
  width : Nat
  height : Nat
  renders : Nat
  deriving DecidableEq, Repr

/-- The `THREE.CanvasTexture` over the hidden canvas. -/
structure Texture where
  needsUpdate : Bool
  deriving DecidableEq, Repr

/-- The uniforms of the sphere's shader material (lines 231-238). -/
structure Uniforms where
  uAudioLevel : ℚ
  uTime : ℚ
  uBassLevel : ℚ
  uMidLevel : ℚ
  uTrebleLevel : ℚ
  deriving DecidableEq, Repr

/-- The sphere mesh; `shaderMaterial` is `material instanceof THREE.ShaderMaterial`. -/
structure Sphere where
  shaderMaterial : Bool
  uniforms : Uniforms
  deriving DecidableEq, Repr

/-- The `THREE.Scene`, with the number of meshes added to it. -/
structure Scene where
  meshes : Nat
  deriving DecidableEq, Repr

/-- The refs and the React state of `ButterchurnVisualizer` (lines 59-86),
the closure variable `audioDataArray` of the render loop (line 246), and the
browser's record of animation-frame requests: `pendingFrames` are the handles
requested and neither run nor cancelled, `nextFrameId` is the next handle
`requestAnimationFrame` returns.  `detachedAudioEls` are the audio elements
the cleanup let go of, as it left them. -/
structure State where
  mountRef : Option MountEl
  canvasRef : Bool
  audioElRef : Option AudioEl
  visualizerRef : Option Visualizer
  audioContextRef : Option AudioContext
  analyserRef : Option Analyser
  animationFrameIdRef : Option Nat
  isInitializedRef : Bool
  rendererRef : Option Renderer
  sceneRef : Option Scene
  cameraRef : Option Camera
  sphereRef : Option Sphere
  textureRef : Option Texture
  smoothedBassRef : ℚ
  smoothedMidRef : ℚ
  smoothedTrebleRef : ℚ
  isPlaying : Bool
  presets : List (String × Preset)
  presetKeys : List String
  currentPresetKey : String
  errorMessage : String
  refsReady : Bool
  audioDataArray : List Nat
  pendingFrames : List Nat
  nextFrameId : Nat
  detachedAudioEls : List AudioEl
  deriving DecidableEq, Repr

/-- The component before its first commit: every ref is `null`, the smoothed
levels are `0.0`, and no animation frame has been requested. -/
def initialState : State where
  mountRef := none
  canvasRef := false
  audioElRef := none
  visualizerRef := none
  audioContextRef := none
  analyserRef := none
  animationFrameIdRef := none
  isInitializedRef := false
  rendererRef := none
  sceneRef := none
  cameraRef := none
  sphereRef := none
  textureRef := none
  smoothedBassRef := 0
  smoothedMidRef := 0
  smoothedTrebleRef := 0
  isPlaying := false
  presets := []
  presetKeys := []
  currentPresetKey := ""
  errorMessage := ""
  refsReady := false
  audioDataArray := []
  pendingFrames := []
  nextFrameId := 1
  detachedAudioEls := []

/-- The constant `AUDIO_URL` (line 89). -/
def AUDIO_URL : String := "/audio_files/Lifes_Embrace.mp3"

/-! ## Browser primitives -/

/-- JavaScript truthiness of an animation-frame handle held in a ref:
`null` and `0` are falsy. -/
def truthy : Option Nat → Bool
  | some (_ + 1) => true
  | _ => false

/-- The call `requestAnimationFrame(renderCombinedFrame)`: the new handle is
pending, and it is returned with the new state. -/
def requestAnimationFrame (s : State) : State × Nat :=
  ({ s with pendingFrames := s.pendingFrames ++ [s.nextFrameId],
            nextFrameId := s.nextFrameId + 1 }, s.nextFrameId)

/-- The call `cancelAnimationFrame(id)`: the handle is no longer pending. -/
def cancelAnimationFrame (s : State) (id : Nat) : State :=
  { s with pendingFrames := s.pendingFrames.filter fun h => h != id }

/-- The call `analyser.getByteFrequencyData(array)` when the analyser holds
`freq`: the array keeps its length, bins beyond the array are dropped, and
array entries beyond the data are left as they were. -/
def getByteFrequencyData (freq array : List Nat) : List Nat :=
  freq.take array.length ++ array.drop freq.length

/-- Whether the step `step` is the one that throws, and with which message. -/
def throwsAt {α : Type} [DecidableEq α] (failure : Option (α × String)) (step : α) :
    Option String :=
  match failure with
  | some (st, msg) => if st = step then some msg else none
  | none => none

/-- How a `try` block has gone so far: the state reached, and the message of
the exception if a statement has thrown. -/
structure Outcome where
  state : State
  thrown : Option String
  deriving DecidableEq, Repr

/-- One statement of a `try` block: it throws (the state is left as it is and
the message is returned) or its effect takes place. -/
def attempt {α : Type} [DecidableEq α] (failure : Option (α × String)) (step : α)
    (effect : State → State) (s : State) : Outcome :=
  match throwsAt failure step with
  | some msg => ⟨s, some msg⟩
  | none => ⟨effect s, none⟩

/-- Sequencing inside a `try` block: once a statement has thrown, the rest of
the block is skipped. -/
def Outcome.andThen (r : Outcome) (f : State → Outcome) : Outcome :=
  match r.thrown with
  | some msg => ⟨r.state, some msg⟩
  | none => f r.state

/-! ## `initialize` and the audio element's handlers (lines 97-366) -/

/-- The statements of `initialize` that may throw. -/
inductive InitStep where
  | newAudio
  | addEventListener
  deriving DecidableEq, Repr

/-- The element `new Audio(AUDIO_URL)` after lines 115-117. -/
def newAudio : AudioEl where
  src := AUDIO_URL
  preload := "auto"
  crossOrigin := "anonymous"
  paused := true
  error := none
  playPauseListeners := 0
  onerror := false
  onloadeddata := false
  onstalled := false
  onsuspend := false

/-- The `try` block of `initialize` (lines 112-358): create the audio element
unless the ref holds one, register `handleAudioPlayPause` for the four media
events, and set the four `on...` handlers. -/
def initialiseTry (s : State) (failure : Option (InitStep × String)) : Outcome :=
  (match s.audioElRef with
    | none => attempt failure InitStep.newAudio
        (fun s => { s with audioElRef := some newAudio }) s
    | some _ => ⟨s, none⟩)
  |>.andThen (attempt failure InitStep.addEventListener fun s =>
      { s with audioElRef := s.audioElRef.map fun (audioEl : AudioEl) =>
          { audioEl with playPauseListeners := audioEl.playPauseListeners + 1 } })
  |>.andThen (fun s => ⟨{ s with audioElRef := s.audioElRef.map fun (audioEl : AudioEl) =>
      { audioEl with onerror := true, onloadeddata := true,
                     onstalled := true, onsuspend := true } }, none⟩)

/-- The function `initialize` (lines 97-366), named `initialise` here. -/
def initialise (s : State) (failure : Option (InitStep × String)) : State :=
  if s.isInitializedRef then s
  else if s.mountRef.isNone || !s.canvasRef then
    { s with errorMessage := "Error: Component refs not found during init." }
  else
    match initialiseTry s failure with
    | ⟨s1, none⟩ => s1
    | ⟨s1, some msg⟩ =>
      { s1 with errorMessage := "Fatal Setup Error: " ++ msg, isInitializedRef := false }

/-- The local `errorDetails` of the `onerror` handler (lines 132-141), from
`audioEl.error?.code`; the `MediaError` codes are 1 to 4. -/
def errorDetails (error : Option Nat) : String :=
  match error with
  | none => "Unknown error"
  | some 1 => "Aborted"
  | some 2 => "Network error"
  | some 3 => "Decode error"
  | some 4 => "Source not supported"
  | some code => "Code " ++ toString code

/-- The handler `audioEl.onerror` (lines 131-145), for the element `audioEl`
its closure holds. -/
def onerror (s : State) (audioEl : AudioEl) : State :=
  { s with errorMessage := "Audio Error: " ++ errorDetails audioEl.error,
           isInitializedRef := false }

/-- The statements of the `onloadeddata` setup that may throw, in program order. -/
inductive SetupStep where
  | newAudioContext
  | createMediaElementSource
  | createAnalyser
  | connect
  | createVisualizer
  | connectAudio
  | getPresets
  | loadPreset
  | newScene
  | newCamera
  | newRenderer
  | appendChild
  | newTexture
  | newMesh
  | newDataArray
  | requestFrame
  deriving DecidableEq, Repr

/-- What the browser and the libraries decide during one `onloadeddata` setup:
which statement throws (if any), the table `butterchurnPresets.getPresets()`
in `Object.keys` order, the state a new `AudioContext` starts in, and the
message of the `TypeError` raised by reading a property of `null`. -/
structure SetupEnv where
  failure : Option (SetupStep × String)
  allPresets : List (String × Preset)
  contextState : ContextState
  nullMessage : String
  deriving DecidableEq, Repr

/-- Lines 160-161: `audioContextRef.current = new AudioContext()`. -/
def createAudioContext (env : SetupEnv) (s : State) : State :=
  { s with audioContextRef := some { state := env.contextState } }

/-- Lines 169-171: the analyser with `fftSize = 2048` is stored in `analyserRef`. -/
def createAnalyser (s : State) : State :=
  { s with analyserRef := some { fftSize := 2048, connected := false } }

/-- Lines 174-175: source to analyser, analyser to destination. -/
def connectNodes (s : State) : State :=
  { s with analyserRef := s.analyserRef.map fun (a : Analyser) => { a with connected := true } }

/-- Lines 179-184: the visualizer on a fixed 1024 x 1024 texture. -/
def createVisualizer (s : State) : State :=
  { s with visualizerRef := some { width := 1024, height := 1024, audioConnected := false,
                                   loaded := none, renders := 0 } }

/-- Line 187: `visualizerInstance.connectAudio(newAnalyser)`. -/
def connectAudio (s : State) : State :=
  { s with visualizerRef := s.visualizerRef.map fun (v : Visualizer) =>
      { v with audioConnected := true } }

/-- Lines 191-194: the preset table and its keys are put into the React state. -/
def publishPresets (env : SetupEnv) (s : State) : State :=
  { s with presets := env.allPresets, presetKeys := env.allPresets.map Prod.fst }

/-- Lines 198-201: the preset under the first key is loaded with blend time
`0.0` and the key becomes `currentPresetKey`. -/
def loadFirstPreset (env : SetupEnv) (firstPresetKey : String) (s : State) : State :=
  { s with
    visualizerRef := s.visualizerRef.map fun (v : Visualizer) =>
      { v with loaded := (env.allPresets.lookup firstPresetKey).map fun p => (p, (0 : ℚ)) },
    currentPresetKey := firstPresetKey }

/-- Lines 203-204: `setErrorMessage('No presets found.')`. -/
def reportNoPresets (s : State) : State :=
  { s with errorMessage := "No presets found." }

/-- Line 214: the scene. -/
def createScene (s : State) : State :=
  { s with sceneRef := some { meshes := 0 } }

/-- Lines 215-216: the camera with aspect `width / height` of the mount element. -/
def createCamera (mountPoint : MountEl) (s : State) : State :=
  { s with cameraRef := some { fov := 75,
                               aspect := ⟨mountPoint.clientWidth, mountPoint.clientHeight⟩,
                               positionZ := 5, projectionUpdates := 0 } }

/-- Lines 218-219: the renderer, sized to the mount element. -/
def createRenderer (mountPoint : MountEl) (s : State) : State :=
  { s with rendererRef := some { width := mountPoint.clientWidth,
                                 height := mountPoint.clientHeight, renders := 0 } }

/-- Line 220: the renderer's canvas is appended to the mount element. -/
def appendCanvas (s : State) : State :=
  { s with mountRef := s.mountRef.map fun (m : MountEl) =>
      { m with appended := m.appended + 1 } }

/-- Lines 222-226: the texture over the hidden canvas. -/
def createTexture (s : State) : State :=
  { s with textureRef := some { needsUpdate := false } }

/-- Lines 228-243: the sphere mesh with its shader material, added to the scene. -/
def createSphere (s : State) : State :=
  { s with
    sphereRef := some { shaderMaterial := true,
                        uniforms := { uAudioLevel := 0, uTime := 0, uBassLevel := 0,
                                      uMidLevel := 0, uTrebleLevel := 0 } },
    sceneRef := s.sceneRef.map fun (sc : Scene) => { sc with meshes := sc.meshes + 1 } }

/-- Line 246: `audioDataArray = new Uint8Array(analyser.frequencyBinCount)`. -/
def allocateDataArray (analyser : Analyser) (s : State) : State :=
  { s with audioDataArray := List.replicate analyser.frequencyBinCount 0 }

/-- Line 342: `animationFrameIdRef.current = requestAnimationFrame(renderCombinedFrame)`. -/
def startLoop (s : State) : State :=
  let r := requestAnimationFrame s
  { r.1 with animationFrameIdRef := some r.2 }

/-- Line 346: `isInitializedRef.current = true`. -/
def setInitialized (s : State) : State :=
  { s with isInitializedRef := true }

/-- The audio part of the setup (lines 159-188): context, source, analyser,
connections, visualizer. -/
def setupAudio (env : SetupEnv) (s : State) : Outcome :=
  attempt env.failure SetupStep.newAudioContext (createAudioContext env) s
  |>.andThen (attempt env.failure SetupStep.createMediaElementSource id)
  |>.andThen (attempt env.failure SetupStep.createAnalyser createAnalyser)
  |>.andThen (attempt env.failure SetupStep.connect connectNodes)
  |>.andThen (attempt env.failure SetupStep.createVisualizer createVisualizer)
  |>.andThen (attempt env.failure SetupStep.connectAudio connectAudio)

/-- The preset part of the setup (lines 190-205): publish the table and its
keys, then load the preset under the first key, or report that there is none. -/
def setupPresets (env : SetupEnv) (s : State) : Outcome :=
  attempt env.failure SetupStep.getPresets (publishPresets env) s
  |>.andThen (fun s =>
      match env.allPresets.map Prod.fst with
      | firstPresetKey :: _ =>
        attempt env.failure SetupStep.loadPreset (loadFirstPreset env firstPresetKey) s
      | [] => ⟨reportNoPresets s, none⟩)

/-- The Three.js part of the setup (lines 209-250) for the mount element
`mountPoint`, whose client size is read once. -/
def setupThree (env : SetupEnv) (mountPoint : MountEl) (s : State) : Outcome :=
  attempt env.failure SetupStep.newScene createScene s
  |>.andThen (attempt env.failure SetupStep.newCamera (createCamera mountPoint))
  |>.andThen (attempt env.failure SetupStep.newRenderer (createRenderer mountPoint))
  |>.andThen (attempt env.failure SetupStep.appendChild appendCanvas)
  |>.andThen (attempt env.failure SetupStep.newTexture createTexture)
  |>.andThen (attempt env.failure SetupStep.newMesh createSphere)

/-- The end of the setup (lines 246-346): allocate `audioDataArray`, request
the first frame, and only then set the flag. -/
def setupLoop (env : SetupEnv) (s : State) : Outcome :=
  (match s.analyserRef with
    | none => (⟨s, some env.nullMessage⟩ : Outcome)
    | some analyser =>
      attempt env.failure SetupStep.newDataArray (allocateDataArray analyser) s)
  |>.andThen (attempt env.failure SetupStep.requestFrame startLoop)
  |>.andThen (fun s => ⟨setInitialized s, none⟩)

/-- The `try` block of the `onloadeddata` handler (lines 157-347). -/
def setupTry (env : SetupEnv) (s : State) : Outcome :=
  setupAudio env s
  |>.andThen (setupPresets env)
  |>.andThen (fun s =>
      match s.mountRef with
      | none => ⟨s, some env.nullMessage⟩
      | some mountPoint => setupThree env mountPoint s)
  |>.andThen (setupLoop env)

/-- The handler `audioEl.onloadeddata` (lines 148-354). -/
def onloadeddata (s : State) (env : SetupEnv) : State :=
  if s.isInitializedRef || s.audioContextRef.isSome then s
  else
    match setupTry env s with
    | ⟨s1, none⟩ => s1
    | ⟨s1, some msg⟩ =>
      { s1 with errorMessage := "Setup Error: " ++ msg, isInitializedRef := false }

/-! ## `renderCombinedFrame` (lines 255-340) -/

/-- The statements of one combined frame that may throw, in program order. -/
inductive RenderStep where
  | getByteFrequencyData
  | updateUniforms
  | visualizerRender
  | rendererRender
  deriving DecidableEq, Repr

/-- What the browser and the libraries decide during one frame: the byte
frequency data the analyser holds, `clock.getElapsedTime()`, and which
statement throws (if any). -/
structure FrameEnv where
  freq : List Nat
  elapsed : ℚ
  failure : Option (RenderStep × String)
  deriving DecidableEq, Repr

/-- The `try` block of `renderCombinedFrame` (lines 266-327), entered when all
seven refs are set: read the data, update the three smoothed levels, write the
uniforms, render the visualizer, flag the texture, render the scene. -/
def renderTry (env : FrameEnv) (s : State) : Outcome :=
  attempt env.failure RenderStep.getByteFrequencyData
    (fun s => { s with audioDataArray := getByteFrequencyData env.freq s.audioDataArray }) s
  |>.andThen (fun s => ⟨{ s with
      smoothedBassRef := smooth s.smoothedBassRef (normBassRaw s.audioDataArray),
      smoothedMidRef := smooth s.smoothedMidRef (normMidRaw s.audioDataArray),
      smoothedTrebleRef := smooth s.smoothedTrebleRef (normTrebleRaw s.audioDataArray) },
      none⟩)
  |>.andThen (attempt env.failure RenderStep.updateUniforms fun s =>
      { s with sphereRef := s.sphereRef.map fun (sphere : Sphere) =>
          if sphere.shaderMaterial then
            { sphere with uniforms :=
                { uAudioLevel :=
                    smoothedOverallLevel s.smoothedBassRef s.smoothedMidRef
                      s.smoothedTrebleRef,
                  uTime := env.elapsed,
                  uBassLevel := s.smoothedBassRef,
                  uMidLevel := s.smoothedMidRef,
                  uTrebleLevel := s.smoothedTrebleRef } }
          else sphere })
  |>.andThen (attempt env.failure RenderStep.visualizerRender fun s =>
      { s with visualizerRef := s.visualizerRef.map fun (v : Visualizer) =>
          { v with renders := v.renders + 1 } })
  |>.andThen (fun s => ⟨{ s with textureRef := s.textureRef.map fun (t : Texture) =>
      { t with needsUpdate := true } }, none⟩)
  |>.andThen (attempt env.failure RenderStep.rendererRender fun s =>
      { s with rendererRef := s.rendererRef.map fun (r : Renderer) =>
          { r with renders := r.renders + 1 } })

/-- The `catch (renderError)` block of `renderCombinedFrame` (lines 329-335). -/
def renderCatch (s : State) (message : String) : State :=
  let s1 := { s with errorMessage := "Render Error: " ++ message }
  let s2 :=
    match s1.animationFrameIdRef with
    | some id => if truthy (some id) then cancelAnimationFrame s1 id else s1
    | none => s1
  { s2 with animationFrameIdRef := none, isInitializedRef := false }

/-- The guard `analyser && visualizer && renderer && scene && camera &&
texture && sphere` (line 264) on the seven refs read at the start of a frame. -/
def allRefsSet (s : State) : Bool :=
  s.analyserRef.isSome && s.visualizerRef.isSome && s.rendererRef.isSome
    && s.sceneRef.isSome && s.cameraRef.isSome && s.textureRef.isSome
    && s.sphereRef.isSome

/-- The callback `renderCombinedFrame` (lines 255-340): the guarded `try`
block with its `catch`, then the request for the next frame unless
`animationFrameIdRef.current` is `null`. -/
def renderCombinedFrame (s : State) (env : FrameEnv) : State :=
  let s1 :=
    if allRefsSet s then
      match renderTry env s with
      | ⟨s1, none⟩ => s1
      | ⟨s1, some message⟩ => renderCatch s1 message
    else s
  if s1.animationFrameIdRef.isSome then
    let r := requestAnimationFrame s1
    { r.1 with animationFrameIdRef := some r.2 }
  else s1

/-- The browser running the oldest pending animation-frame request: the
request is no longer pending, and `renderCombinedFrame` is called. -/
def frameCallback (s : State) (env : FrameEnv) : State :=
  match s.pendingFrames with
  | [] => s
  | _ :: rest => renderCombinedFrame { s with pendingFrames := rest } env

/-! ## Effects and their cleanup (lines 368-460) -/

/-- The body of Effect 1 (lines 369-377). -/
def refCheckEffect (s : State) : State :=
  if s.mountRef.isSome && s.canvasRef then { s with refsReady := true } else s

/-- The body of Effect 2 (lines 380-388). -/
def initializeEffect (s : State) (failure : Option (InitStep × String)) : State :=
  if s.refsReady && !s.isInitializedRef then initialise s failure else s

/-- What the cleanup does to the audio element before letting go of it
(lines 430-437). -/
def releaseAudioEl (audioEl : AudioEl) : AudioEl :=
  { audioEl with paused := true, onloadeddata := false, onerror := false,
                 onstalled := false, onsuspend := false, src := "" }

/-- The cleanup function of Effect 2 (lines 391-459). -/
def cleanup (s : State) : State :=
  if s.isInitializedRef then
    let s1 :=
      match s.animationFrameIdRef with
      | some id =>
        if truthy (some id) then
          { cancelAnimationFrame s id with animationFrameIdRef := none }
        else s
      | none => s
    let s2 :=
      match s1.rendererRef with
      | some _ =>
        { s1 with
          mountRef := s1.mountRef.map fun (m : MountEl) => { m with appended := m.appended - 1 },
          rendererRef := none }
      | none => s1
    let s3 := { s2 with sceneRef := none, textureRef := none, sphereRef := none,
                        cameraRef := none }
    let s4 :=
      match s3.audioElRef with
      | some audioEl =>
        { s3 with detachedAudioEls := releaseAudioEl audioEl :: s3.detachedAudioEls,
                  audioElRef := none }
      | none => s3
    { s4 with audioContextRef := none, visualizerRef := none, analyserRef := none,
              isInitializedRef := false }
  else s

/-! ## User-interface handlers and the rendered controls (lines 517-633) -/

/-- What the browser decides during one `handlePlay`: the message with which
`audioContext.resume()` rejects, and the one with which `audioEl.play()`
rejects, if they do. -/
structure PlayEnv where
  resumeFailure : Option String
  playFailure : Option String
  deriving DecidableEq, Repr

/-- The state after `handlePlay`, and whether it called
`audioContext.resume()` and `audioEl.play()`. -/
structure PlayResult where
  state : State
  resumed : Bool
  played : Bool
  deriving DecidableEq, Repr

/-- The `catch (error)` block of `handlePlay` (lines 489-493) for the audio
element `audioEl` the handler read on entry. -/
def playCatch (s : State) (audioEl : AudioEl) (message : String) : State :=
  { s with errorMessage := "Play Error: " ++ message, isPlaying := !audioEl.paused }

/-- Lines 481-488 of `handlePlay`: `play()` is called if the element is
paused; when its promise resolves the element is no longer paused and the
message is cleared, when it rejects the `catch` block runs. -/
def playIfPaused (s : State) (audioEl : AudioEl) (env : PlayEnv) (resumed : Bool) :
    PlayResult :=
  if audioEl.paused then
    match env.playFailure with
    | none =>
      ⟨{ s with audioElRef := some { audioEl with paused := false }, errorMessage := "" },
        resumed, true⟩
    | some message => ⟨playCatch s audioEl message, resumed, true⟩
  else ⟨s, resumed, false⟩

/-- The handler `handlePlay` (lines 463-494).  Its two `await`s are taken to
settle before any other event runs; a resolved `resume()` leaves the context
running. -/
def handlePlay (s : State) (env : PlayEnv) : PlayResult :=
  match s.audioElRef, s.audioContextRef, s.isInitializedRef with
  | some audioEl, some audioContext, true =>
    match audioContext.state with
    | ContextState.suspended =>
      match env.resumeFailure with
      | none =>
        playIfPaused { s with audioContextRef := some { audioContext with
                         state := ContextState.running } } audioEl env true
      | some message => ⟨playCatch s audioEl message, true, false⟩
    | ContextState.closed =>
      ⟨{ s with errorMessage := "Audio system closed. Please refresh." }, false, false⟩
    | ContextState.running => playIfPaused s audioEl env false
  | _, _, _ =>
    ⟨{ s with errorMessage := "Audio not ready. Please wait or refresh." }, false, false⟩

/-- The handler `handlePause` (lines 496-515); `failure` is the message of the
exception `audioEl.pause()` throws, if it throws. -/
def handlePause (s : State) (failure : Option String) : State :=
  match s.audioElRef, s.isInitializedRef with
  | some audioEl, true =>
    if !audioEl.paused then
      match failure with
      | none => { s with audioElRef := some { audioEl with paused := true } }
      | some message =>
        { s with errorMessage := "Pause Error: " ++ message, isPlaying := !audioEl.paused }
    else s
  | _, _ => s

/-- The members a plain object inherits from `Object.prototype`, under their
names: eleven functions and the accessor `__proto__`, which yields the
prototype itself.  Every one of them is truthy.  The preset table is a plain
object (the `{}` of line 82, then the object `getPresets()` returns), so it
has them besides its own entries. -/
def objectPrototype : List (String × Preset) :=
  [("constructor", ⟨0⟩), ("__defineGetter__", ⟨1⟩), ("__defineSetter__", ⟨2⟩),
   ("hasOwnProperty", ⟨3⟩), ("__lookupGetter__", ⟨4⟩), ("__lookupSetter__", ⟨5⟩),
   ("isPrototypeOf", ⟨6⟩), ("propertyIsEnumerable", ⟨7⟩), ("toString", ⟨8⟩),
   ("valueOf", ⟨9⟩), ("__proto__", ⟨10⟩), ("toLocaleString", ⟨11⟩)]

/-- The property read `presets[key]` on the preset table whose own entries are
`presets`: the own entry under `key` if there is one, and otherwise the member
inherited from `Object.prototype` if `key` names one; `none` is `undefined`.
Every value found is an object or a function, hence truthy. -/
def presetsGet (presets : List (String × Preset)) (key : String) : Option Preset :=
  match presets.lookup key with
  | some preset => some preset
  | none => objectPrototype.lookup key

/-- The local `reason` of `handlePresetChange` (line 532). -/
def presetReason (s : State) (newKey : String) : String :=
  if s.visualizerRef.isNone then "Visualizer not ready"
  else if (presetsGet s.presets newKey).isNone then "Preset not found"
  else "Not initialized"

/-- The handler `handlePresetChange` (lines 518-536) for `event.target.value =
newKey`; `failure` is the message of the exception `visualizer.loadPreset`
throws, if it throws. -/
def handlePresetChange (s : State) (newKey : String) (failure : Option String) : State :=
  match s.visualizerRef, presetsGet s.presets newKey, s.isInitializedRef with
  | some visualizer, some preset, true =>
    match failure with
    | none =>
      { s with visualizerRef := some { visualizer with loaded := some (preset, 2) },
               currentPresetKey := newKey,
               errorMessage := "" }
    | some message => { s with errorMessage := "Preset Error: " ++ message }
  | _, _, _ => { s with errorMessage := "Preset Error: " ++ presetReason s newKey }

/-- The handler `handleResize` (lines 540-556). -/
def handleResize (s : State) : State :=
  match s.mountRef, s.rendererRef, s.cameraRef, s.isInitializedRef with
  | some mountPoint, some renderer, some camera, true =>
    { s with
      cameraRef := some { camera with
        aspect := ⟨mountPoint.clientWidth, mountPoint.clientHeight⟩,
        projectionUpdates := camera.projectionUpdates + 1 },
      rendererRef := some { renderer with
        width := mountPoint.clientWidth, height := mountPoint.clientHeight } }
  | _, _, _, _ => s

/-- The `disabled` attribute of the Play button (line 601). -/
def playDisabled (s : State) : Bool :=
  !s.refsReady || !s.isInitializedRef || s.isPlaying

/-- The `disabled` attribute of the Pause button (line 609). -/
def pauseDisabled (s : State) : Bool :=
  !s.refsReady || !s.isInitializedRef || !s.isPlaying

/-- The `disabled` attribute of the preset drop-down, which is also the
condition under which it shows the single option `Loading...` (lines 618, 621). -/
def selectDisabled (s : State) : Bool :=
  !s.refsReady || !s.isInitializedRef || s.presetKeys.length == 0

/-- The text of the option shown for a preset key (line 626):
`key.length > 40 ? key.substring(0, 37) + '...' : key`.  A string is read as
the sequence of its code units. -/
def optionLabel (key : String) : String :=
  if key.length > 40 then key.take 37 ++ "..." else key

/-- The options of the preset drop-down as pairs of `value` and text
(lines 621-629); an option without a `value` attribute has its text as value. -/
def presetOptions (s : State) : List (String × String) :=
  if selectDisabled s then [("Loading...", "Loading...")]
  else s.presetKeys.map fun key => (key, optionLabel key)

/-! ## Events -/

/-- What can happen to the component: React commits the two DOM refs, runs an
effect or the cleanup, the audio element or the browser calls a handler, or
the user acts on a control. -/
inductive Event where
  | commit (mount : MountEl)
  | refCheckEffect
  | initializeEffect (failure : Option (InitStep × String))
  | initialise (failure : Option (InitStep × String))
  | loadeddata (env : SetupEnv)
  | frame (env : FrameEnv)
  | error (code : Option Nat)
  | playPause (paused : Bool)
  | cleanup
  | presetChange (newKey : String) (failure : Option String)
  | resize (clientWidth clientHeight : Nat)
  | play (env : PlayEnv)
  | pause (failure : Option String)
  deriving DecidableEq, Repr

/-- The effect of one event.  A handler of the audio element runs only while
the element is held by `audioElRef` and the handler is set; a media error
first stores its code in `audioEl.error`; a window resize first gives the
mount element its new client size. -/
def step (s : State) : Event → State
  | Event.commit mount => { s with mountRef := some mount, canvasRef := true }
  | Event.refCheckEffect => refCheckEffect s
  | Event.initializeEffect failure => initializeEffect s failure
  | Event.initialise failure => initialise s failure
  | Event.loadeddata env =>
    match s.audioElRef with
    | some audioEl => if audioEl.onloadeddata then onloadeddata s env else s
    | none => s
  | Event.frame env => frameCallback s env
  | Event.error code =>
    match s.audioElRef with
    | some audioEl =>
      let failed := { audioEl with error := code }
      let s1 := { s with audioElRef := some failed }
      if failed.onerror then onerror s1 failed else s1
    | none => s
  | Event.playPause paused =>
    match s.audioElRef with
    | some audioEl =>
      let s1 := { s with audioElRef := some { audioEl with paused := paused } }
      if audioEl.playPauseListeners > 0 then { s1 with isPlaying := !paused } else s1
    | none => s
  | Event.cleanup => cleanup s
  | Event.presetChange newKey failure => handlePresetChange s newKey failure
  | Event.resize clientWidth clientHeight =>
    handleResize { s with mountRef := s.mountRef.map fun (m : MountEl) =>
      { m with clientWidth := clientWidth, clientHeight := clientHeight } }
  | Event.play env => (handlePlay s env).state
  | Event.pause failure => handlePause s failure

/-- The state after a sequence of events. -/
def run (s : State) (events : List Event) : State :=
  events.foldl step s

/-- The event, if it is a frame, carries byte-valued frequency data (the
bins of a `Uint8Array` lie in 0..255). -/
def byteEvent : Event → Bool
  | Event.frame env => env.freq.all fun x => x ≤ 255
  | _ => true

/-- Every frame of the event sequence carries byte-valued frequency data. -/
def byteFrames (events : List Event) : Bool := events.all byteEvent

/-! ## Concrete runs -/

/-- A mount element of 800 by 600 pixels with nothing appended. -/
def mountedAt : MountEl := ⟨800, 600, 0⟩

/-- A setup in which nothing throws and the preset library has one preset. -/
def setupOk : SetupEnv := ⟨none, [("preset", ⟨0⟩)], ContextState.suspended, "null"⟩

/-- The component is mounted, both effects run, and the audio data loads:
the render loop has been started. -/
def loopStarted : List Event :=
  [Event.commit mountedAt, Event.refCheckEffect, Event.initializeEffect none,
   Event.loadeddata setupOk]

/-- A frame in which every one of the 1024 bins is at its maximum 255. -/
def fullFrame : FrameEnv := ⟨List.replicate 1024 255, 0, none⟩

/-- The loop is started and nine frames at full level are rendered. -/
def loudFrames : List Event := loopStarted ++ List.replicate 9 (Event.frame fullFrame)

/-- A frame in which every one of the 1024 bins holds `v`. -/
def flatFrame (v : Nat) : FrameEnv := ⟨List.replicate 1024 v, 0, none⟩

/-- The loop is started, a frame with every bin at 1 is rendered, and then
one with every bin at 2. -/
def risingFrames : List Event :=
  loopStarted ++ [Event.frame (flatFrame 1), Event.frame (flatFrame 2)]

/-- The loop is started and one frame with every bin at 5 is rendered. -/
def quietFrames : List Event := loopStarted ++ [Event.frame (flatFrame 5)]

/-- The loop is started and one frame with three bins of data is rendered. -/
def shortRun : List Event := loopStarted ++ [Event.frame ⟨[0, 128, 255], 1, none⟩]

/-- A frame at full level in which `visualizer.render()` throws. -/
def failingFrame : FrameEnv :=
  ⟨List.replicate 1024 255, 0, some (RenderStep.visualizerRender, "context lost")⟩

/-- A frame in which all 1024 bins are silent. -/
def silentFrame : FrameEnv := ⟨List.replicate 1024 0, 0, none⟩

/-- The component is mounted and `initialize` has run, but the audio data has
not loaded yet. -/
def awaitingData : List Event :=
  [Event.commit mountedAt, Event.refCheckEffect, Event.initializeEffect none]

/-- The loop is started and the audio element then reports a network error. -/
def audioFailed : List Event := loopStarted ++ [Event.error (some 2)]

/-- The loop is started and a frame then throws. -/
def renderFailed : List Event := loopStarted ++ [Event.frame failingFrame]

/-- The audio element once `initialize` has registered its listeners and set
its handlers. -/
def listeningAudio : AudioEl :=
  { newAudio with playPauseListeners := 1, onerror := true, onloadeddata := true,
                  onstalled := true, onsuspend := true }

/-- The started loop with its `AudioContext` closed by the browser. -/
def contextClosed : State :=
  { run initialState loopStarted with audioContextRef := some ⟨ContextState.closed⟩ }

/-- A setup in which `butterchurn.createVisualizer` throws. -/
def setupFailing : SetupEnv :=
  ⟨some (SetupStep.createVisualizer, "WebGL unavailable"), [("preset", ⟨0⟩)],
    ContextState.suspended, "null"⟩

/-- A setup in which nothing throws and the preset library has no preset. -/
def setupNoPresets : SetupEnv := ⟨none, [], ContextState.suspended, "null"⟩

/-- A preset key of 44 characters. -/
def longKeyA : String := "Flexi - mindblob greets the mighty amoeba v1"

/-- A preset key of 44 characters that differs from `longKeyA` in its last one. -/
def longKeyB : String := "Flexi - mindblob greets the mighty amoeba v2"

/-- The started loop after a render of the component has seen
`refsReady`, with the two long keys as preset keys. -/
def longKeysShown : State :=
  { run initialState loopStarted with presetKeys := [longKeyA, longKeyB] }

/-- A click on Play in which both promises resolve. -/
def playOk : PlayEnv := ⟨none, none⟩

/-- A click on Play in which `audioContext.resume()` rejects, as it does when
the browser does not allow the context to start. -/
def resumeRejected : PlayEnv := ⟨some "NotAllowedError", none⟩

/-! ## Specification vocabulary -/

/-- The contiguous slice `[lo, hi)` of a buffer. -/
def slice (a : List Nat) (lo hi : Nat) : List Nat := (a.drop lo).take (hi - lo)

/-- The arithmetic mean of a slice, and `0` for the empty slice. -/
def mean (l : List Nat) : ℚ := if l = [] then 0 else (l.sum : ℚ) / (l.length : ℚ)

/-- The smoothing update of the specification in exact arithmetic,
`s + (r - s) * 0.08` with the decimal fraction `0.08` and no rounding. -/
def smoothExact (s r : ℚ) : ℚ := s + (r - s) * (8 / 100)

/-- The other form of the update in the specification, `0.92 * s + 0.08 * r`,
as JavaScript evaluates it: the two literals, the two products and the sum
are each rounded. -/
def smoothWeighted (s r : ℚ) : ℚ :=
  toDouble (toDouble (toDouble (92 / 100) * s) + toDouble (toDouble (8 / 100) * r))

/-- The weighted sum `0.08 * 0.92^(k-1-i) * r_i` over `i < k`, for the raw
inputs `r_0, ..., r_(k-1)`, in exact arithmetic. -/
def weightedSum (rs : List ℚ) : ℚ :=
  Finset.sum (Finset.range rs.length) fun i =>
    (8 / 100 : ℚ) * (92 / 100 : ℚ) ^ (rs.length - 1 - i) * rs.getD i 0

/-- Whether the frame gets as far as updating the smoothed levels: the seven
refs are set and reading the frequency data does not throw. -/
def updatesLevels (s : State) (env : FrameEnv) : Bool :=
  allRefsSet s && (throwsAt env.failure RenderStep.getByteFrequencyData).isNone

/-- The three smoothed levels lie in `[0, 255/128]`, `audioDataArray` holds
bytes, and the three smoothed levels are doubles. -/
def LevelsInv (s : State) : Prop :=
  (0 ≤ s.smoothedBassRef ∧ s.smoothedBassRef ≤ 255 / 128)
  ∧ (0 ≤ s.smoothedMidRef ∧ s.smoothedMidRef ≤ 255 / 128)
  ∧ (0 ≤ s.smoothedTrebleRef ∧ s.smoothedTrebleRef ≤ 255 / 128)
  ∧ (∀ x ∈ s.audioDataArray, x ≤ 255)
  ∧ (IsDouble s.smoothedBassRef ∧ IsDouble s.smoothedMidRef ∧ IsDouble s.smoothedTrebleRef)

/-- The part of the state the render loop computes with. -/
def levels (s : State) : ℚ × ℚ × ℚ × List Nat :=
  (s.smoothedBassRef, s.smoothedMidRef, s.smoothedTrebleRef, s.audioDataArray)

/-- The outcome of a `try` block satisfies `post` if no statement threw, and
`handler` (what the `catch` block may rely on) if one did. -/
def Holds (r : Outcome) (post handler : State → Prop) : Prop :=
  match r.thrown with
  | none => post r.state
  | some _ => handler r.state

/-- The animation-frame bookkeeping is consistent: handles are positive, the
pending requests are exactly the handle held by `animationFrameIdRef` (none
when it is `null`), and a handle is held only while an `AudioContext` is. -/
def LoopInv (s : State) : Prop :=
  0 < s.nextFrameId
  ∧ s.pendingFrames = s.animationFrameIdRef.toList
  ∧ (∀ id, s.animationFrameIdRef = some id → 0 < id)
  ∧ (s.audioContextRef = none → s.animationFrameIdRef = none)

/-- No render loop has been started: nothing is pending and no handle is held. -/
def NoLoop (s : State) : Prop :=
  0 < s.nextFrameId ∧ s.pendingFrames = [] ∧ s.animationFrameIdRef = none

/-- The component is torn down: no animation frame is pending,
`animationFrameIdRef` is `null`, and the refs to the renderer, scene, camera,
sphere, texture, audio element, `AudioContext`, visualizer and analyser are
all `null`. -/
def tornDown (s : State) : Bool :=
  s.pendingFrames.isEmpty && s.animationFrameIdRef.isNone && s.rendererRef.isNone
    && s.sceneRef.isNone && s.cameraRef.isNone && s.sphereRef.isNone
    && s.textureRef.isNone && s.audioElRef.isNone && s.audioContextRef.isNone
    && s.visualizerRef.isNone && s.analyserRef.isNone

/-- The preset change goes through: the visualizer exists, `presets[newKey]`
exists, `isInitializedRef` is true, and `loadPreset` does not throw. -/
def presetChangeOk (s : State) (newKey : String) (failure : Option String) : Bool :=
  s.visualizerRef.isSome && (presetsGet s.presets newKey).isSome && s.isInitializedRef
    && failure.isNone

/-- The text after `Preset Error: ` when the preset change does not go
through: the first applicable reason in the order `Visualizer not ready`,
`Preset not found`, `Not initialized`, and otherwise the message of the
exception thrown by `loadPreset`. -/
def presetErrorText (s : State) (newKey : String) (failure : Option String) : String :=
  if s.visualizerRef.isNone then "Visualizer not ready"
  else if (presetsGet s.presets newKey).isNone then "Preset not found"
  else if s.isInitializedRef = false then "Not initialized"
  else failure.getD ""

/-- The four conditions of `handleResize`: the mount element, the renderer
and the camera exist and `isInitializedRef` is true. -/
def resizeOk (s : State) : Bool :=
  s.mountRef.isSome && s.rendererRef.isSome && s.cameraRef.isSome && s.isInitializedRef

/-- The client size of the mount element (and `0, 0` without one). -/
def clientSize (s : State) : Nat × Nat :=
  match s.mountRef with
  | some m => (m.clientWidth, m.clientHeight)
  | none => (0, 0)

/-- The visualizer, if there is one, renders a 1024 x 1024 texture. -/
def FixedTexture (s : State) : Prop :=
  ∀ v, s.visualizerRef = some v → v.width = 1024 ∧ v.height = 1024

/-- The flag is set only on a component that is completely set up: if
`isInitializedRef` is true, the audio element, the `AudioContext`, the seven
refs read by a frame and the handle of the running loop are all set. -/
def ReadyInv (s : State) : Prop :=
  s.isInitializedRef = true →
    s.audioElRef.isSome = true ∧ s.audioContextRef.isSome = true ∧ allRefsSet s = true
    ∧ s.animationFrameIdRef.isSome = true

/-- The overall level held in the uniform `uAudioLevel` of the sphere, if
there is a sphere, lies in `[0, 255/128]`. -/
def UniformInv (s : State) : Prop :=
  ∀ sphere, s.sphereRef = some sphere →
    0 ≤ sphere.uniforms.uAudioLevel ∧ sphere.uniforms.uAudioLevel ≤ 255 / 128

/-- Whether the frame gets as far as writing the uniforms: the seven refs are
set, and neither reading the frequency data nor the uniform update throws. -/
def writesUniforms (s : State) (env : FrameEnv) : Bool :=
  allRefsSet s && (throwsAt env.failure RenderStep.getByteFrequencyData).isNone
    && (throwsAt env.failure RenderStep.updateUniforms).isNone

/-- The uniforms a frame writes from the smoothed levels of the state `t`
it leaves (lines 309-317). -/
def uniformsOf (t : State) (env : FrameEnv) : Uniforms :=
  { uAudioLevel :=
      smoothedOverallLevel t.smoothedBassRef t.smoothedMidRef t.smoothedTrebleRef,
    uTime := env.elapsed,
    uBassLevel := t.smoothedBassRef,
    uMidLevel := t.smoothedMidRef,
    uTrebleLevel := t.smoothedTrebleRef }

/-! ## JavaScript numbers: rounding to an integer -/

theorem floor_le_roundHalfEven (t : ℚ) : ⌊t⌋ ≤ roundHalfEven t := by
  unfold roundHalfEven
  split_ifs <;> omega

theorem roundHalfEven_le_floor_add_one (t : ℚ) : roundHalfEven t ≤ ⌊t⌋ + 1 := by
  unfold roundHalfEven
  split_ifs <;> omega

theorem roundHalfEven_intCast (n : ℤ) : roundHalfEven (n : ℚ) = n := by
  unfold roundHalfEven
  rw [Int.floor_intCast]
  simp

theorem roundHalfEven_near (t : ℚ) :
    (roundHalfEven t : ℚ) - t ≤ 1 / 2 ∧ t - roundHalfEven t ≤ 1 / 2 := by
  have h1 := Int.floor_le t
  have h2 := Int.lt_floor_add_one t
  unfold roundHalfEven
  split_ifs with a b c
  · constructor <;> linarith
  · constructor <;> (push_cast; linarith)
  · constructor <;> linarith
  · constructor <;> (push_cast; linarith)

theorem roundHalfEven_eq_of_near (t : ℚ) (n : ℤ) (h1 : t - n < 1 / 2)
    (h2 : (n : ℚ) - t < 1 / 2) : roundHalfEven t = n := by
  obtain ⟨a, b⟩ := roundHalfEven_near t
  have u : ((roundHalfEven t - n : ℤ) : ℚ) < 1 := by
    push_cast
    linarith
  have l : ((n - roundHalfEven t : ℤ) : ℚ) < 1 := by
    push_cast
    linarith
  have u' : roundHalfEven t - n < 1 := by exact_mod_cast u
  have l' : n - roundHalfEven t < 1 := by exact_mod_cast l
  omega

theorem roundHalfEven_eq_of_tie (t : ℚ) (n : ℤ) (h1 : t - n ≤ 1 / 2)
    (h2 : (n : ℚ) - t ≤ 1 / 2) (hn : n % 2 = 0) : roundHalfEven t = n := by
  rcases lt_or_eq_of_le h1 with a | a
  · rcases lt_or_eq_of_le h2 with b | b
    · exact roundHalfEven_eq_of_near t n a b
    · have hf : ⌊t⌋ = n - 1 := by
        rw [Int.floor_eq_iff]
        push_cast
        constructor <;> linarith
      unfold roundHalfEven
      rw [hf]
      push_cast
      split_ifs <;> first | omega | (exfalso; linarith)
  · have hf : ⌊t⌋ = n := by
      rw [Int.floor_eq_iff]
      constructor <;> linarith
    unfold roundHalfEven
    rw [hf]
    split_ifs <;> first | omega | (exfalso; linarith)

theorem le_roundHalfEven (t : ℚ) (m : ℤ) (h : (m : ℚ) ≤ t) : m ≤ roundHalfEven t :=
  le_trans (Int.le_floor.mpr h) (floor_le_roundHalfEven t)

theorem roundHalfEven_le (t : ℚ) (m : ℤ) (h : t ≤ (m : ℚ)) : roundHalfEven t ≤ m := by
  by_cases ht : ((⌊t⌋ : ℤ) : ℚ) = t
  · rw [← ht, roundHalfEven_intCast]
    rw [← ht] at h
    exact_mod_cast h
  · have hlt : ((⌊t⌋ : ℤ) : ℚ) < t := lt_of_le_of_ne (Int.floor_le t) ht
    have hm : ((⌊t⌋ : ℤ) : ℚ) < (m : ℚ) := lt_of_lt_of_le hlt h
    have hm' : ⌊t⌋ < m := by exact_mod_cast hm
    have := roundHalfEven_le_floor_add_one t
    omega

theorem roundHalfEven_neg (t : ℚ) : roundHalfEven (-t) = -roundHalfEven t := by
  by_cases ht : ((⌊t⌋ : ℤ) : ℚ) = t
  · rw [← ht, ← Int.cast_neg, roundHalfEven_intCast, roundHalfEven_intCast]
  · have hlt : ((⌊t⌋ : ℤ) : ℚ) < t := lt_of_le_of_ne (Int.floor_le t) ht
    have hup := Int.lt_floor_add_one t
    have hf : ⌊-t⌋ = -⌊t⌋ - 1 := by
      rw [Int.floor_eq_iff]
      push_cast
      constructor <;> linarith
    unfold roundHalfEven
    rw [hf]
    push_cast
    split_ifs <;> first | omega | (exfalso; linarith)

theorem roundHalfEven_le_two_mul (t : ℚ) (h : 0 ≤ t) : (roundHalfEven t : ℚ) ≤ 2 * t := by
  rcases lt_or_le (1 / 2) t with h1 | h1
  · have := (roundHalfEven_near t).1
    linarith
  · have hf : ⌊t⌋ = 0 := by
      rw [Int.floor_eq_iff]
      push_cast
      constructor <;> linarith
    have : roundHalfEven t = 0 := by
      unfold roundHalfEven
      rw [hf]
      push_cast
      split_ifs <;> first | rfl | omega | (exfalso; linarith)
    rw [this]
    push_cast
    linarith

/-! ## Powers of two -/

theorem two_zpow_pos (e : ℤ) : (0 : ℚ) < 2 ^ e := zpow_pos (by norm_num) e

theorem two_zpow_le {a b : ℤ} (h : a ≤ b) : (2 : ℚ) ^ a ≤ 2 ^ b :=
  zpow_le_zpow_right₀ (by norm_num) h

theorem two_zpow_add (a b : ℤ) : (2 : ℚ) ^ (a + b) = 2 ^ a * 2 ^ b :=
  zpow_add₀ (by norm_num) a b

theorem le_of_two_zpow_le {a b : ℤ} (h : (2 : ℚ) ^ a ≤ 2 ^ b) : a ≤ b :=
  (zpow_le_zpow_iff_right₀ (by norm_num)).mp h

theorem int_mul_zpow (n e e' : ℤ) (h : e' ≤ e) : ∃ m : ℤ, (n : ℚ) * 2 ^ e = m * 2 ^ e' := by
  obtain ⟨k, hk⟩ : ∃ k : ℕ, e = e' + k := ⟨(e - e').toNat, by omega⟩
  refine ⟨n * 2 ^ k, ?_⟩
  rw [hk, two_zpow_add, zpow_natCast]
  push_cast
  ring

/-! ## The spacing of the doubles -/

theorem ulpExponent_ge (x : ℚ) : -1074 ≤ ulpExponent x := le_max_right _ _

theorem log_le_ulpExponent (x : ℚ) : Int.log 2 |x| - 52 ≤ ulpExponent x := le_max_left _ _

theorem abs_lt_zpow_ulp (x : ℚ) : |x| < 2 ^ (ulpExponent x + 53) := by
  have h := Int.lt_zpow_succ_log_self (R := ℚ) (b := 2) (by norm_num) |x|
  rw [Nat.cast_ofNat] at h
  have := log_le_ulpExponent x
  exact lt_of_lt_of_le h (two_zpow_le (by omega))

theorem zpow_le_abs_of_ulp (x : ℚ) (hx : x ≠ 0) (h : -1074 < ulpExponent x) :
    2 ^ (ulpExponent x + 52) ≤ |x| := by
  have e : ulpExponent x = Int.log 2 |x| - 52 := by
    unfold ulpExponent at h ⊢
    omega
  have hl := Int.zpow_log_le_self (R := ℚ) (b := 2) (r := |x|) (by norm_num) (abs_pos.mpr hx)
  rw [Nat.cast_ofNat] at hl
  rw [e]
  have e2 : Int.log 2 |x| - 52 + 52 = Int.log 2 |x| := by omega
  rw [e2]
  exact hl

theorem ulpExponent_eq (x : ℚ) (e : ℤ) (he : -1074 ≤ e) (hlo : 2 ^ (e + 52) ≤ |x|)
    (hhi : |x| < 2 ^ (e + 53)) : ulpExponent x = e := by
  have hpos : 0 < |x| := lt_of_lt_of_le (two_zpow_pos _) hlo
  have h1 : e + 52 ≤ Int.log 2 |x| :=
    (Int.zpow_le_iff_le_log (by norm_num) hpos).mp (by rw [Nat.cast_ofNat]; exact hlo)
  have h2 : Int.log 2 |x| < e + 53 :=
    (Int.lt_zpow_iff_log_lt (by norm_num) hpos).mp (by rw [Nat.cast_ofNat]; exact hhi)
  unfold ulpExponent
  omega

theorem ulpExponent_neg (x : ℚ) : ulpExponent (-x) = ulpExponent x := by
  unfold ulpExponent
  rw [abs_neg]

/-! ## JavaScript numbers: rounding to a double -/

theorem toDouble_neg (x : ℚ) : toDouble (-x) = -toDouble x := by
  unfold toDouble
  rw [ulpExponent_neg, neg_div, roundHalfEven_neg]
  push_cast
  ring

theorem toDouble_of_int_mul (m : ℤ) (x : ℚ) (h : x = m * 2 ^ ulpExponent x) :
    toDouble x = x := by
  unfold toDouble
  have e : x / 2 ^ ulpExponent x = m := (div_eq_iff (two_zpow_pos _).ne').mpr h
  rw [e, roundHalfEven_intCast]
  exact h.symm

theorem toDouble_zero : toDouble 0 = 0 :=
  toDouble_of_int_mul 0 0 (by simp)

theorem toDouble_of_repr (n e : ℤ) (hn : |n| ≤ 2 ^ 53) (he : -1074 ≤ e) :
    toDouble (n * 2 ^ e) = n * 2 ^ e := by
  rcases le_or_lt (ulpExponent ((n : ℚ) * 2 ^ e)) e with h | h
  · obtain ⟨m, hm⟩ := int_mul_zpow n e _ h
    exact toDouble_of_int_mul m _ hm
  · by_cases hn0 : n = 0
    · rw [hn0]
      simp [toDouble_zero]
    · have hxne : (n : ℚ) * 2 ^ e ≠ 0 :=
        mul_ne_zero (Int.cast_ne_zero.mpr hn0) (two_zpow_pos e).ne'
      have hlo := zpow_le_abs_of_ulp _ hxne (by omega)
      have habs : |(n : ℚ) * 2 ^ e| = ((|n| : ℤ) : ℚ) * 2 ^ e := by
        rw [abs_mul, abs_of_pos (two_zpow_pos e), Int.cast_abs]
      have h53 : (2 : ℚ) ^ (53 : ℤ) = ((2 ^ 53 : ℤ) : ℚ) := by norm_num
      have hnq : ((|n| : ℤ) : ℚ) ≤ 2 ^ (53 : ℤ) := by
        rw [h53]
        exact_mod_cast hn
      have hup : |(n : ℚ) * 2 ^ e| ≤ 2 ^ (e + 53) := by
        rw [habs, two_zpow_add, mul_comm]
        exact mul_le_mul_of_nonneg_left hnq (two_zpow_pos e).le
      have hu : ulpExponent ((n : ℚ) * 2 ^ e) = e + 1 := by
        have := le_of_two_zpow_le (le_trans hlo hup)
        omega
      rw [hu, habs] at hlo
      have e2 : e + 1 + 52 = 53 + e := by omega
      rw [e2, two_zpow_add] at hlo
      have hge : (2 : ℚ) ^ (53 : ℤ) ≤ ((|n| : ℤ) : ℚ) :=
        le_of_mul_le_mul_right hlo (two_zpow_pos e)
      have hge' : (2 : ℤ) ^ 53 ≤ |n| := by
        rw [h53] at hge
        exact_mod_cast hge
      have hn2 : n = 2 * (n / 2) := by
        rcases abs_cases n with ⟨ha, _⟩ | ⟨ha, _⟩ <;> omega
      apply toDouble_of_int_mul (n / 2)
      rw [hu, two_zpow_add]
      nth_rewrite 1 [hn2]
      push_cast
      ring

theorem toDouble_repr (x : ℚ) :
    ∃ n e : ℤ, |n| ≤ 2 ^ 53 ∧ -1074 ≤ e ∧ toDouble x = n * 2 ^ e := by
  refine ⟨roundHalfEven (x / 2 ^ ulpExponent x), ulpExponent x, ?_, ulpExponent_ge x, rfl⟩
  have hlt := abs_lt_zpow_ulp x
  rw [two_zpow_add, abs_lt] at hlt
  have hpos := two_zpow_pos (ulpExponent x)
  have h53 : (2 : ℚ) ^ (53 : ℤ) = ((2 ^ 53 : ℤ) : ℚ) := by norm_num
  rw [abs_le]
  constructor
  · have : ((-(2 ^ 53) : ℤ) : ℚ) ≤ x / 2 ^ ulpExponent x := by
      rw [le_div_iff₀ hpos]
      push_cast
      rw [h53] at hlt
      push_cast at hlt
      linarith
    exact le_roundHalfEven _ _ this
  · have : x / 2 ^ ulpExponent x ≤ ((2 ^ 53 : ℤ) : ℚ) := by
      rw [div_le_iff₀ hpos]
      rw [h53] at hlt
      push_cast at hlt ⊢
      linarith
    exact roundHalfEven_le _ _ this

theorem toDouble_idem (x : ℚ) : toDouble (toDouble x) = toDouble x := by
  obtain ⟨n, e, hn, he, h⟩ := toDouble_repr x
  rw [h]
  exact toDouble_of_repr n e hn he

/-- A double that is at most `x` is at most the double nearest to `x`. -/
theorem le_toDouble (a x : ℚ) (ha : toDouble a = a) (h : a ≤ x) : a ≤ toDouble x := by
  obtain ⟨n, e, hn, he, hr⟩ := toDouble_repr a
  rw [ha] at hr
  have hpos := two_zpow_pos (ulpExponent x)
  have h52 : (2 : ℚ) ^ (ulpExponent x + 52) = ((2 ^ 52 : ℤ) : ℚ) * 2 ^ ulpExponent x := by
    rw [add_comm, two_zpow_add]
    norm_num
  have key : ∀ m : ℤ, a = m * 2 ^ ulpExponent x → a ≤ toDouble x := by
    intro m hm
    have h1 : (m : ℚ) ≤ x / 2 ^ ulpExponent x := by
      rw [le_div_iff₀ hpos, ← hm]
      exact h
    have h2 : (m : ℚ) ≤ (roundHalfEven (x / 2 ^ ulpExponent x) : ℚ) := by
      exact_mod_cast le_roundHalfEven _ _ h1
    unfold toDouble
    rw [hm]
    exact mul_le_mul_of_nonneg_right h2 hpos.le
  rcases le_or_lt (ulpExponent x) e with hue | hue
  · obtain ⟨m, hm⟩ := int_mul_zpow n e _ hue
    exact key m (hr.trans hm)
  · by_cases hx0 : x = 0
    · rw [hx0, toDouble_zero]
      rw [hx0] at h
      exact h
    · have hlo := zpow_le_abs_of_ulp x hx0 (by omega)
      have h53 : (2 : ℚ) ^ (53 : ℤ) = ((2 ^ 53 : ℤ) : ℚ) := by norm_num
      have hnq : ((|n| : ℤ) : ℚ) ≤ 2 ^ (53 : ℤ) := by
        rw [h53]
        exact_mod_cast hn
      have habs : |a| ≤ 2 ^ (ulpExponent x + 52) := by
        rw [hr, abs_mul, abs_of_pos (two_zpow_pos e), ← Int.cast_abs]
        calc ((|n| : ℤ) : ℚ) * 2 ^ e ≤ 2 ^ (53 : ℤ) * 2 ^ e :=
              mul_le_mul_of_nonneg_right hnq (two_zpow_pos e).le
          _ = 2 ^ (53 + e) := (two_zpow_add 53 e).symm
          _ ≤ 2 ^ (ulpExponent x + 52) := two_zpow_le (by omega)
      rcases lt_or_gt_of_ne hx0 with hneg | hpos'
      · rw [abs_of_neg hneg] at hlo
        have h2 := neg_abs_le a
        have h3 : a = -(2 : ℚ) ^ (ulpExponent x + 52) := by linarith
        apply key (-(2 ^ 52))
        rw [h3, h52]
        push_cast
        ring
      · rw [abs_of_pos hpos'] at hlo
        have h1 : ((2 ^ 52 : ℤ) : ℚ) ≤ x / 2 ^ ulpExponent x := by
          rw [le_div_iff₀ hpos, ← h52]
          exact hlo
        have h2 : ((2 ^ 52 : ℤ) : ℚ) ≤ (roundHalfEven (x / 2 ^ ulpExponent x) : ℚ) := by
          exact_mod_cast le_roundHalfEven _ _ h1
        calc a ≤ |a| := le_abs_self a
          _ ≤ 2 ^ (ulpExponent x + 52) := habs
          _ = ((2 ^ 52 : ℤ) : ℚ) * 2 ^ ulpExponent x := h52
          _ ≤ toDouble x := mul_le_mul_of_nonneg_right h2 hpos.le

/-- A double that is at least `x` is at least the double nearest to `x`. -/
theorem toDouble_le (x b : ℚ) (hb : toDouble b = b) (h : x ≤ b) : toDouble x ≤ b := by
  have h1 := le_toDouble (-b) (-x) (by rw [toDouble_neg, hb]) (by linarith)
  rw [toDouble_neg] at h1
  linarith

theorem toDouble_nonneg (x : ℚ) (h : 0 ≤ x) : 0 ≤ toDouble x :=
  le_toDouble 0 x toDouble_zero h

theorem toDouble_nonpos (x : ℚ) (h : x ≤ 0) : toDouble x ≤ 0 :=
  toDouble_le x 0 toDouble_zero h

theorem toDouble_le_two_mul (x : ℚ) (h : 0 ≤ x) : toDouble x ≤ 2 * x := by
  have hpos := two_zpow_pos (ulpExponent x)
  have h1 := roundHalfEven_le_two_mul (x / 2 ^ ulpExponent x) (div_nonneg h hpos.le)
  unfold toDouble
  calc (roundHalfEven (x / 2 ^ ulpExponent x) : ℚ) * 2 ^ ulpExponent x
      ≤ 2 * (x / 2 ^ ulpExponent x) * 2 ^ ulpExponent x :=
        mul_le_mul_of_nonneg_right h1 hpos.le
    _ = 2 * x := by
        field_simp

/-- The rounding error is at most half the spacing. -/
theorem toDouble_error (x : ℚ) :
    toDouble x - x ≤ 2 ^ ulpExponent x / 2 ∧ x - toDouble x ≤ 2 ^ ulpExponent x / 2 := by
  have hpos := two_zpow_pos (ulpExponent x)
  obtain ⟨h1, h2⟩ := roundHalfEven_near (x / 2 ^ ulpExponent x)
  have e : x / 2 ^ ulpExponent x * 2 ^ ulpExponent x = x := by field_simp
  have a1 := mul_le_mul_of_nonneg_right h1 hpos.le
  have a2 := mul_le_mul_of_nonneg_right h2 hpos.le
  rw [sub_mul, e] at a1 a2
  unfold toDouble
  constructor <;> linarith

/-- The rounding error of a number below `2 ^ (k + 1)` in magnitude, for an
exponent `k` of the normal range, is at most `2 ^ (k - 53)`. -/
theorem toDouble_error_le (x : ℚ) (k : ℤ) (hk : -1022 ≤ k) (hx : |x| < 2 ^ (k + 1)) :
    |toDouble x - x| ≤ 2 ^ (k - 53) := by
  by_cases hx0 : x = 0
  · rw [hx0, toDouble_zero, sub_zero, abs_zero]
    exact (two_zpow_pos _).le
  have hu : ulpExponent x ≤ k - 52 := by
    have hl : Int.log 2 |x| < k + 1 :=
      (Int.lt_zpow_iff_log_lt (by norm_num) (abs_pos.mpr hx0)).mp
        (by rw [Nat.cast_ofNat]; exact hx)
    unfold ulpExponent
    omega
  obtain ⟨h1, h2⟩ := toDouble_error x
  have h3 : (2 : ℚ) ^ ulpExponent x / 2 ≤ 2 ^ (k - 53) := by
    have e : k - 53 = (k - 52) + (-1) := by omega
    rw [e, two_zpow_add]
    have := two_zpow_le hu
    norm_num
    linarith
  rw [abs_le]
  constructor <;> linarith

/-- A certificate for the double nearest to a positive number of the normal
range: `n * 2 ^ e` with `x` within half a spacing of it. -/
theorem toDouble_eq (x : ℚ) (n e : ℤ) (he : -1074 ≤ e) (hlo : 2 ^ (e + 52) ≤ x)
    (hhi : x < 2 ^ (e + 53)) (h1 : x - n * 2 ^ e < 2 ^ e / 2)
    (h2 : n * 2 ^ e - x < 2 ^ e / 2) : toDouble x = n * 2 ^ e := by
  have hx : 0 < x := lt_of_lt_of_le (two_zpow_pos _) hlo
  have hu : ulpExponent x = e :=
    ulpExponent_eq x e he (by rw [abs_of_pos hx]; exact hlo) (by rw [abs_of_pos hx]; exact hhi)
  have hpos := two_zpow_pos e
  unfold toDouble
  rw [hu, roundHalfEven_eq_of_near (x / 2 ^ e) n]
  · rw [div_sub' _ _ _ hpos.ne', div_lt_iff₀ hpos]
    linarith
  · rw [sub_div' _ _ _ hpos.ne', div_lt_iff₀ hpos]
    linarith

theorem roundHalfEven_mono {t t' : ℚ} (h : t ≤ t') : roundHalfEven t ≤ roundHalfEven t' := by
  rcases lt_or_eq_of_le (Int.floor_mono h) with hf | hf
  · have h1 := roundHalfEven_le_floor_add_one t
    have h2 := floor_le_roundHalfEven t'
    omega
  · unfold roundHalfEven
    rw [hf]
    split_ifs <;> first | omega | (exfalso; linarith)

theorem ulpExponent_mono (x y : ℚ) (hx : x ≠ 0) (h : |x| ≤ |y|) :
    ulpExponent x ≤ ulpExponent y := by
  have hl : Int.log 2 |x| ≤ Int.log 2 |y| := Int.log_mono_right (abs_pos.mpr hx) h
  unfold ulpExponent
  omega

theorem toDouble_mono_of_nonneg (x y : ℚ) (hx : 0 ≤ x) (h : x ≤ y) :
    toDouble x ≤ toDouble y := by
  rcases eq_or_lt_of_le hx with hx0 | hxpos
  · rw [← hx0, toDouble_zero]
    exact toDouble_nonneg y (le_trans hx h)
  · have hy : 0 < y := lt_of_lt_of_le hxpos h
    have hu := ulpExponent_mono x y hxpos.ne' (by rw [abs_of_pos hxpos, abs_of_pos hy]; exact h)
    rcases eq_or_lt_of_le hu with he | hlt
    · unfold toDouble
      rw [he]
      have hpos := two_zpow_pos (ulpExponent y)
      have h1 : x / 2 ^ ulpExponent y ≤ y / 2 ^ ulpExponent y :=
        div_le_div_of_nonneg_right h hpos.le
      have h2 : (roundHalfEven (x / 2 ^ ulpExponent y) : ℚ)
          ≤ (roundHalfEven (y / 2 ^ ulpExponent y) : ℚ) := by
        exact_mod_cast roundHalfEven_mono h1
      exact mul_le_mul_of_nonneg_right h2 hpos.le
    · have hlo := zpow_le_abs_of_ulp y hy.ne' (by have := ulpExponent_ge x; omega)
      rw [abs_of_pos hy] at hlo
      have hhi := abs_lt_zpow_ulp x
      rw [abs_of_pos hxpos] at hhi
      have hP : toDouble (2 ^ (ulpExponent y + 52)) = 2 ^ (ulpExponent y + 52) := by
        have := toDouble_of_repr 1 (ulpExponent y + 52) (by norm_num)
          (by have := ulpExponent_ge y; omega)
        simpa using this
      have hxP : x ≤ 2 ^ (ulpExponent y + 52) :=
        le_trans hhi.le (two_zpow_le (by omega))
      exact le_trans (toDouble_le x _ hP hxP) (le_toDouble _ y hP hlo)

/-- Rounding to the nearest double is monotone. -/
theorem toDouble_mono {x y : ℚ} (h : x ≤ y) : toDouble x ≤ toDouble y := by
  rcases le_or_lt 0 x with hx | hx
  · exact toDouble_mono_of_nonneg x y hx h
  · rcases le_or_lt 0 y with hy | hy
    · exact le_trans (toDouble_nonpos x hx.le) (toDouble_nonneg y hy)
    · have := toDouble_mono_of_nonneg (-y) (-x) (by linarith) (by linarith)
      rw [toDouble_neg, toDouble_neg] at this
      linarith

/-- A certificate for the double nearest to a positive number of the normal
range that may lie half-way between two doubles: `n * 2 ^ e` with `n` even and
`x` at most half a spacing away. -/
theorem toDouble_eq_tie (x : ℚ) (n e : ℤ) (he : -1074 ≤ e) (hlo : 2 ^ (e + 52) ≤ x)
    (hhi : x < 2 ^ (e + 53)) (h1 : x - n * 2 ^ e ≤ 2 ^ e / 2)
    (h2 : n * 2 ^ e - x ≤ 2 ^ e / 2) (hn : n % 2 = 0) : toDouble x = n * 2 ^ e := by
  have hx : 0 < x := lt_of_lt_of_le (two_zpow_pos _) hlo
  have hu : ulpExponent x = e :=
    ulpExponent_eq x e he (by rw [abs_of_pos hx]; exact hlo) (by rw [abs_of_pos hx]; exact hhi)
  have hpos := two_zpow_pos e
  unfold toDouble
  rw [hu, roundHalfEven_eq_of_tie (x / 2 ^ e) n _ _ hn]
  · rw [div_sub' _ _ _ hpos.ne', div_le_iff₀ hpos]
    linarith
  · rw [sub_div' _ _ _ hpos.ne', div_le_iff₀ hpos]
    linarith

theorem toDouble_cert_tie (x y : ℚ) (n e : ℤ) (he : -1074 ≤ e) (hy : y = n * 2 ^ e)
    (hlo : 2 ^ (e + 52) ≤ x) (hhi : x < 2 ^ (e + 53)) (h1 : x - y ≤ 2 ^ e / 2)
    (h2 : y - x ≤ 2 ^ e / 2) (hn : n % 2 = 0) : toDouble x = y := by
  rw [hy] at h1 h2 ⊢
  exact toDouble_eq_tie x n e he hlo hhi h1 h2 hn

/-- A certificate for `toDouble x = y`: `y` is `n * 2 ^ e`, and the positive
number `x` of the normal range lies within half a spacing of it. -/
theorem toDouble_cert (x y : ℚ) (n e : ℤ) (he : -1074 ≤ e) (hy : y = n * 2 ^ e)
    (hlo : 2 ^ (e + 52) ≤ x) (hhi : x < 2 ^ (e + 53)) (h1 : x - y < 2 ^ e / 2)
    (h2 : y - x < 2 ^ e / 2) : toDouble x = y := by
  rw [hy] at h1 h2 ⊢
  exact toDouble_eq x n e he hlo hhi h1 h2

theorem isDouble_of (x : ℚ) (n e : ℤ) (hn : |n| ≤ 2 ^ 53) (he : -1074 ≤ e)
    (hx : x = n * 2 ^ e) : IsDouble x := by
  unfold IsDouble
  rw [hx]
  exact toDouble_of_repr n e hn he

theorem isDouble_toDouble (x : ℚ) : IsDouble (toDouble x) := toDouble_idem x

theorem isDouble_zero : IsDouble 0 := toDouble_zero

theorem isDouble_neg (x : ℚ) (h : IsDouble x) : IsDouble (-x) := by
  unfold IsDouble at h ⊢
  rw [toDouble_neg, h]

/-! ## Frequency bands: proofs -/

theorem foldl_getD_range' (a : List Nat) (n lo acc : Nat) :
    (List.range' lo n).foldl (fun sum i => sum + a.getD i 0) acc
      = acc + ((a.drop lo).take n).sum := by
  induction n generalizing lo acc with
  | zero => simp
  | succ n ih =>
    rw [List.range'_succ, List.foldl_cons, ih]
    rcases Nat.lt_or_ge lo a.length with h | h
    · rw [List.drop_eq_getElem_cons h, List.take_succ_cons, List.sum_cons,
        List.getD_eq_getElem _ _ h]
      omega
    · rw [List.drop_eq_nil_of_le h, List.drop_eq_nil_of_le (by omega),
        List.getD_eq_default _ _ h]
      simp

theorem sumRange_eq_slice (a : List Nat) (lo hi : Nat) :
    sumRange a lo hi = (slice a lo hi).sum := by
  unfold sumRange slice
  rw [foldl_getD_range', Nat.zero_add]

theorem bassEnd_le_midEnd (n : Nat) : bassEnd n ≤ midEnd n := by
  unfold bassEnd midEnd
  omega

theorem midEnd_le (n : Nat) : midEnd n ≤ n := by
  unfold midEnd
  omega

theorem slice_length (a : List Nat) (lo hi : Nat) (h : hi ≤ a.length) :
    (slice a lo hi).length = hi - lo := by
  simp [slice]
  omega

theorem slice_append (a : List Nat) (lo mid hi : Nat) (h1 : lo ≤ mid) (h2 : mid ≤ hi) :
    slice a lo mid ++ slice a mid hi = slice a lo hi := by
  unfold slice
  have e : hi - lo = (mid - lo) + (hi - mid) := by omega
  have d : a.drop mid = (a.drop lo).drop (mid - lo) := by
    rw [List.drop_drop]
    congr 1
    omega
  rw [e, List.take_add, d]

theorem slice_full (a : List Nat) : slice a 0 a.length = a := by
  simp [slice]

theorem avg_eq_mean (a : List Nat) (lo hi : Nat) (h : hi ≤ a.length) :
    (if hi - lo > 0 then ((sumRange a lo hi : Nat) : ℚ) / ((hi - lo : Nat) : ℚ) else 0)
      = mean (slice a lo hi) := by
  unfold mean
  rw [sumRange_eq_slice]
  have hl := slice_length a lo hi h
  by_cases hz : hi - lo > 0
  · have hne : slice a lo hi ≠ [] := by
      intro hnil
      rw [hnil] at hl
      simp at hl
      omega
    rw [if_pos hz, if_neg hne, hl]
  · have hnil : slice a lo hi = [] := by
      apply List.eq_nil_of_length_eq_zero
      omega
    rw [if_neg hz, if_pos hnil]

theorem bandAvg_eq_mean (a : List Nat) :
    bassAvg a = mean (slice a 0 (bassEnd a.length))
    ∧ midAvg a = mean (slice a (bassEnd a.length) (midEnd a.length))
    ∧ trebleAvg a = mean (slice a (midEnd a.length) a.length) := by
  have hbm := bassEnd_le_midEnd a.length
  have hmn := midEnd_le a.length
  refine ⟨?_, avg_eq_mean a (bassEnd a.length) (midEnd a.length) hmn,
    avg_eq_mean a (midEnd a.length) a.length (le_refl _)⟩
  have h := avg_eq_mean a 0 (bassEnd a.length) (le_trans hbm hmn)
  rw [Nat.sub_zero] at h
  exact h

/-- C2: for every buffer, with `b = bassEnd n` and `m = midEnd n` the floors of
`0.15 n` and `0.4 n`, one has `b ≤ m ≤ n`; the three loops sum the contiguous
slices `[0,b)`, `[b,m)`, `[m,n)`, which have lengths `b`, `m - b`, `n - m` and
concatenate to the whole buffer, so the three sums add up to the sum of the
buffer; each band average is the arithmetic mean of its slice, and `0` for an
empty slice; and for `n = 1024`, the bin count of an analyser with
`fftSize = 2048`, the bounds are `153` and `409`. -/
theorem band_levels_partition (a : List Nat) :
    bassEnd a.length ≤ midEnd a.length ∧ midEnd a.length ≤ a.length
    ∧ bassSum a = (slice a 0 (bassEnd a.length)).sum
    ∧ midSum a = (slice a (bassEnd a.length) (midEnd a.length)).sum
    ∧ trebleSum a = (slice a (midEnd a.length) a.length).sum
    ∧ (slice a 0 (bassEnd a.length)).length = bassEnd a.length
    ∧ (slice a (bassEnd a.length) (midEnd a.length)).length
        = midEnd a.length - bassEnd a.length
    ∧ (slice a (midEnd a.length) a.length).length = a.length - midEnd a.length
    ∧ slice a 0 (bassEnd a.length) ++ slice a (bassEnd a.length) (midEnd a.length)
        ++ slice a (midEnd a.length) a.length = a
    ∧ bassSum a + midSum a + trebleSum a = a.sum
    ∧ bassAvg a = mean (slice a 0 (bassEnd a.length))
    ∧ midAvg a = mean (slice a (bassEnd a.length) (midEnd a.length))
    ∧ trebleAvg a = mean (slice a (midEnd a.length) a.length)
    ∧ (⟨2048, true⟩ : Analyser).frequencyBinCount = 1024
    ∧ bassEnd 1024 = 153 ∧ midEnd 1024 = 409 := by
  have hbm := bassEnd_le_midEnd a.length
  have hmn := midEnd_le a.length
  have hcat : slice a 0 (bassEnd a.length) ++ slice a (bassEnd a.length) (midEnd a.length)
      ++ slice a (midEnd a.length) a.length = a := by
    rw [slice_append a 0 _ _ (Nat.zero_le _) hbm, slice_append a 0 _ _ (Nat.zero_le _) hmn,
      slice_full]
  have havg := bandAvg_eq_mean a
  refine ⟨hbm, hmn, sumRange_eq_slice _ _ _, sumRange_eq_slice _ _ _, sumRange_eq_slice _ _ _,
    ?_, slice_length _ _ _ hmn, slice_length _ _ _ (le_refl _), hcat, ?_,
    havg.1, havg.2.1, havg.2.2, ?_, ?_, ?_⟩
  · rw [slice_length _ _ _ (le_trans hbm hmn), Nat.sub_zero]
  · unfold bassSum midSum trebleSum
    rw [sumRange_eq_slice, sumRange_eq_slice, sumRange_eq_slice, ← List.sum_append,
      ← List.sum_append, hcat]
  · decide
  · decide
  · decide

/-! ## Smoothing: proofs -/

theorem smoothingFactor_eq : smoothingFactor = 5764607523034235 / 72057594037927936 := by
  unfold smoothingFactor
  apply toDouble_cert (8 / 100) _ 5764607523034235 (-56) <;> norm_num

theorem smooth_cert (s r d p t : ℚ) (hd : toDouble (r - s) = d)
    (hp : toDouble (d * (5764607523034235 / 72057594037927936)) = p)
    (ht : toDouble (s + p) = t) : smooth s r = t := by
  unfold smooth
  rw [smoothingFactor_eq, hd, hp, ht]

theorem smoothingFactor_bounds :
    0 ≤ smoothingFactor ∧ smoothingFactor ≤ 1 / 8 ∧ 8 / 100 ≤ smoothingFactor
    ∧ smoothingFactor - 8 / 100 ≤ 1 / 2 ^ 59 := by
  rw [smoothingFactor_eq]
  norm_num

theorem isDouble_bound : IsDouble (255 / 128) :=
  isDouble_of _ 255 (-7) (by norm_num) (by norm_num) (by norm_num)

/-- The increment `(raw - s) * smoothingFactor` as computed, for `s ≤ raw`:
it is not negative and does not overshoot. -/
theorem increment_bounds (s r : ℚ) (h : s ≤ r) :
    0 ≤ toDouble (toDouble (r - s) * smoothingFactor)
    ∧ toDouble (toDouble (r - s) * smoothingFactor) ≤ r - s := by
  obtain ⟨c0, c1, _, _⟩ := smoothingFactor_bounds
  have d0 := toDouble_nonneg (r - s) (by linarith)
  have d1 := toDouble_le_two_mul (r - s) (by linarith)
  have x0 : 0 ≤ toDouble (r - s) * smoothingFactor := mul_nonneg d0 c0
  have p1 := toDouble_le_two_mul _ x0
  have x1 : toDouble (r - s) * smoothingFactor ≤ toDouble (r - s) * (1 / 8) :=
    mul_le_mul_of_nonneg_left c1 d0
  exact ⟨toDouble_nonneg _ x0, by linarith⟩

theorem increment_neg (s r : ℚ) :
    toDouble (toDouble (r - s) * smoothingFactor)
      = -toDouble (toDouble (s - r) * smoothingFactor) := by
  have e : r - s = -(s - r) := by ring
  rw [e, toDouble_neg, neg_mul, toDouble_neg]

theorem smooth_sum_between (s r : ℚ) :
    min s r ≤ s + toDouble (toDouble (r - s) * smoothingFactor)
    ∧ s + toDouble (toDouble (r - s) * smoothingFactor) ≤ max s r := by
  rcases le_total s r with h | h
  · obtain ⟨a, b⟩ := increment_bounds s r h
    rw [min_eq_left h, max_eq_right h]
    constructor <;> linarith
  · obtain ⟨a, b⟩ := increment_bounds r s h
    rw [increment_neg, min_eq_right h, max_eq_left h]
    constructor <;> linarith

theorem smooth_between (s r : ℚ) (hs : IsDouble s) (hr : IsDouble r) :
    min s r ≤ smooth s r ∧ smooth s r ≤ max s r := by
  obtain ⟨a, b⟩ := smooth_sum_between s r
  have hmin : IsDouble (min s r) := by
    rcases min_choice s r with h | h <;> rw [h] <;> assumption
  have hmax : IsDouble (max s r) := by
    rcases max_choice s r with h | h <;> rw [h] <;> assumption
  exact ⟨le_toDouble _ _ hmin a, toDouble_le _ _ hmax b⟩

theorem smooth_range (s r lo hi : ℚ) (hlo : IsDouble lo) (hhi : IsDouble hi)
    (hs : lo ≤ s ∧ s ≤ hi) (hr : lo ≤ r ∧ r ≤ hi) :
    lo ≤ smooth s r ∧ smooth s r ≤ hi := by
  obtain ⟨a, b⟩ := smooth_sum_between s r
  exact ⟨le_toDouble _ _ hlo (le_trans (le_min hs.1 hr.1) a),
    toDouble_le _ _ hhi (le_trans b (max_le hs.2 hr.2))⟩

theorem smooth_fixed (r : ℚ) (hr : IsDouble r) : smooth r r = r := by
  unfold smooth
  rw [sub_self, toDouble_zero, zero_mul, toDouble_zero, add_zero]
  exact hr

theorem smoothExact_eq (s r : ℚ) : smoothExact s r = 92 / 100 * s + 8 / 100 * r := by
  unfold smoothExact
  ring

theorem foldl_smoothExact_eq (rs : List ℚ) : rs.foldl smoothExact 0 = weightedSum rs := by
  induction rs using List.reverseRecOn with
  | nil => simp [weightedSum]
  | append_singleton rs r ih =>
    rw [List.foldl_append, List.foldl_cons, List.foldl_nil, ih, smoothExact_eq]
    unfold weightedSum
    rw [List.length_append, List.length_singleton, Finset.sum_range_succ, Finset.mul_sum]
    congr 1
    · apply Finset.sum_congr rfl
      intro i hi
      have hi' : i < rs.length := Finset.mem_range.mp hi
      have e : rs.length + 1 - 1 - i = (rs.length - 1 - i) + 1 := by omega
      rw [e, pow_succ, List.getD_append _ _ _ _ hi']
      ring
    · have e : rs.length + 1 - 1 - rs.length = 0 := by omega
      rw [e, pow_zero, List.getD_append_right _ _ _ _ (le_refl _)]
      simp

/-- The rounding error of one smoothing update of levels in `[0, 255/128]`. -/
theorem smooth_error (s r : ℚ) (hs : 0 ≤ s ∧ s ≤ 255 / 128)
    (hr : 0 ≤ r ∧ r ≤ 255 / 128) :
    |smooth s r - smoothExact s r| ≤ 1 / 2 ^ 52 := by
  obtain ⟨c0, c1, c2, c3⟩ := smoothingFactor_bounds
  have hx1 : |r - s| ≤ 255 / 128 :=
    abs_le.mpr ⟨by linarith [hs.2, hr.1], by linarith [hs.1, hr.2]⟩
  have e1 : |toDouble (r - s) - (r - s)| ≤ 2 ^ ((0 : ℤ) - 53) :=
    toDouble_error_le (r - s) 0 (by norm_num) (lt_of_le_of_lt hx1 (by norm_num))
  have hd : |toDouble (r - s)| ≤ 255 / 128 :=
    abs_le.mpr ⟨le_toDouble _ _ (isDouble_neg _ isDouble_bound) (abs_le.mp hx1).1,
      toDouble_le _ _ isDouble_bound (abs_le.mp hx1).2⟩
  have hx2 : |toDouble (r - s) * smoothingFactor| ≤ 255 / 1024 := by
    rw [abs_mul, abs_of_nonneg c0]
    calc |toDouble (r - s)| * smoothingFactor ≤ 255 / 128 * (1 / 8) :=
          mul_le_mul hd c1 c0 (by norm_num)
      _ = 255 / 1024 := by norm_num
  have e2 : |toDouble (toDouble (r - s) * smoothingFactor) - toDouble (r - s) * smoothingFactor|
      ≤ 2 ^ ((-3 : ℤ) - 53) :=
    toDouble_error_le _ (-3) (by norm_num) (lt_of_le_of_lt hx2 (by norm_num))
  obtain ⟨b1, b2⟩ := smooth_sum_between s r
  have hx3 : |s + toDouble (toDouble (r - s) * smoothingFactor)| < 2 ^ ((0 : ℤ) + 1) := by
    have l := le_min hs.1 hr.1
    have u := max_le hs.2 hr.2
    have h2 : |s + toDouble (toDouble (r - s) * smoothingFactor)| < 2 := by
      rw [abs_lt]
      constructor <;> linarith
    norm_num
    exact h2
  have e3 : |smooth s r - (s + toDouble (toDouble (r - s) * smoothingFactor))|
      ≤ 2 ^ ((0 : ℤ) - 53) :=
    toDouble_error_le _ 0 (by norm_num) hx3
  have e4 : |(toDouble (r - s) - (r - s)) * smoothingFactor|
      ≤ 2 ^ ((0 : ℤ) - 53) * (1 / 8) := by
    rw [abs_mul, abs_of_nonneg c0]
    exact mul_le_mul e1 c1 c0 (two_zpow_pos _).le
  have e5 : |(r - s) * (smoothingFactor - 8 / 100)| ≤ 255 / 128 * (1 / 2 ^ 59) := by
    rw [abs_mul, abs_of_nonneg (by linarith : (0 : ℚ) ≤ smoothingFactor - 8 / 100)]
    exact mul_le_mul hx1 c3 (by linarith) (by norm_num)
  have key : smooth s r - smoothExact s r
      = (smooth s r - (s + toDouble (toDouble (r - s) * smoothingFactor)))
        + (toDouble (toDouble (r - s) * smoothingFactor) - toDouble (r - s) * smoothingFactor)
        + (toDouble (r - s) - (r - s)) * smoothingFactor
        + (r - s) * (smoothingFactor - 8 / 100) := by
    unfold smoothExact
    ring
  rw [key]
  rw [abs_le] at e2 e3 e4 e5 ⊢
  norm_num at e2 e3 e4 e5 ⊢
  constructor <;> linarith

theorem foldl_smooth_range (rs : List ℚ) (s : ℚ) (hs : 0 ≤ s ∧ s ≤ 255 / 128)
    (hrs : ∀ x ∈ rs, 0 ≤ x ∧ x ≤ 255 / 128) :
    0 ≤ rs.foldl smooth s ∧ rs.foldl smooth s ≤ 255 / 128 := by
  induction rs generalizing s with
  | nil => exact hs
  | cons r rs ih =>
    rw [List.foldl_cons]
    exact ih _ (smooth_range s r 0 (255 / 128) isDouble_zero isDouble_bound hs
      (hrs r (List.mem_cons_self r rs))) (fun x hx => hrs x (List.mem_cons_of_mem r hx))

/-- The rounding error accumulated over any number of updates from `0`. -/
theorem foldl_smooth_error (rs : List ℚ) (hrs : ∀ x ∈ rs, 0 ≤ x ∧ x ≤ 255 / 128) :
    |rs.foldl smooth 0 - weightedSum rs| ≤ 1 / 2 ^ 48 := by
  have main : ∀ rs : List ℚ, (∀ x ∈ rs, 0 ≤ x ∧ x ≤ 255 / 128) →
      |rs.foldl smooth 0 - rs.foldl smoothExact 0| ≤ 25 / 2 * (1 / 2 ^ 52) := by
    intro rs
    induction rs using List.reverseRecOn with
    | nil =>
      intro _
      norm_num
    | append_singleton rs r ih =>
      intro h
      have hrs' : ∀ x ∈ rs, 0 ≤ x ∧ x ≤ 255 / 128 :=
        fun x hx => h x (List.mem_append_left _ hx)
      have hr : 0 ≤ r ∧ r ≤ 255 / 128 := h r (by simp)
      have hS := foldl_smooth_range rs 0 (by norm_num) hrs'
      have e := smooth_error (rs.foldl smooth 0) r hS hr
      have i := ih hrs'
      rw [List.foldl_append, List.foldl_append, List.foldl_cons, List.foldl_nil,
        List.foldl_cons, List.foldl_nil]
      have key : smooth (rs.foldl smooth 0) r - smoothExact (rs.foldl smoothExact 0) r
          = (smooth (rs.foldl smooth 0) r - smoothExact (rs.foldl smooth 0) r)
            + 92 / 100 * (rs.foldl smooth 0 - rs.foldl smoothExact 0) := by
        unfold smoothExact
        ring
      rw [key]
      rw [abs_le] at e i ⊢
      constructor <;> linarith
  have h := main rs hrs
  rw [foldl_smoothExact_eq] at h
  refine le_trans h ?_
  norm_num

theorem smoothedOverallLevel_mono (a b c a' b' c' : ℚ) (ha : a ≤ a') (hb : b ≤ b')
    (hc : c ≤ c') : smoothedOverallLevel a b c ≤ smoothedOverallLevel a' b' c' := by
  unfold smoothedOverallLevel
  apply toDouble_mono
  apply div_le_div_of_nonneg_right _ (by norm_num)
  apply toDouble_mono
  exact add_le_add (toDouble_mono (add_le_add ha hb)) hc

theorem smoothedOverallLevel_parts (a b c : ℚ) (ha : 0 ≤ a ∧ a ≤ 255 / 128)
    (hb : 0 ≤ b ∧ b ≤ 255 / 128) (hc : 0 ≤ c ∧ c ≤ 255 / 128) :
    (0 ≤ toDouble (a + b) ∧ toDouble (a + b) ≤ 255 / 64)
    ∧ (0 ≤ toDouble (toDouble (a + b) + c)
      ∧ toDouble (toDouble (a + b) + c) ≤ 765 / 128) := by
  have h2 : IsDouble (255 / 64) :=
    isDouble_of _ 255 (-6) (by norm_num) (by norm_num) (by norm_num)
  have h3 : IsDouble (765 / 128) :=
    isDouble_of _ 765 (-7) (by norm_num) (by norm_num) (by norm_num)
  have f1 : 0 ≤ toDouble (a + b) ∧ toDouble (a + b) ≤ 255 / 64 :=
    ⟨toDouble_nonneg _ (by linarith [ha.1, hb.1]),
      toDouble_le _ _ h2 (by linarith [ha.2, hb.2])⟩
  exact ⟨f1, toDouble_nonneg _ (by linarith [f1.1, hc.1]),
    toDouble_le _ _ h3 (by linarith [f1.2, hc.2])⟩

theorem smoothedOverallLevel_range (a b c : ℚ) (ha : 0 ≤ a ∧ a ≤ 255 / 128)
    (hb : 0 ≤ b ∧ b ≤ 255 / 128) (hc : 0 ≤ c ∧ c ≤ 255 / 128) :
    0 ≤ smoothedOverallLevel a b c ∧ smoothedOverallLevel a b c ≤ 255 / 128 := by
  obtain ⟨_, f2⟩ := smoothedOverallLevel_parts a b c ha hb hc
  unfold smoothedOverallLevel
  exact ⟨toDouble_nonneg _ (by linarith [f2.1]),
    toDouble_le _ _ isDouble_bound (by linarith [f2.2])⟩

/-- The rounding error of the overall level of three levels in `[0, 255/128]`. -/
theorem smoothedOverallLevel_error (a b c : ℚ) (ha : 0 ≤ a ∧ a ≤ 255 / 128)
    (hb : 0 ≤ b ∧ b ≤ 255 / 128) (hc : 0 ≤ c ∧ c ≤ 255 / 128) :
    |smoothedOverallLevel a b c - (a + b + c) / 3| ≤ 1 / 2 ^ 51 := by
  obtain ⟨f1, f2⟩ := smoothedOverallLevel_parts a b c ha hb hc
  have e1 : |toDouble (a + b) - (a + b)| ≤ 2 ^ ((1 : ℤ) - 53) :=
    toDouble_error_le _ 1 (by norm_num)
      (by rw [abs_of_nonneg (by linarith [ha.1, hb.1])]; norm_num; linarith [ha.2, hb.2])
  have e2 : |toDouble (toDouble (a + b) + c) - (toDouble (a + b) + c)| ≤ 2 ^ ((2 : ℤ) - 53) :=
    toDouble_error_le _ 2 (by norm_num)
      (by rw [abs_of_nonneg (by linarith [f1.1, hc.1])]; norm_num; linarith [f1.2, hc.2])
  have e3 : |smoothedOverallLevel a b c - toDouble (toDouble (a + b) + c) / 3|
      ≤ 2 ^ ((0 : ℤ) - 53) :=
    toDouble_error_le _ 0 (by norm_num)
      (by rw [abs_of_nonneg (by linarith [f2.1])]; norm_num; linarith [f2.2])
  rw [abs_le] at e1 e2 e3 ⊢
  norm_num at e1 e2 e3 ⊢
  constructor <;> linarith

theorem renderCombinedFrame_levels (s : State) (env : FrameEnv) :
    let array := getByteFrequencyData env.freq s.audioDataArray
    let s1 := renderCombinedFrame s env
    (s1.smoothedBassRef = if updatesLevels s env then
        smooth s.smoothedBassRef (normBassRaw array) else s.smoothedBassRef)
    ∧ (s1.smoothedMidRef = if updatesLevels s env then
        smooth s.smoothedMidRef (normMidRaw array) else s.smoothedMidRef)
    ∧ (s1.smoothedTrebleRef = if updatesLevels s env then
        smooth s.smoothedTrebleRef (normTrebleRaw array) else s.smoothedTrebleRef)
    ∧ (s1.audioDataArray = if updatesLevels s env then array else s.audioDataArray) := by
  rcases env with ⟨freq, elapsed, failure⟩
  by_cases hg : allRefsSet s = true
  · rcases failure with _ | ⟨step, msg⟩
    · simp [renderCombinedFrame, renderTry, updatesLevels, hg, attempt, throwsAt,
        Outcome.andThen, requestAnimationFrame]
      split <;> simp
    · cases step <;>
        simp [renderCombinedFrame, renderTry, updatesLevels, hg, attempt, throwsAt,
          Outcome.andThen, requestAnimationFrame, renderCatch, cancelAnimationFrame] <;>
        (repeat' split) <;> simp
  · simp [renderCombinedFrame, updatesLevels, hg, requestAnimationFrame]
    split <;> simp

/-- The sphere after a frame: its uniforms are rewritten from the smoothed
levels the frame leaves, when the frame gets that far and the material is a
shader material, and the sphere is as it was otherwise. -/
theorem renderCombinedFrame_sphere (s : State) (env : FrameEnv) :
    (renderCombinedFrame s env).sphereRef
      = if writesUniforms s env then
          s.sphereRef.map fun (sphere : Sphere) =>
            if sphere.shaderMaterial then
              { sphere with uniforms := uniformsOf (renderCombinedFrame s env) env }
            else sphere
        else s.sphereRef := by
  rcases env with ⟨freq, elapsed, failure⟩
  by_cases hg : allRefsSet s = true
  · rcases failure with _ | ⟨st, msg⟩
    · simp [renderCombinedFrame, renderTry, writesUniforms, uniformsOf, hg, attempt, throwsAt,
        Outcome.andThen, requestAnimationFrame]
      split <;> simp
    · cases st <;>
        simp [renderCombinedFrame, renderTry, writesUniforms, uniformsOf, hg, attempt,
          throwsAt, Outcome.andThen, requestAnimationFrame, renderCatch,
          cancelAnimationFrame] <;>
        (repeat' split) <;> simp
  · simp [renderCombinedFrame, writesUniforms, hg, requestAnimationFrame]
    split <;> simp

/-! ## Bounds on the smoothed levels: proofs -/

theorem mean_bounds (l : List Nat) (h : ∀ x ∈ l, x ≤ 255) : 0 ≤ mean l ∧ mean l ≤ 255 := by
  unfold mean
  split
  · norm_num
  · rename_i hne
    have hlen : 0 < l.length := List.length_pos.mpr hne
    have hpos : (0 : ℚ) < (l.length : ℚ) := by exact_mod_cast hlen
    have hsum : l.sum ≤ l.length * 255 := by
      have := List.sum_le_card_nsmul l 255 h
      simpa using this
    have hsumq : (l.sum : ℚ) ≤ (l.length : ℚ) * 255 := by exact_mod_cast hsum
    constructor
    · positivity
    · rw [div_le_iff₀ hpos]
      linarith

theorem slice_bytes (a : List Nat) (lo hi : Nat) (h : ∀ x ∈ a, x ≤ 255) :
    ∀ x ∈ slice a lo hi, x ≤ 255 := by
  intro x hx
  exact h x (List.mem_of_mem_drop (List.mem_of_mem_take hx))

theorem avg_bounds (a : List Nat) (h : ∀ x ∈ a, x ≤ 255) :
    (0 ≤ bassAvg a ∧ bassAvg a ≤ 255) ∧ (0 ≤ midAvg a ∧ midAvg a ≤ 255)
    ∧ (0 ≤ trebleAvg a ∧ trebleAvg a ≤ 255) := by
  obtain ⟨hb, hm, ht⟩ := bandAvg_eq_mean a
  rw [hb, hm, ht]
  exact ⟨mean_bounds _ (slice_bytes a _ _ h), mean_bounds _ (slice_bytes a _ _ h),
    mean_bounds _ (slice_bytes a _ _ h)⟩

theorem normRaw_bounds (avg : ℚ) (h : 0 ≤ avg ∧ avg ≤ 255) :
    0 ≤ toDouble (toDouble avg / 128) ∧ toDouble (toDouble avg / 128) ≤ 255 / 128 := by
  have h255 : IsDouble 255 := isDouble_of _ 255 0 (by norm_num) (by norm_num) (by norm_num)
  have a0 := toDouble_nonneg avg h.1
  have a1 := toDouble_le avg 255 h255 h.2
  exact ⟨toDouble_nonneg _ (by linarith), toDouble_le _ _ isDouble_bound (by linarith)⟩

theorem normRaw_range (a : List Nat) (h : ∀ x ∈ a, x ≤ 255) :
    (0 ≤ normBassRaw a ∧ normBassRaw a ≤ 255 / 128)
    ∧ (0 ≤ normMidRaw a ∧ normMidRaw a ≤ 255 / 128)
    ∧ (0 ≤ normTrebleRaw a ∧ normTrebleRaw a ≤ 255 / 128) := by
  obtain ⟨ab, am, at'⟩ := avg_bounds a h
  exact ⟨normRaw_bounds _ ab, normRaw_bounds _ am, normRaw_bounds _ at'⟩

theorem smooth_bounds (s r : ℚ) (hs : 0 ≤ s ∧ s ≤ 255 / 128)
    (hr : 0 ≤ r ∧ r ≤ 255 / 128) :
    0 ≤ smooth s r ∧ smooth s r ≤ 255 / 128 :=
  smooth_range s r 0 (255 / 128) isDouble_zero isDouble_bound hs hr

theorem getByteFrequencyData_length (freq array : List Nat) :
    (getByteFrequencyData freq array).length = array.length := by
  simp only [getByteFrequencyData, List.length_append, List.length_take, List.length_drop]
  omega

theorem getByteFrequencyData_bytes (freq array : List Nat) (hf : ∀ x ∈ freq, x ≤ 255)
    (ha : ∀ x ∈ array, x ≤ 255) : ∀ x ∈ getByteFrequencyData freq array, x ≤ 255 := by
  intro x hx
  unfold getByteFrequencyData at hx
  rcases List.mem_append.mp hx with h | h
  · exact hf x (List.mem_of_mem_take h)
  · exact ha x (List.mem_of_mem_drop h)

/-! ## Properties kept by every statement of a `try` block -/

theorem attempt_keeps {α : Type} [DecidableEq α] (P : State → Prop)
    (failure : Option (α × String)) (step : α) (effect : State → State) (s : State)
    (hs : P s) (he : P s → P (effect s)) : P (attempt failure step effect s).state := by
  unfold attempt
  split
  · exact hs
  · exact he hs

theorem andThen_keeps (P : State → Prop) (r : Outcome) (f : State → Outcome)
    (hr : P r.state) (hf : ∀ s, P s → P (f s).state) : P (r.andThen f).state := by
  unfold Outcome.andThen
  split
  · exact hr
  · exact hf _ hr

theorem LevelsInv_of_levels (s t : State) (h : levels t = levels s) (hs : LevelsInv s) :
    LevelsInv t := by
  simp only [levels, Prod.mk.injEq] at h
  obtain ⟨h1, h2, h3, h4⟩ := h
  unfold LevelsInv
  rw [h1, h2, h3, h4]
  exact hs

theorem initialiseTry_levels (s : State) (failure : Option (InitStep × String)) :
    levels (initialiseTry s failure).state = levels s := by
  unfold initialiseTry
  apply andThen_keeps (fun t => levels t = levels s)
  · apply andThen_keeps (fun t => levels t = levels s)
    · split
      · apply attempt_keeps (fun t => levels t = levels s)
        · rfl
        · intro h
          exact h
      · rfl
    · intro t ht
      apply attempt_keeps (fun t => levels t = levels s) _ _ _ _ ht
      intro h
      exact h
  · intro t ht
    exact ht

theorem initialise_levels (s : State) (failure : Option (InitStep × String)) :
    levels (initialise s failure) = levels s := by
  unfold initialise
  split
  · rfl
  · split
    · rfl
    · have h := initialiseTry_levels s failure
      split
      · rename_i s1 heq
        rw [heq] at h
        exact h
      · rename_i s1 msg heq
        rw [heq] at h
        exact h

theorem cleanup_levels (s : State) : levels (cleanup s) = levels s := by
  unfold cleanup
  split
  · simp only [levels, cancelAnimationFrame]
    repeat' split
    all_goals rfl
  · rfl

theorem handlePresetChange_levels (s : State) (newKey : String) (failure : Option String) :
    levels (handlePresetChange s newKey failure) = levels s := by
  unfold handlePresetChange
  repeat' split
  all_goals rfl

theorem handleResize_levels (s : State) : levels (handleResize s) = levels s := by
  unfold handleResize
  split <;> rfl

theorem attempt_holds {α : Type} [DecidableEq α] (post handler : State → Prop)
    (failure : Option (α × String)) (step : α) (effect : State → State) (s : State)
    (hp : post (effect s)) (hh : handler s) :
    Holds (attempt failure step effect s) post handler := by
  unfold attempt
  cases throwsAt failure step with
  | none => exact hp
  | some msg => exact hh

theorem andThen_holds (mid post handler : State → Prop) (r : Outcome) (f : State → Outcome)
    (hr : Holds r mid handler) (hf : ∀ s, mid s → Holds (f s) post handler) :
    Holds (r.andThen f) post handler := by
  unfold Outcome.andThen
  unfold Holds at hr
  split
  · rename_i msg heq
    rw [heq] at hr
    simpa [Holds] using hr
  · rename_i heq
    rw [heq] at hr
    exact hf _ hr

/-- The `try` block of `onloadeddata` as a chain of assertions: once the
`AudioContext` is created `built` holds until the first frame is requested,
`looping` from then on; `handler` is what holds if a statement throws. -/
theorem setupTry_holds (built looping handler : State → Prop)
    (env : SetupEnv) (s : State)
    (hfirst : Holds (attempt env.failure SetupStep.newAudioContext (createAudioContext env) s)
      built handler)
    (h1 : ∀ t, built t → handler t)
    (han : ∀ t, built t → built (createAnalyser t))
    (hcon : ∀ t, built t → built (connectNodes t))
    (hviz : ∀ t, built t → built (createVisualizer t))
    (hca : ∀ t, built t → built (connectAudio t))
    (hpre : ∀ t, built t → built (publishPresets env t))
    (hload : ∀ t k, built t → built (loadFirstPreset env k t))
    (herr : ∀ t, built t → built (reportNoPresets t))
    (hsc : ∀ t, built t → built (createScene t))
    (hcam : ∀ t m, built t → built (createCamera m t))
    (hren : ∀ t m, built t → built (createRenderer m t))
    (hmnt : ∀ t, built t → built (appendCanvas t))
    (htex : ∀ t, built t → built (createTexture t))
    (hsph : ∀ t, built t → built (createSphere t))
    (harr : ∀ t a, built t → built (allocateDataArray a t))
    (hreq : ∀ t, built t → looping (startLoop t))
    (hflag : ∀ t, looping t → looping (setInitialized t)) :
    Holds (setupTry env s) looping handler := by
  have step : ∀ (st : SetupStep) (effect : State → State) (t : State), built t →
      built (effect t) → Holds (attempt env.failure st effect t) built handler :=
    fun st effect t ht he => attempt_holds built handler _ _ _ _ he (h1 _ ht)
  unfold setupTry
  apply andThen_holds built
  · apply andThen_holds built
    · apply andThen_holds built
      · unfold setupAudio
        apply andThen_holds built
        · apply andThen_holds built
          · apply andThen_holds built
            · apply andThen_holds built
              · apply andThen_holds built
                · exact hfirst
                · intro t ht
                  exact step _ _ _ ht ht
              · intro t ht
                exact step _ _ _ ht (han _ ht)
            · intro t ht
              exact step _ _ _ ht (hcon _ ht)
          · intro t ht
            exact step _ _ _ ht (hviz _ ht)
        · intro t ht
          exact step _ _ _ ht (hca _ ht)
      · intro t ht
        unfold setupPresets
        apply andThen_holds built
        · exact step _ _ _ ht (hpre _ ht)
        · intro u hu
          split
          · exact step _ _ _ hu (hload _ _ hu)
          · exact herr _ hu
    · intro t ht
      split
      · exact h1 _ ht
      · unfold setupThree
        apply andThen_holds built
        · apply andThen_holds built
          · apply andThen_holds built
            · apply andThen_holds built
              · apply andThen_holds built
                · exact step _ _ _ ht (hsc _ ht)
                · intro u hu
                  exact step _ _ _ hu (hcam _ _ hu)
              · intro u hu
                exact step _ _ _ hu (hren _ _ hu)
            · intro u hu
              exact step _ _ _ hu (hmnt _ hu)
          · intro u hu
            exact step _ _ _ hu (htex _ hu)
        · intro u hu
          exact step _ _ _ hu (hsph _ hu)
  · intro t ht
    unfold setupLoop
    apply andThen_holds looping
    · apply andThen_holds built
      · split
        · exact h1 _ ht
        · exact step _ _ _ ht (harr _ _ ht)
      · intro u hu
        exact attempt_holds looping handler _ _ _ _ (hreq _ hu) (h1 _ hu)
    · intro u hu
      exact hflag _ hu

/-- The handler `onloadeddata` keeps `inv`, given assertions for its `try`
block: when the guard lets the setup run, `start` holds, and both a finished
setup and the `catch` block end in `inv`. -/
theorem onloadeddata_holds (inv start looping handler : State → Prop)
    (env : SetupEnv) (s : State) (hs : inv s)
    (hstart : s.isInitializedRef = false → s.audioContextRef = none → start s)
    (htry : start s → Holds (setupTry env s) looping handler)
    (hdone : ∀ t, looping t → inv t)
    (hcatch : ∀ t c, handler t → inv { t with errorMessage := c, isInitializedRef := false }) :
    inv (onloadeddata s env) := by
  unfold onloadeddata
  split
  · exact hs
  · rename_i hguard
    simp only [Bool.or_eq_true, not_or, Bool.not_eq_true] at hguard
    have hctx : s.audioContextRef = none := by
      cases hc : s.audioContextRef with
      | none => rfl
      | some c => simp [hc] at hguard
    have h := htry (hstart hguard.1 hctx)
    unfold Holds at h
    split
    · rename_i s1 heq
      rw [heq] at h
      exact hdone _ h
    · rename_i s1 msg heq
      rw [heq] at h
      exact hcatch _ _ h

/-- The handler `handlePlay` keeps every property that does not depend on
the message, on `isPlaying`, on the audio element, or on the state of an
`AudioContext` that stays in its ref. -/
theorem handlePlay_keeps (P : State → Prop) (s : State) (env : PlayEnv) (hs : P s)
    (hctx : ∀ t c, P t → t.audioContextRef.isSome = true →
      P { t with audioContextRef := some c })
    (hel : ∀ t e m, P t → t.audioElRef.isSome = true →
      P { t with audioElRef := some e, errorMessage := m })
    (hmsg : ∀ t m, P t → P { t with errorMessage := m })
    (hcatch : ∀ t m b, P t → P { t with errorMessage := m, isPlaying := b }) :
    P (handlePlay s env).state := by
  have hplay : ∀ (t : State) (audioEl : AudioEl) (r : Bool), P t →
      t.audioElRef.isSome = true → P (playIfPaused t audioEl env r).state := by
    intro t audioEl r ht he
    unfold playIfPaused
    split
    · split
      · exact hel _ _ _ ht he
      · exact hcatch _ _ _ ht
    · exact ht
  unfold handlePlay
  split
  · rename_i audioEl audioContext hel' hctx' hinit
    have he : s.audioElRef.isSome = true := by rw [hel']; rfl
    have hc : s.audioContextRef.isSome = true := by rw [hctx']; rfl
    split
    · split
      · exact hplay _ _ _ (hctx _ _ hs hc) he
      · exact hcatch _ _ _ hs
    · exact hmsg _ _ hs
    · exact hplay _ _ _ hs he
  · exact hmsg _ _ hs

/-- The handler `handlePause` keeps every property that does not depend on
the message, on `isPlaying` or on the audio element. -/
theorem handlePause_keeps (P : State → Prop) (s : State) (failure : Option String)
    (hs : P s)
    (hel : ∀ t e, P t → t.audioElRef.isSome = true → P { t with audioElRef := some e })
    (hcatch : ∀ t m b, P t → P { t with errorMessage := m, isPlaying := b }) :
    P (handlePause s failure) := by
  unfold handlePause
  split
  · rename_i audioEl hel' hinit
    have he : s.audioElRef.isSome = true := by rw [hel']; rfl
    split
    · split
      · exact hel _ _ hs he
      · exact hcatch _ _ _ hs
    · exact hs
  · exact hs

theorem onloadeddata_levelsInv (s : State) (env : SetupEnv) (hs : LevelsInv s) :
    LevelsInv (onloadeddata s env) := by
  apply onloadeddata_holds LevelsInv LevelsInv LevelsInv LevelsInv env s hs
  · exact fun _ _ => hs
  · intro h
    apply setupTry_holds LevelsInv LevelsInv LevelsInv env s
    · exact attempt_holds _ _ _ _ _ _ h h
    · exact fun t h => h
    · exact fun t h => h
    · exact fun t h => h
    · exact fun t h => h
    · exact fun t h => h
    · exact fun t h => h
    · exact fun t k h => h
    · exact fun t h => h
    · exact fun t h => h
    · exact fun t m h => h
    · exact fun t m h => h
    · exact fun t h => h
    · exact fun t h => h
    · exact fun t h => h
    · intro t a h
      refine ⟨h.1, h.2.1, h.2.2.1, ?_, h.2.2.2.2⟩
      intro x hx
      simp only [allocateDataArray] at hx
      rw [List.eq_of_mem_replicate hx]
      omega
    · exact fun t h => h
    · exact fun t h => h
  · exact fun t h => h
  · exact fun t c h => h

theorem renderCombinedFrame_levelsInv (s : State) (env : FrameEnv) (hs : LevelsInv s)
    (hf : ∀ x ∈ env.freq, x ≤ 255) : LevelsInv (renderCombinedFrame s env) := by
  obtain ⟨hb, hm, ht, ha⟩ := renderCombinedFrame_levels s env
  have hbytes := getByteFrequencyData_bytes env.freq s.audioDataArray hf hs.2.2.2.1
  obtain ⟨ab, am, at'⟩ := normRaw_range _ hbytes
  unfold LevelsInv
  rw [hb, hm, ht, ha]
  by_cases hu : updatesLevels s env = true
  · simp only [hu, if_true]
    exact ⟨smooth_bounds _ _ hs.1 ab, smooth_bounds _ _ hs.2.1 am,
      smooth_bounds _ _ hs.2.2.1 at', hbytes,
      isDouble_toDouble _, isDouble_toDouble _, isDouble_toDouble _⟩
  · simp only [hu]
    exact hs

theorem step_levelsInv (s : State) (e : Event) (hs : LevelsInv s) (he : byteEvent e = true) :
    LevelsInv (step s e) := by
  cases e with
  | commit mount => exact hs
  | refCheckEffect =>
    simp only [step, refCheckEffect]
    split
    · exact hs
    · exact hs
  | initializeEffect failure =>
    simp only [step, initializeEffect]
    split
    · exact LevelsInv_of_levels _ _ (initialise_levels s failure) hs
    · exact hs
  | initialise failure => exact LevelsInv_of_levels _ _ (initialise_levels s failure) hs
  | loadeddata env =>
    simp only [step]
    split
    · split
      · exact onloadeddata_levelsInv s env hs
      · exact hs
    · exact hs
  | frame env =>
    simp only [step, frameCallback]
    have hf : ∀ x ∈ env.freq, x ≤ 255 := by
      intro x hx
      have h := List.all_eq_true.mp he x hx
      exact of_decide_eq_true h
    split
    · exact hs
    · exact renderCombinedFrame_levelsInv _ env hs hf
  | error code =>
    simp only [step, onerror]
    repeat' split
    all_goals exact hs
  | playPause paused =>
    simp only [step]
    repeat' split
    all_goals exact hs
  | cleanup => exact LevelsInv_of_levels _ _ (cleanup_levels s) hs
  | presetChange newKey failure =>
    exact LevelsInv_of_levels _ _ (handlePresetChange_levels s newKey failure) hs
  | resize w h =>
    simp only [step]
    exact LevelsInv_of_levels _ _ (handleResize_levels _) hs
  | play env =>
    exact handlePlay_keeps LevelsInv s env hs (fun _ _ h _ => h) (fun _ _ _ h _ => h)
      (fun _ _ h => h) (fun _ _ _ h => h)
  | pause failure =>
    exact handlePause_keeps LevelsInv s failure hs (fun _ _ h _ => h) (fun _ _ _ h => h)

theorem run_levelsInv (events : List Event) (s : State) (hs : LevelsInv s)
    (he : byteFrames events = true) : LevelsInv (run s events) := by
  induction events generalizing s with
  | nil => exact hs
  | cons e es ih =>
    simp only [byteFrames, List.all_cons, Bool.and_eq_true] at he
    exact ih (step s e) (step_levelsInv s e hs he.1) he.2

theorem initialState_levelsInv : LevelsInv initialState := by
  refine ⟨?_, ?_, ?_, ?_, isDouble_zero, isDouble_zero, isDouble_zero⟩
  all_goals norm_num [initialState]

/-! ## The animation-frame bookkeeping: proofs -/

theorem truthy_of_pos (id : Nat) (h : 0 < id) : truthy (some id) = true := by
  cases id with
  | zero => omega
  | succ n => rfl

theorem initialise_keeps (P : State → Prop) (s : State) (failure : Option (InitStep × String))
    (hs : P s)
    (haud : ∀ t c, P t → P { t with audioElRef := c })
    (herr : ∀ t c, P t → P { t with errorMessage := c })
    (hcatch : ∀ t c, P t → P { t with errorMessage := c, isInitializedRef := false }) :
    P (initialise s failure) := by
  have htry : P (initialiseTry s failure).state := by
    unfold initialiseTry
    apply andThen_keeps P
    · apply andThen_keeps P
      · split
        · exact attempt_keeps P _ _ _ _ hs (haud _ _)
        · exact hs
      · intro t ht
        exact attempt_keeps P _ _ _ _ ht (haud _ _)
    · intro t ht
      exact haud _ _ ht
  unfold initialise
  split
  · exact hs
  · split
    · exact herr _ _ hs
    · split
      · rename_i s1 heq
        rw [heq] at htry
        exact htry
      · rename_i s1 msg heq
        rw [heq] at htry
        exact hcatch _ _ htry

/-- A frame in which a statement throws (the seven refs being set): the
`catch` block has run and no further frame is requested. -/
theorem renderCombinedFrame_thrown (s : State) (env : FrameEnv) (step : RenderStep)
    (message : String) (hg : allRefsSet s = true) (hf : env.failure = some (step, message)) :
    (renderCombinedFrame s env).errorMessage = "Render Error: " ++ message
    ∧ (renderCombinedFrame s env).isInitializedRef = false
    ∧ (renderCombinedFrame s env).animationFrameIdRef = none
    ∧ (renderCombinedFrame s env).nextFrameId = s.nextFrameId
    ∧ (renderCombinedFrame s env).audioContextRef = s.audioContextRef
    ∧ (renderCombinedFrame s env).pendingFrames =
        match s.animationFrameIdRef with
        | some id => if truthy (some id) then s.pendingFrames.filter fun h => h != id
                     else s.pendingFrames
        | none => s.pendingFrames := by
  rcases env with ⟨freq, elapsed, failure⟩
  simp only at hf
  subst hf
  cases step <;>
    simp [renderCombinedFrame, renderTry, hg, attempt, throwsAt, Outcome.andThen,
      renderCatch, cancelAnimationFrame] <;>
    (repeat' split) <;> simp_all

/-- A frame in which nothing throws, or whose `try` block is not entered:
the next frame is requested exactly when `animationFrameIdRef` holds a handle. -/
theorem renderCombinedFrame_quiet (s : State) (env : FrameEnv)
    (h : allRefsSet s = false ∨ env.failure = none) :
    (renderCombinedFrame s env).isInitializedRef = s.isInitializedRef
    ∧ (renderCombinedFrame s env).audioContextRef = s.audioContextRef
    ∧ (renderCombinedFrame s env).animationFrameIdRef
        = (if s.animationFrameIdRef.isSome then some s.nextFrameId else none)
    ∧ (renderCombinedFrame s env).pendingFrames
        = (if s.animationFrameIdRef.isSome then s.pendingFrames ++ [s.nextFrameId]
           else s.pendingFrames)
    ∧ (renderCombinedFrame s env).nextFrameId
        = (if s.animationFrameIdRef.isSome then s.nextFrameId + 1 else s.nextFrameId)
    ∧ allRefsSet (renderCombinedFrame s env) = allRefsSet s := by
  rcases env with ⟨freq, elapsed, failure⟩
  by_cases hg : allRefsSet s = true
  · have hf : failure = none := by
      rcases h with h | h
      · rw [hg] at h
        cases h
      · exact h
    subst hf
    have hg1 := hg
    simp only [allRefsSet, Bool.and_eq_true] at hg1
    simp [renderCombinedFrame, renderTry, hg, attempt, throwsAt, Outcome.andThen,
      requestAnimationFrame]
    split <;> simp_all [allRefsSet]
  · simp [renderCombinedFrame, hg, requestAnimationFrame]
    split <;> simp_all [allRefsSet]

theorem loopInv_of_noLoop (t : State) (h : NoLoop t) : LoopInv t := by
  obtain ⟨hn, hp, ha⟩ := h
  refine ⟨hn, ?_, ?_, fun _ => ha⟩
  · rw [hp, ha]
    rfl
  · intro i hi
    rw [ha] at hi
    cases hi

theorem renderCombinedFrame_loopInv (t : State) (env : FrameEnv) (hn : 0 < t.nextFrameId)
    (hp : t.pendingFrames = [])
    (hctx : t.audioContextRef = none → t.animationFrameIdRef = none) :
    LoopInv (renderCombinedFrame t env) := by
  by_cases hq : allRefsSet t = false ∨ env.failure = none
  · obtain ⟨_, h2, h3, h4, h5, _⟩ := renderCombinedFrame_quiet t env hq
    unfold LoopInv
    rw [h2, h3, h4, h5, hp]
    cases ha : t.animationFrameIdRef with
    | none =>
      simp only [Option.isSome_none, Bool.false_eq_true, if_false]
      refine ⟨hn, rfl, ?_, ?_⟩ <;> intros <;> simp_all
    | some a =>
      simp only [Option.isSome_some, if_true, List.nil_append]
      refine ⟨by omega, rfl, ?_, ?_⟩
      · intro i hi
        cases hi
        exact hn
      · intro hc
        rw [hctx hc] at ha
        cases ha
  · simp only [not_or, Bool.not_eq_false] at hq
    obtain ⟨hg, hf⟩ := hq
    cases hfe : env.failure with
    | none => exact absurd hfe hf
    | some p =>
      obtain ⟨step, message⟩ := p
      obtain ⟨_, _, h3, h4, h5, h6⟩ := renderCombinedFrame_thrown t env step message hg hfe
      have h7 : (renderCombinedFrame t env).pendingFrames = [] := by
        rw [h6, hp]
        split
        · split <;> rfl
        · rfl
      unfold LoopInv
      rw [h3, h4, h7]
      exact ⟨hn, rfl, fun i hi => (by cases hi), fun _ => rfl⟩

theorem frameCallback_loopInv (s : State) (env : FrameEnv) (hs : LoopInv s) :
    LoopInv (frameCallback s env) := by
  obtain ⟨hn, hp, hid, hctx⟩ := hs
  unfold frameCallback
  split
  · exact ⟨hn, hp, hid, hctx⟩
  · rename_i id rest hpend
    have hrest : rest = [] := by
      rw [hpend] at hp
      cases ha : s.animationFrameIdRef with
      | none =>
        rw [ha] at hp
        cases hp
      | some a =>
        rw [ha] at hp
        simp only [Option.toList, List.cons.injEq] at hp
        exact hp.2
    exact renderCombinedFrame_loopInv _ env hn hrest hctx

theorem onloadeddata_loopInv (s : State) (env : SetupEnv) (hs : LoopInv s) :
    LoopInv (onloadeddata s env) := by
  apply onloadeddata_holds LoopInv NoLoop
    (fun t => LoopInv t ∧ t.audioContextRef ≠ none) LoopInv env s hs
  · intro _ hc
    refine ⟨hs.1, ?_, hs.2.2.2 hc⟩
    rw [hs.2.1, hs.2.2.2 hc]
    rfl
  · intro h
    apply setupTry_holds (fun t => NoLoop t ∧ t.audioContextRef ≠ none)
      (fun t => LoopInv t ∧ t.audioContextRef ≠ none) LoopInv env s
    · exact attempt_holds _ _ _ _ _ _ ⟨h, by simp [createAudioContext]⟩
        (loopInv_of_noLoop s h)
    · exact fun t ht => loopInv_of_noLoop t ht.1
    · exact fun t h => h
    · exact fun t h => h
    · exact fun t h => h
    · exact fun t h => h
    · exact fun t h => h
    · exact fun t k h => h
    · exact fun t h => h
    · exact fun t h => h
    · exact fun t m h => h
    · exact fun t m h => h
    · exact fun t h => h
    · exact fun t h => h
    · exact fun t h => h
    · exact fun t a h => h
    · intro t ht
      obtain ⟨⟨hn, hp, ha⟩, hc⟩ := ht
      refine ⟨⟨?_, ?_, ?_, ?_⟩, hc⟩
      · simp only [startLoop, requestAnimationFrame]
        omega
      · simp only [startLoop, requestAnimationFrame, hp, List.nil_append, Option.toList]
      · intro i hi
        simp only [startLoop, requestAnimationFrame, Option.some.injEq] at hi
        omega
      · intro h
        exact absurd h hc
    · exact fun t h => h
  · exact fun t h => h.1
  · exact fun t c h => h

theorem cleanup_loopInv (s : State) (hs : LoopInv s) :
    LoopInv (cleanup s) ∧ (s.isInitializedRef = true →
      (cleanup s).pendingFrames = [] ∧ (cleanup s).animationFrameIdRef = none) := by
  obtain ⟨hn, hp, hid, hctx⟩ := hs
  by_cases hi : s.isInitializedRef = true
  · cases ha : s.animationFrameIdRef with
    | none =>
      rw [ha] at hp
      simp only [Option.toList] at hp
      simp only [cleanup, hi, if_true, ha, LoopInv]
      cases s.rendererRef <;> cases s.audioElRef <;> simp [hn, hp, ha]
    | some a =>
      rw [ha] at hp
      simp only [Option.toList] at hp
      have hpos := truthy_of_pos a (hid a ha)
      simp only [cleanup, hi, if_true, ha, hpos, LoopInv, cancelAnimationFrame]
      cases s.rendererRef <;> cases s.audioElRef <;> simp [hn, hp]
  · simp only [cleanup, hi]
    exact ⟨⟨hn, hp, hid, hctx⟩, fun h => (by simp_all)⟩

theorem initialise_loopInv (s : State) (failure : Option (InitStep × String))
    (hs : LoopInv s) : LoopInv (initialise s failure) :=
  initialise_keeps LoopInv s failure hs (fun _ _ h => h) (fun _ _ h => h) (fun _ _ h => h)

theorem handlePresetChange_loopInv (s : State) (newKey : String) (failure : Option String)
    (hs : LoopInv s) : LoopInv (handlePresetChange s newKey failure) := by
  unfold handlePresetChange
  repeat' split
  all_goals exact hs

theorem handleResize_loopInv (s : State) (hs : LoopInv s) : LoopInv (handleResize s) := by
  unfold handleResize
  split <;> exact hs

theorem step_loopInv (s : State) (e : Event) (hs : LoopInv s) : LoopInv (step s e) := by
  cases e with
  | commit mount => exact hs
  | refCheckEffect =>
    simp only [step, refCheckEffect]
    split <;> exact hs
  | initializeEffect failure =>
    simp only [step, initializeEffect]
    split
    · exact initialise_loopInv s failure hs
    · exact hs
  | initialise failure => exact initialise_loopInv s failure hs
  | loadeddata env =>
    simp only [step]
    split
    · split
      · exact onloadeddata_loopInv s env hs
      · exact hs
    · exact hs
  | frame env => exact frameCallback_loopInv s env hs
  | error code =>
    simp only [step, onerror]
    repeat' split
    all_goals exact hs
  | playPause paused =>
    simp only [step]
    repeat' split
    all_goals exact hs
  | cleanup => exact (cleanup_loopInv s hs).1
  | presetChange newKey failure => exact handlePresetChange_loopInv s newKey failure hs
  | resize w h =>
    simp only [step]
    exact handleResize_loopInv _ hs
  | play env =>
    refine handlePlay_keeps LoopInv s env hs ?_ (fun _ _ _ h _ => h)
      (fun _ _ h => h) (fun _ _ _ h => h)
    intro t c ht _
    obtain ⟨h1, h2, h3, _⟩ := ht
    refine ⟨h1, h2, h3, ?_⟩
    intro hnone
    cases hnone
  | pause failure =>
    exact handlePause_keeps LoopInv s failure hs (fun _ _ h _ => h) (fun _ _ _ h => h)

theorem run_loopInv (events : List Event) (s : State) (hs : LoopInv s) :
    LoopInv (run s events) := by
  induction events generalizing s with
  | nil => exact hs
  | cons e es ih => exact ih (step s e) (step_loopInv s e hs)

theorem initialState_loopInv : LoopInv initialState := by
  unfold LoopInv initialState
  simp

/-! ## C1: the range of the smoothed levels -/

theorem getByteFrequencyData_replicate (n v : Nat) (array : List Nat)
    (h : array.length = n) :
    getByteFrequencyData (List.replicate n v) array = List.replicate n v := by
  unfold getByteFrequencyData
  rw [h, List.take_replicate, List.length_replicate, List.drop_eq_nil_of_le (by omega),
    List.append_nil, Nat.min_self]

theorem slice_replicate (n v lo hi : Nat) (h : hi ≤ n) :
    slice (List.replicate n v) lo hi = List.replicate (hi - lo) v := by
  unfold slice
  rw [List.drop_replicate, List.take_replicate]
  congr 1
  omega

theorem mean_replicate (k v : Nat) (h : 0 < k) : mean (List.replicate k v) = v := by
  unfold mean
  have hne : List.replicate k v ≠ [] := by
    intro hnil
    have := congrArg List.length hnil
    rw [List.length_replicate, List.length_nil] at this
    omega
  rw [if_neg hne, List.sum_replicate, List.length_replicate, smul_eq_mul, Nat.cast_mul]
  have hq : ((k : Nat) : ℚ) ≠ 0 := by exact_mod_cast h.ne'
  field_simp

theorem bandAvg_replicate (n v : Nat) (hb : 0 < bassEnd n) (hm : bassEnd n < midEnd n)
    (ht : midEnd n < n) :
    bassAvg (List.replicate n v) = v ∧ midAvg (List.replicate n v) = v
    ∧ trebleAvg (List.replicate n v) = v := by
  obtain ⟨h1, h2, h3⟩ := bandAvg_eq_mean (List.replicate n v)
  rw [h1, h2, h3, List.length_replicate, slice_replicate n v 0 (bassEnd n) (by omega),
    slice_replicate n v (bassEnd n) (midEnd n) (by omega),
    slice_replicate n v (midEnd n) n (le_refl n)]
  exact ⟨mean_replicate _ v (by omega), mean_replicate _ v (by omega),
    mean_replicate _ v (by omega)⟩

/-- A byte is a double, and so is a byte divided by 128. -/
theorem normRaw_byte (v : Nat) (hv : v ≤ 255) :
    toDouble (toDouble (v : ℚ) / 128) = v / 128 := by
  have hn : |(v : ℤ)| ≤ 2 ^ 53 := by
    rw [abs_of_nonneg (Int.ofNat_nonneg v)]
    have : (v : ℤ) ≤ 255 := by exact_mod_cast hv
    norm_num
    linarith
  have h1 : toDouble (v : ℚ) = v := by
    have h := toDouble_of_repr (v : ℤ) 0 hn (by norm_num)
    simpa using h
  have h2 := toDouble_of_repr (v : ℤ) (-7) hn (by norm_num)
  have e : ((v : ℤ) : ℚ) * 2 ^ (-7 : ℤ) = (v : ℚ) / 128 := by
    rw [Int.cast_natCast, div_eq_mul_inv]
    norm_num
  rw [e] at h2
  rw [h1]
  exact h2

theorem normRaw_flat (v : Nat) (hv : v ≤ 255) :
    normBassRaw (List.replicate 1024 v) = v / 128
    ∧ normMidRaw (List.replicate 1024 v) = v / 128
    ∧ normTrebleRaw (List.replicate 1024 v) = v / 128 := by
  obtain ⟨h1, h2, h3⟩ := bandAvg_replicate 1024 v (by decide) (by decide) (by decide)
  unfold normBassRaw normMidRaw normTrebleRaw
  rw [h1, h2, h3]
  exact ⟨normRaw_byte v hv, normRaw_byte v hv, normRaw_byte v hv⟩

/-- A frame with every bin at the byte `v`, run while the loop is going: the
loop goes on, each smoothed level is updated towards `v / 128`, and the
uniforms of the sphere are rewritten from the new levels. -/
theorem flatFrame_step (s : State) (v : Nat) (hv : v ≤ 255) (hg : allRefsSet s = true)
    (hl : LoopInv s) (ha : s.animationFrameIdRef.isSome = true)
    (hlen : s.audioDataArray.length = 1024) :
    allRefsSet (step s (Event.frame (flatFrame v))) = true
    ∧ LoopInv (step s (Event.frame (flatFrame v)))
    ∧ (step s (Event.frame (flatFrame v))).animationFrameIdRef.isSome = true
    ∧ (step s (Event.frame (flatFrame v))).audioDataArray.length = 1024
    ∧ (step s (Event.frame (flatFrame v))).smoothedBassRef
        = smooth s.smoothedBassRef (v / 128)
    ∧ (step s (Event.frame (flatFrame v))).smoothedMidRef
        = smooth s.smoothedMidRef (v / 128)
    ∧ (step s (Event.frame (flatFrame v))).smoothedTrebleRef
        = smooth s.smoothedTrebleRef (v / 128)
    ∧ (step s (Event.frame (flatFrame v))).sphereRef
        = s.sphereRef.map fun (sphere : Sphere) =>
            if sphere.shaderMaterial then
              { sphere with
                uniforms := uniformsOf (step s (Event.frame (flatFrame v))) (flatFrame v) }
            else sphere := by
  have hl1 := step_loopInv s (Event.frame (flatFrame v)) hl
  obtain ⟨_, hp, _, _⟩ := hl
  cases hid : s.animationFrameIdRef with
  | none => simp [hid] at ha
  | some id =>
    rw [hid] at hp
    simp only [Option.toList] at hp
    have hstep : step s (Event.frame (flatFrame v))
        = renderCombinedFrame { s with pendingFrames := [] } (flatFrame v) := by
      simp only [step, frameCallback, hp]
    have hu : updatesLevels { s with pendingFrames := [] } (flatFrame v) = true := by
      simp only [updatesLevels, Bool.and_eq_true]
      exact ⟨hg, rfl⟩
    have hw : writesUniforms { s with pendingFrames := [] } (flatFrame v) = true := by
      simp only [writesUniforms, Bool.and_eq_true]
      exact ⟨⟨hg, rfl⟩, rfl⟩
    have hq := renderCombinedFrame_quiet { s with pendingFrames := [] } (flatFrame v)
      (Or.inr rfl)
    have e : getByteFrequencyData (flatFrame v).freq s.audioDataArray
        = List.replicate 1024 v := getByteFrequencyData_replicate 1024 v _ hlen
    obtain ⟨n1, n2, n3⟩ := normRaw_flat v hv
    have hsph := renderCombinedFrame_sphere { s with pendingFrames := [] } (flatFrame v)
    rw [if_pos hw] at hsph
    rw [hstep]
    refine ⟨?_, ?_, ?_, ?_, ?_, ?_, ?_, hsph⟩
    · rw [hq.2.2.2.2.2]
      exact hg
    · rw [← hstep]
      exact hl1
    · rw [hq.2.2.1]
      simp [hid]
    · have h := (renderCombinedFrame_levels { s with pendingFrames := [] } (flatFrame v)).2.2.2
      simp only [hu, if_true] at h
      rw [h, getByteFrequencyData_length]
      exact hlen
    · have h := (renderCombinedFrame_levels { s with pendingFrames := [] } (flatFrame v)).1
      simp only [hu, if_true] at h
      rw [h]
      simp only [e, n1]
    · have h := (renderCombinedFrame_levels { s with pendingFrames := [] } (flatFrame v)).2.1
      simp only [hu, if_true] at h
      rw [h]
      simp only [e, n2]
    · have h := (renderCombinedFrame_levels { s with pendingFrames := [] }
        (flatFrame v)).2.2.1
      simp only [hu, if_true] at h
      rw [h]
      simp only [e, n3]

/-- A frame at full level, run while the loop is going: the loop goes on and
the bass level moves towards `255/128`. -/
theorem fullFrame_step (s : State) (hg : allRefsSet s = true) (hl : LoopInv s)
    (ha : s.animationFrameIdRef.isSome = true) (hlen : s.audioDataArray.length = 1024) :
    allRefsSet (step s (Event.frame fullFrame)) = true
    ∧ LoopInv (step s (Event.frame fullFrame))
    ∧ (step s (Event.frame fullFrame)).animationFrameIdRef.isSome = true
    ∧ (step s (Event.frame fullFrame)).audioDataArray.length = 1024
    ∧ (step s (Event.frame fullFrame)).smoothedBassRef = smooth s.smoothedBassRef (255 / 128) := by
  obtain ⟨h1, h2, h3, h4, h5, _⟩ := flatFrame_step s 255 (by norm_num) hg hl ha hlen
  have e : ((255 : Nat) : ℚ) / 128 = 255 / 128 := by norm_num
  rw [e] at h5
  exact ⟨h1, h2, h3, h4, h5⟩

theorem fullFrames_run (k : Nat) (s : State) (hg : allRefsSet s = true) (hl : LoopInv s)
    (ha : s.animationFrameIdRef.isSome = true) (hlen : s.audioDataArray.length = 1024) :
    (run s (List.replicate k (Event.frame fullFrame))).smoothedBassRef
      = (fun x => smooth x (255 / 128))^[k] s.smoothedBassRef := by
  induction k generalizing s with
  | zero => rfl
  | succ k ih =>
    obtain ⟨h1, h2, h3, h4, h5⟩ := fullFrame_step s hg hl ha hlen
    rw [List.replicate_succ, Function.iterate_succ_apply, ← h5]
    exact ih _ h1 h2 h3 h4

/-- The started loop: the seven refs are set, one frame is pending, the data
array has 1024 bins, the three smoothed levels are `0`, and the uniforms of
the sphere are `0`. -/
theorem loopStarted_ready :
    allRefsSet (run initialState loopStarted) = true
    ∧ LoopInv (run initialState loopStarted)
    ∧ (run initialState loopStarted).animationFrameIdRef.isSome = true
    ∧ (run initialState loopStarted).audioDataArray.length = 1024
    ∧ (run initialState loopStarted).smoothedBassRef = 0
    ∧ (run initialState loopStarted).smoothedMidRef = 0
    ∧ (run initialState loopStarted).smoothedTrebleRef = 0
    ∧ (run initialState loopStarted).sphereRef = some ⟨true, ⟨0, 0, 0, 0, 0⟩⟩ := by
  have harr : (run initialState loopStarted).audioDataArray = List.replicate 1024 0 := by
    rfl
  refine ⟨by decide, run_loopInv _ _ initialState_loopInv, by decide, ?_, rfl, rfl, rfl, rfl⟩
  rw [harr, List.length_replicate]

theorem byteEvent_flatFrame (v : Nat) (hv : v ≤ 255) :
    byteEvent (Event.frame (flatFrame v)) = true := by
  simp only [byteEvent, flatFrame, List.all_eq_true, decide_eq_true_eq]
  intro x hx
  rw [List.eq_of_mem_replicate hx]
  exact hv

theorem run_append (s : State) (es fs : List Event) : run s (es ++ fs) = run (run s es) fs := by
  unfold run
  rw [List.foldl_append]

theorem byteFrames_append (es fs : List Event) :
    byteFrames (es ++ fs) = (byteFrames es && byteFrames fs) := by
  unfold byteFrames
  rw [List.all_append]

theorem byteFrames_replicate (k : Nat) (e : Event) (h : byteEvent e = true) :
    byteFrames (List.replicate k e) = true := by
  unfold byteFrames
  rw [List.all_eq_true]
  intro x hx
  rw [List.eq_of_mem_replicate hx]
  exact h

theorem byteEvent_fullFrame : byteEvent (Event.frame fullFrame) = true := by
  simp only [byteEvent, fullFrame, List.all_eq_true, decide_eq_true_eq]
  intro x hx
  rw [List.eq_of_mem_replicate hx]

theorem loudFrame_1 :
    smooth (0) (255 / 128) = 5742089524897383 / 36028797018963968 := by
  apply smooth_cert _ _ (255 / 128) (5742089524897383 / 36028797018963968)
  · apply toDouble_cert _ _ 8972014882652160 (-52) <;> norm_num
  · apply toDouble_cert _ _ 5742089524897383 (-55) <;> norm_num
  · apply toDouble_cert _ _ 5742089524897383 (-55) <;> norm_num

theorem loudFrame_2 :
    smooth (5742089524897383 / 36028797018963968) (255 / 128)
      = 344525371493843 / 1125899906842624 := by
  apply smooth_cert _ _ (8254253692039987 / 4503599627370496) (660340295363199 / 4503599627370496)
  · apply toDouble_cert _ _ 8254253692039987 (-52) <;> norm_num
  · apply toDouble_cert _ _ 5282722362905592 (-55) <;> norm_num
  · apply toDouble_cert_tie _ _ 5512405943901488 (-54) <;> norm_num

theorem loudFrame_3 :
    smooth (344525371493843 / 1125899906842624) (255 / 128)
      = 1985614557709515 / 4503599627370496 := by
  apply smooth_cert _ _ (1898478349169197 / 1125899906842624) (607513071734143 / 4503599627370496)
  · apply toDouble_cert _ _ 7593913396676788 (-52) <;> norm_num
  · apply toDouble_cert _ _ 4860104573873144 (-55) <;> norm_num
  · apply toDouble_cert _ _ 7942458230838060 (-54) <;> norm_num

theorem loudFrame_4 :
    smooth (1985614557709515 / 4503599627370496) (255 / 128)
      = 5089053167409853 / 9007199254740992 := by
  apply smooth_cert _ _ (6986400324942645 / 4503599627370496) (4471296207963293 / 36028797018963968)
  · apply toDouble_cert _ _ 6986400324942645 (-52) <;> norm_num
  · apply toDouble_cert _ _ 8942592415926586 (-56) <;> norm_num
  · apply toDouble_cert _ _ 5089053167409853 (-53) <;> norm_num

theorem loudFrame_5 :
    smooth (5089053167409853 / 9007199254740992) (255 / 128)
      = 3058725647620705 / 4503599627370496 := by
  apply smooth_cert _ _ (3213744149473617 / 2251799813685248) (2056796255663115 / 18014398509481984)
  · apply toDouble_cert_tie _ _ 6427488298947234 (-52) <;> norm_num
  · apply toDouble_cert _ _ 8227185022652460 (-56) <;> norm_num
  · apply toDouble_cert_tie _ _ 6117451295241410 (-53) <;> norm_num

theorem loudFrame_6 :
    smooth (3058725647620705 / 4503599627370496) (255 / 128)
      = 7063577572846443 / 9007199254740992 := by
  apply smooth_cert _ _ (5913289235031455 / 4503599627370496) (7569010220840263 / 72057594037927936)
  · apply toDouble_cert _ _ 5913289235031455 (-52) <;> norm_num
  · apply toDouble_cert _ _ 7569010220840263 (-56) <;> norm_num
  · apply toDouble_cert _ _ 7063577572846443 (-53) <;> norm_num

theorem loudFrame_7 :
    smooth (7063577572846443 / 9007199254740992) (255 / 128)
      = 7934013748243073 / 9007199254740992 := by
  apply smooth_cert _ _ (2720113048114469 / 2251799813685248) (6963489403173041 / 72057594037927936)
  · apply toDouble_cert_tie _ _ 5440226096228938 (-52) <;> norm_num
  · apply toDouble_cert _ _ 6963489403173041 (-56) <;> norm_num
  · apply toDouble_cert _ _ 7934013748243073 (-53) <;> norm_num

theorem loudFrame_8 :
    smooth (7934013748243073 / 9007199254740992) (255 / 128)
      = 8734815029607973 / 9007199254740992 := by
  apply smooth_cert _ _ (78203250133291 / 70368744177664) (6406410250919199 / 72057594037927936)
  · apply toDouble_cert_tie _ _ 5005008008530624 (-52) <;> norm_num
  · apply toDouble_cert _ _ 6406410250919199 (-56) <;> norm_num
  · apply toDouble_cert _ _ 8734815029607973 (-53) <;> norm_num

theorem loudFrame_9 :
    smooth (8734815029607973 / 9007199254740992) (255 / 128)
      = 147993003257245 / 140737488355328 := by
  apply smooth_cert _ _ (2302303683924087 / 2251799813685248) (5893897430845663 / 72057594037927936)
  · apply toDouble_cert_tie _ _ 4604607367848174 (-52) <;> norm_num
  · apply toDouble_cert _ _ 5893897430845663 (-56) <;> norm_num
  · apply toDouble_cert _ _ 4735776104231840 (-52) <;> norm_num

/-- C1, refuted as stated: after the loop has started on a 1024-bin analyser,
nine frames in which every bin is 255 are byte-valued frames, and they leave
the smoothed bass level above `1`. -/
theorem smoothed_bass_exceeds_one :
    byteFrames loudFrames = true ∧ 1 < (run initialState loudFrames).smoothedBassRef := by
  constructor
  · unfold loudFrames
    rw [byteFrames_append, byteFrames_replicate 9 _ byteEvent_fullFrame]
    decide
  · unfold loudFrames
    obtain ⟨hg, hl, ha, hlen, h0, _⟩ := loopStarted_ready
    rw [run_append, fullFrames_run 9 _ hg hl ha hlen, h0]
    simp only [Function.iterate_succ, Function.iterate_zero, Function.comp_apply, id_eq]
    rw [loudFrame_1, loudFrame_2, loudFrame_3, loudFrame_4, loudFrame_5, loudFrame_6,
      loudFrame_7, loudFrame_8, loudFrame_9]
    norm_num

/-- C1, amended: from the initial state, after any sequence of events whose
frames carry byte-valued frequency data, each of the three smoothed levels
lies in `[0, 255/128]`. -/
theorem smoothed_levels_bounded (events : List Event) (h : byteFrames events = true) :
    (0 ≤ (run initialState events).smoothedBassRef
      ∧ (run initialState events).smoothedBassRef ≤ 255 / 128)
    ∧ (0 ≤ (run initialState events).smoothedMidRef
      ∧ (run initialState events).smoothedMidRef ≤ 255 / 128)
    ∧ (0 ≤ (run initialState events).smoothedTrebleRef
      ∧ (run initialState events).smoothedTrebleRef ≤ 255 / 128) := by
  have hinv := run_levelsInv events initialState initialState_levelsInv h
  exact ⟨hinv.1, hinv.2.1, hinv.2.2.1⟩

/-- The bound of C1 (amended) on a run that starts the loop and renders one frame. -/
theorem smoothed_levels_bounded_witness :
    byteFrames shortRun = true
    ∧ (0 ≤ (run initialState shortRun).smoothedBassRef
      ∧ (run initialState shortRun).smoothedBassRef ≤ 255 / 128)
    ∧ (0 ≤ (run initialState shortRun).smoothedMidRef
      ∧ (run initialState shortRun).smoothedMidRef ≤ 255 / 128)
    ∧ (0 ≤ (run initialState shortRun).smoothedTrebleRef
      ∧ (run initialState shortRun).smoothedTrebleRef ≤ 255 / 128) :=
  ⟨by decide, smoothed_levels_bounded shortRun (by decide)⟩

/-! ## C3: the smoothing update -/

theorem risingFrame_1 :
    smooth (0) (1 / 128) = 5764607523034235 / 9223372036854775808 := by
  apply smooth_cert _ _ (1 / 128) (5764607523034235 / 9223372036854775808)
  · apply toDouble_cert _ _ 4503599627370496 (-59) <;> norm_num
  · apply toDouble_cert _ _ 5764607523034235 (-63) <;> norm_num
  · apply toDouble_cert _ _ 5764607523034235 (-63) <;> norm_num

theorem risingFrame_2 :
    smooth (5764607523034235 / 9223372036854775808) (2 / 128)
      = 4208163491814991 / 2305843009213693952 := by
  apply smooth_cert _ _ (1080863910568919 / 72057594037927936)
    (5534023222112865 / 4611686018427387904)
  · apply toDouble_cert _ _ 8646911284551352 (-59) <;> norm_num
  · apply toDouble_cert _ _ 5534023222112865 (-62) <;> norm_num
  · apply toDouble_cert_tie _ _ 8416326983629982 (-62) <;> norm_num

theorem risingWeighted :
    smoothWeighted (5764607523034235 / 9223372036854775808) (2 / 128)
      = 8416326983629983 / 4611686018427387904 := by
  have hc : toDouble (8 / 100) = 5764607523034235 / 72057594037927936 := smoothingFactor_eq
  have hw : toDouble (92 / 100) = 8286623314361713 / 9007199254740992 := by
    apply toDouble_cert _ _ 8286623314361713 (-53) <;> norm_num
  have ha : toDouble (8286623314361713 / 9007199254740992
      * (5764607523034235 / 9223372036854775808))
      = 662929865148937 / 1152921504606846976 := by
    apply toDouble_cert _ _ 5303438921191496 (-63) <;> norm_num
  have hb : toDouble (5764607523034235 / 72057594037927936 * (2 / 128))
      = 5764607523034235 / 4611686018427387904 := by
    apply toDouble_cert _ _ 5764607523034235 (-62) <;> norm_num
  have ht : toDouble (662929865148937 / 1152921504606846976
      + 5764607523034235 / 4611686018427387904)
      = 8416326983629983 / 4611686018427387904 := by
    apply toDouble_cert _ _ 8416326983629983 (-62) <;> norm_num
  unfold smoothWeighted
  rw [hc, hw, ha, hb, ht]

theorem weightedSum_rising : weightedSum [1 / 128, 2 / 128] = 73 / 40000 := by
  simp [weightedSum, Finset.sum_range_succ]
  norm_num

/-- C3, refuted as stated: after the loop has started, a frame with every bin
at 1 (raw level `1/128`) leaves the bass level at the double `0.000625`, and a
following frame with every bin at 2 (raw level `2/128`) leaves it at the
double `0.0018249999999999998`.  That is neither `0.92 * s + 0.08 * r` for the
level `s` before the second frame, be it taken exactly or evaluated in
doubles (which gives the next double, `0.001825`), nor the weighted sum
`0.08 * 0.92 * (1/128) + 0.08 * (2/128) = 0.001825`. -/
theorem smoothed_bass_off_weighted_sum :
    byteFrames risingFrames = true
    ∧ (run initialState (loopStarted ++ [Event.frame (flatFrame 1)])).smoothedBassRef
        = 5764607523034235 / 9223372036854775808
    ∧ (run initialState risingFrames).smoothedBassRef
        = 4208163491814991 / 2305843009213693952
    ∧ (run initialState risingFrames).smoothedBassRef
        ≠ 92 / 100 * (run initialState
            (loopStarted ++ [Event.frame (flatFrame 1)])).smoothedBassRef
          + 8 / 100 * (2 / 128)
    ∧ (run initialState risingFrames).smoothedBassRef
        ≠ smoothWeighted (run initialState
            (loopStarted ++ [Event.frame (flatFrame 1)])).smoothedBassRef (2 / 128)
    ∧ weightedSum [1 / 128, 2 / 128] = 73 / 40000
    ∧ (run initialState risingFrames).smoothedBassRef ≠ weightedSum [1 / 128, 2 / 128] := by
  obtain ⟨g0, l0, a0, n0, b0, _⟩ := loopStarted_ready
  obtain ⟨g1, l1, a1, n1, b1, _⟩ := flatFrame_step _ 1 (by norm_num) g0 l0 a0 n0
  obtain ⟨_, _, _, _, b2, _⟩ := flatFrame_step _ 2 (by norm_num) g1 l1 a1 n1
  have e1 : (run initialState (loopStarted ++ [Event.frame (flatFrame 1)])).smoothedBassRef
      = 5764607523034235 / 9223372036854775808 := by
    rw [run_append]
    show (step (run initialState loopStarted) (Event.frame (flatFrame 1))).smoothedBassRef = _
    rw [b1, b0, Nat.cast_one]
    exact risingFrame_1
  have e2 : (run initialState risingFrames).smoothedBassRef
      = 4208163491814991 / 2305843009213693952 := by
    unfold risingFrames
    rw [run_append]
    show (step (step (run initialState loopStarted) (Event.frame (flatFrame 1)))
      (Event.frame (flatFrame 2))).smoothedBassRef = _
    rw [b2, b1, b0, Nat.cast_one, Nat.cast_ofNat]
    rw [risingFrame_1]
    exact risingFrame_2
  have hbytes : byteFrames risingFrames = true := by
    unfold risingFrames
    rw [byteFrames_append]
    simp only [byteFrames, List.all_cons, List.all_nil, Bool.and_true,
      byteEvent_flatFrame 1 (by norm_num), byteEvent_flatFrame 2 (by norm_num)]
    decide
  refine ⟨hbytes, e1, e2, ?_, ?_, weightedSum_rising, ?_⟩
  · rw [e1, e2]
    norm_num
  · rw [e1, e2, risingWeighted]
    norm_num
  · rw [e2, weightedSum_rising]
    norm_num

/-- C3, amended: the smoothing factor is the double `0.08`; one update is the
double evaluation of `s + (r - s) * 0.08`.  In exact arithmetic that update
equals `0.92 s + 0.08 r`, and iterated from `0` over raw inputs
`r_0 .. r_(k-1)` it gives the sum of `0.08 * 0.92^(k-1-i) * r_i`; for levels
in `[0, 255/128]` the computed update differs from the exact one by at most
`2^-52`, and the computed value after any number of updates from `0` differs
from the weighted sum by at most `2^-48`.  For doubles `s` and `r` the
computed new value lies between the old value and `r`, and `s = r` is a fixed
point.  The refs start at `0`; the raw levels of a byte-valued buffer and the
smoothed levels of every state reached over byte-valued frames are doubles in
`[0, 255/128]`; and a frame that reaches the update replaces each smoothed
ref by the update of its old value with `r` the normalised raw level of its
band (and leaves it otherwise). -/
theorem exponential_smoothing (s r : ℚ) (rs : List ℚ) (a : List Nat) (events : List Event)
    (st : State) (env : FrameEnv)
    (hs : 0 ≤ s ∧ s ≤ 255 / 128) (hr : 0 ≤ r ∧ r ≤ 255 / 128)
    (hsd : IsDouble s) (hrd : IsDouble r)
    (hrs : ∀ x ∈ rs, 0 ≤ x ∧ x ≤ 255 / 128)
    (ha : ∀ x ∈ a, x ≤ 255) (he : byteFrames events = true) :
    (smoothingFactor = toDouble (8 / 100)
      ∧ smoothingFactor = 5764607523034235 / 72057594037927936)
    ∧ smooth s r = toDouble (s + toDouble (toDouble (r - s) * smoothingFactor))
    ∧ (smoothExact s r = s + (r - s) * (8 / 100)
      ∧ smoothExact s r = 92 / 100 * s + 8 / 100 * r)
    ∧ rs.foldl smoothExact 0 = weightedSum rs
    ∧ |smooth s r - smoothExact s r| ≤ 1 / 2 ^ 52
    ∧ |rs.foldl smooth 0 - weightedSum rs| ≤ 1 / 2 ^ 48
    ∧ (min s r ≤ smooth s r ∧ smooth s r ≤ max s r)
    ∧ smooth r r = r
    ∧ (initialState.smoothedBassRef = 0 ∧ initialState.smoothedMidRef = 0
        ∧ initialState.smoothedTrebleRef = 0)
    ∧ ((IsDouble (normBassRaw a) ∧ 0 ≤ normBassRaw a ∧ normBassRaw a ≤ 255 / 128)
      ∧ (IsDouble (normMidRaw a) ∧ 0 ≤ normMidRaw a ∧ normMidRaw a ≤ 255 / 128)
      ∧ (IsDouble (normTrebleRaw a) ∧ 0 ≤ normTrebleRaw a ∧ normTrebleRaw a ≤ 255 / 128))
    ∧ ((IsDouble (run initialState events).smoothedBassRef
        ∧ 0 ≤ (run initialState events).smoothedBassRef
        ∧ (run initialState events).smoothedBassRef ≤ 255 / 128)
      ∧ (IsDouble (run initialState events).smoothedMidRef
        ∧ 0 ≤ (run initialState events).smoothedMidRef
        ∧ (run initialState events).smoothedMidRef ≤ 255 / 128)
      ∧ (IsDouble (run initialState events).smoothedTrebleRef
        ∧ 0 ≤ (run initialState events).smoothedTrebleRef
        ∧ (run initialState events).smoothedTrebleRef ≤ 255 / 128))
    ∧ ((renderCombinedFrame st env).smoothedBassRef
        = if updatesLevels st env then
            smooth st.smoothedBassRef
              (normBassRaw (getByteFrequencyData env.freq st.audioDataArray))
          else st.smoothedBassRef)
    ∧ ((renderCombinedFrame st env).smoothedMidRef
        = if updatesLevels st env then
            smooth st.smoothedMidRef
              (normMidRaw (getByteFrequencyData env.freq st.audioDataArray))
          else st.smoothedMidRef)
    ∧ ((renderCombinedFrame st env).smoothedTrebleRef
        = if updatesLevels st env then
            smooth st.smoothedTrebleRef
              (normTrebleRaw (getByteFrequencyData env.freq st.audioDataArray))
          else st.smoothedTrebleRef) := by
  have h := renderCombinedFrame_levels st env
  obtain ⟨rb, rm, rt⟩ := normRaw_range a ha
  obtain ⟨lb, lm, lt, _, db, dm, dt⟩ :=
    run_levelsInv events initialState initialState_levelsInv he
  exact ⟨⟨rfl, smoothingFactor_eq⟩, rfl, ⟨rfl, smoothExact_eq s r⟩,
    foldl_smoothExact_eq rs,
    smooth_error s r hs hr, foldl_smooth_error rs hrs, smooth_between s r hsd hrd,
    smooth_fixed r hrd, ⟨rfl, rfl, rfl⟩,
    ⟨⟨isDouble_toDouble _, rb.1, rb.2⟩, ⟨isDouble_toDouble _, rm.1, rm.2⟩,
      ⟨isDouble_toDouble _, rt.1, rt.2⟩⟩,
    ⟨⟨db, lb.1, lb.2⟩, ⟨dm, lm.1, lm.2⟩, ⟨dt, lt.1, lt.2⟩⟩, h.1, h.2.1, h.2.2.1⟩

/-- C3 (amended) on the old level `1/2` and the raw level `1`, on the raw
inputs `1/128, 2/128`, on a three-bin buffer and on the short run. -/
theorem exponential_smoothing_witness :
    |smooth (1 / 2) 1 - smoothExact (1 / 2) 1| ≤ 1 / 2 ^ 52
    ∧ |[1 / 128, 2 / 128].foldl smooth 0 - weightedSum [1 / 128, 2 / 128]| ≤ 1 / 2 ^ 48
    ∧ (min (1 / 2) 1 ≤ smooth (1 / 2) 1 ∧ smooth (1 / 2) 1 ≤ max (1 / 2) 1)
    ∧ smooth 1 1 = 1
    ∧ IsDouble (normBassRaw [0, 128, 255])
    ∧ IsDouble (run initialState shortRun).smoothedTrebleRef :=
  have w := exponential_smoothing (1 / 2) 1 [1 / 128, 2 / 128] [0, 128, 255] shortRun
    (run initialState loopStarted) silentFrame
    ⟨by norm_num, by norm_num⟩ ⟨by norm_num, by norm_num⟩
    (isDouble_of _ 1 (-1) (by norm_num) (by norm_num) (by norm_num))
    (isDouble_of _ 1 0 (by norm_num) (by norm_num) (by norm_num))
    (by
      intro x hx
      simp only [List.mem_cons, List.mem_singleton, List.not_mem_nil, or_false] at hx
      rcases hx with rfl | rfl <;> norm_num)
    (by decide) (by decide)
  ⟨w.2.2.2.2.1, w.2.2.2.2.2.1, w.2.2.2.2.2.2.1, w.2.2.2.2.2.2.2.1,
    w.2.2.2.2.2.2.2.2.2.1.1.1, w.2.2.2.2.2.2.2.2.2.2.1.2.2.1⟩

/-! ## C4: a frame that throws -/

/-- C4: when a statement of a combined frame throws (the seven refs being set,
so that the `try` block is entered), `renderCombinedFrame` sets the message to
`Render Error: ` followed by the exception message, resets `isInitializedRef`,
sets `animationFrameIdRef` to `null` and calls `requestAnimationFrame` no more:
no handle is issued and nothing new is pending.  After such a frame callback
in a state reached from the initial one, no animation frame is pending. -/
theorem render_error_halts (s : State) (env : FrameEnv) (failed : RenderStep)
    (message : String) (events : List Event)
    (hg : allRefsSet s = true) (hf : env.failure = some (failed, message))
    (hr : allRefsSet (run initialState events) = true) :
    (renderCombinedFrame s env).errorMessage = "Render Error: " ++ message
    ∧ (renderCombinedFrame s env).isInitializedRef = false
    ∧ (renderCombinedFrame s env).animationFrameIdRef = none
    ∧ (renderCombinedFrame s env).nextFrameId = s.nextFrameId
    ∧ (∀ id ∈ (renderCombinedFrame s env).pendingFrames, id ∈ s.pendingFrames)
    ∧ (step (run initialState events) (Event.frame env)).pendingFrames = []
    ∧ (step (run initialState events) (Event.frame env)).animationFrameIdRef = none := by
  obtain ⟨h1, h2, h3, h4, _, h6⟩ := renderCombinedFrame_thrown s env failed message hg hf
  refine ⟨h1, h2, h3, h4, ?_, ?_⟩
  · intro id hid
    rw [h6] at hid
    split at hid
    · split at hid
      · exact List.mem_of_mem_filter hid
      · exact hid
    · exact hid
  · have hl := run_loopInv events initialState initialState_loopInv
    obtain ⟨_, hp, _, _⟩ := hl
    simp only [step, frameCallback]
    split
    · rename_i hnil
      refine ⟨hnil, ?_⟩
      rw [hnil] at hp
      cases ha : (run initialState events).animationFrameIdRef with
      | none => rfl
      | some a =>
        rw [ha] at hp
        cases hp
    · rename_i id rest hpend
      have hrest : rest = [] := by
        rw [hpend] at hp
        cases ha : (run initialState events).animationFrameIdRef with
        | none =>
          rw [ha] at hp
          cases hp
        | some a =>
          rw [ha] at hp
          simp only [Option.toList, List.cons.injEq] at hp
          exact hp.2
      obtain ⟨_, _, k3, _, _, k6⟩ := renderCombinedFrame_thrown
        { run initialState events with pendingFrames := rest } env failed message hr hf
      refine ⟨?_, k3⟩
      rw [k6, hrest]
      split
      · split <;> rfl
      · rfl

/-- C4 on the started loop, with a frame in which `visualizer.render()` throws. -/
theorem render_error_halts_witness :
    (renderCombinedFrame (run initialState loopStarted) failingFrame).errorMessage
        = "Render Error: " ++ "context lost"
    ∧ (renderCombinedFrame (run initialState loopStarted) failingFrame).isInitializedRef = false
    ∧ (renderCombinedFrame (run initialState loopStarted) failingFrame).animationFrameIdRef
        = none
    ∧ (renderCombinedFrame (run initialState loopStarted) failingFrame).nextFrameId
        = (run initialState loopStarted).nextFrameId
    ∧ (∀ id ∈ (renderCombinedFrame (run initialState loopStarted) failingFrame).pendingFrames,
        id ∈ (run initialState loopStarted).pendingFrames)
    ∧ (step (run initialState loopStarted) (Event.frame failingFrame)).pendingFrames = []
    ∧ (step (run initialState loopStarted) (Event.frame failingFrame)).animationFrameIdRef
        = none :=
  render_error_halts (run initialState loopStarted) failingFrame RenderStep.visualizerRender
    "context lost" loopStarted (by decide) rfl (by decide)

/-! ## C5: an error of the audio element -/

/-- C5, the code at the failing input: with the render loop running (handle 1
pending), a decode error of the audio element makes `onerror` set the message
`Audio Error: Decode error` and reset `isInitializedRef`, but the handler
neither cancels the pending frame nor sets `animationFrameIdRef` to `null`, as
the `catch` block of `renderCombinedFrame` does: the ref still holds handle 1,
the frame is still pending, and the next frame callback requests handle 2. -/
theorem audio_error_keeps_loop :
    (run initialState loopStarted).pendingFrames = [1]
    ∧ (step (run initialState loopStarted) (Event.error (some 3))).errorMessage
        = "Audio Error: Decode error"
    ∧ (step (run initialState loopStarted) (Event.error (some 3))).isInitializedRef = false
    ∧ (step (run initialState loopStarted) (Event.error (some 3))).animationFrameIdRef = some 1
    ∧ (step (run initialState loopStarted) (Event.error (some 3))).pendingFrames = [1]
    ∧ (step (step (run initialState loopStarted) (Event.error (some 3)))
        (Event.frame silentFrame)).pendingFrames = [2]
    ∧ (step (step (run initialState loopStarted) (Event.error (some 3)))
        (Event.frame silentFrame)).animationFrameIdRef = some 2 := by
  refine ⟨by decide, by decide, by decide, by decide, by decide, by decide, by decide⟩

/-! ## C6: the cleanup of the initialise effect -/

/-- C6, refuted as stated: the cleanup leaves the component standing in three
of the listed states.  Before the audio data has loaded the audio element
stays in its ref; after an audio error during rendering the refs stay set and
the frame request stays pending, so that the next frame callback renders and
requests another frame; after a render error the refs stay set. -/
theorem cleanup_skips_after_reset :
    tornDown (cleanup (run initialState awaitingData)) = false
    ∧ (cleanup (run initialState awaitingData)).audioElRef.isSome = true
    ∧ tornDown (cleanup (run initialState audioFailed)) = false
    ∧ (cleanup (run initialState audioFailed)).pendingFrames = [1]
    ∧ (cleanup (run initialState audioFailed)).rendererRef.isSome = true
    ∧ (step (cleanup (run initialState audioFailed)) (Event.frame silentFrame)).pendingFrames
        = [2]
    ∧ tornDown (cleanup (run initialState renderFailed)) = false
    ∧ (cleanup (run initialState renderFailed)).pendingFrames = []
    ∧ (cleanup (run initialState renderFailed)).audioContextRef.isSome = true := by
  refine ⟨by decide, by decide, by decide, by decide, by decide, by decide, by decide,
    by decide, by decide⟩

theorem cleanup_refs (s : State) (h : s.isInitializedRef = true) :
    (cleanup s).rendererRef = none ∧ (cleanup s).sceneRef = none
    ∧ (cleanup s).cameraRef = none ∧ (cleanup s).sphereRef = none
    ∧ (cleanup s).textureRef = none ∧ (cleanup s).audioElRef = none
    ∧ (cleanup s).audioContextRef = none ∧ (cleanup s).visualizerRef = none
    ∧ (cleanup s).analyserRef = none ∧ (cleanup s).isInitializedRef = false := by
  cases ha : s.animationFrameIdRef with
  | none =>
    cases hr : s.rendererRef <;> cases he : s.audioElRef <;>
      simp [cleanup, h, ha, hr, he]
  | some a =>
    by_cases ht : truthy (some a) = true
    · cases hr : s.rendererRef <;> cases he : s.audioElRef <;>
        simp [cleanup, h, ha, hr, he, ht, cancelAnimationFrame]
    · cases hr : s.rendererRef <;> cases he : s.audioElRef <;>
        simp [cleanup, h, ha, hr, he, ht]

/-- C6, amended: in every state reached from the initial one in which
`isInitializedRef` is true when the cleanup runs, the component is torn down
afterwards: no animation frame is pending, `animationFrameIdRef` is `null`,
the nine object refs are `null`, and the flag is false. -/
theorem cleanup_tears_down (events : List Event)
    (h : (run initialState events).isInitializedRef = true) :
    tornDown (cleanup (run initialState events)) = true
    ∧ (cleanup (run initialState events)).isInitializedRef = false := by
  have hl := run_loopInv events initialState initialState_loopInv
  obtain ⟨hp, ha⟩ := (cleanup_loopInv _ hl).2 h
  obtain ⟨r1, r2, r3, r4, r5, r6, r7, r8, r9, r10⟩ := cleanup_refs _ h
  refine ⟨?_, r10⟩
  unfold tornDown
  rw [hp, ha, r1, r2, r3, r4, r5, r6, r7, r8, r9]
  rfl

/-- C6 (amended) on the started loop, where `isInitializedRef` is true. -/
theorem cleanup_tears_down_witness :
    tornDown (cleanup (run initialState loopStarted)) = true
    ∧ (cleanup (run initialState loopStarted)).isInitializedRef = false :=
  cleanup_tears_down loopStarted (by decide)

/-! ## C7: the initialisation guards -/

theorem onloadeddata_context (s : State) (env : SetupEnv)
    (hno : throwsAt env.failure SetupStep.newAudioContext = none) :
    (onloadeddata s env).isInitializedRef = true
    ∨ (onloadeddata s env).audioContextRef.isSome = true := by
  unfold onloadeddata
  split
  · rename_i hguard
    simpa using hguard
  · right
    have h : Holds (setupTry env s) (fun t => t.audioContextRef.isSome = true)
        (fun t => t.audioContextRef.isSome = true) := by
      apply setupTry_holds (fun t => t.audioContextRef.isSome = true)
        (fun t => t.audioContextRef.isSome = true) (fun t => t.audioContextRef.isSome = true)
      · unfold attempt
        rw [hno]
        rfl
      · exact fun t h => h
      · exact fun t h => h
      · exact fun t h => h
      · exact fun t h => h
      · exact fun t h => h
      · exact fun t h => h
      · exact fun t k h => h
      · exact fun t h => h
      · exact fun t h => h
      · exact fun t m h => h
      · exact fun t m h => h
      · exact fun t h => h
      · exact fun t h => h
      · exact fun t h => h
      · exact fun t a h => h
      · exact fun t h => h
      · exact fun t h => h
    unfold Holds at h
    split
    · rename_i s1 heq
      rw [heq] at h
      exact h
    · rename_i s1 msg heq
      rw [heq] at h
      exact h

theorem initialise_element (s : State) (failure : Option (InitStep × String))
    (audioEl : AudioEl) (h : s.audioElRef = some audioEl) :
    ∃ kept, (initialise s failure).audioElRef = some kept
      ∧ kept.src = audioEl.src ∧ kept.preload = audioEl.preload
      ∧ kept.crossOrigin = audioEl.crossOrigin ∧ kept.paused = audioEl.paused
      ∧ kept.error = audioEl.error
      ∧ audioEl.playPauseListeners ≤ kept.playPauseListeners := by
  unfold initialise
  split
  · exact ⟨audioEl, h, rfl, rfl, rfl, rfl, rfl, le_refl _⟩
  · split
    · exact ⟨audioEl, h, rfl, rfl, rfl, rfl, rfl, le_refl _⟩
    · rcases failure with _ | ⟨st, msg⟩
      · simp [initialiseTry, h, attempt, throwsAt, Outcome.andThen]
      · cases st <;> simp [initialiseTry, h, attempt, throwsAt, Outcome.andThen]

/-- C7: calling `initialize()` while `isInitializedRef` is true changes no
state; the `loadeddata` handler run while `isInitializedRef` is true or an
`AudioContext` exists changes no state.  A call of `initialize()` in any state
leaves the context, analyser, visualizer, renderer and the animation-frame
requests as they are and keeps an audio element the ref already holds; after
a `loadeddata` handler in which `new AudioContext()` did not throw, a second
`loadeddata` changes no state; and in every state reached from the initial
one at most one animation frame is pending. -/
theorem init_guards_idempotent (s : State) (failure : Option (InitStep × String))
    (env next : SetupEnv) (events : List Event) :
    (s.isInitializedRef = true → initialise s failure = s)
    ∧ (s.isInitializedRef = true ∨ s.audioContextRef.isSome = true → onloadeddata s env = s)
    ∧ ((initialise s failure).audioContextRef = s.audioContextRef
        ∧ (initialise s failure).analyserRef = s.analyserRef
        ∧ (initialise s failure).visualizerRef = s.visualizerRef
        ∧ (initialise s failure).rendererRef = s.rendererRef
        ∧ (initialise s failure).animationFrameIdRef = s.animationFrameIdRef
        ∧ (initialise s failure).pendingFrames = s.pendingFrames
        ∧ (initialise s failure).nextFrameId = s.nextFrameId)
    ∧ (∀ audioEl, s.audioElRef = some audioEl →
        ∃ kept, (initialise s failure).audioElRef = some kept
          ∧ kept.src = audioEl.src ∧ kept.preload = audioEl.preload
          ∧ kept.crossOrigin = audioEl.crossOrigin ∧ kept.paused = audioEl.paused
          ∧ kept.error = audioEl.error
          ∧ audioEl.playPauseListeners ≤ kept.playPauseListeners)
    ∧ (throwsAt env.failure SetupStep.newAudioContext = none →
        onloadeddata (onloadeddata s env) next = onloadeddata s env)
    ∧ (run initialState events).pendingFrames.length ≤ 1 := by
  have guard : ∀ (t : State) (e : SetupEnv),
      (t.isInitializedRef = true ∨ t.audioContextRef.isSome = true) → onloadeddata t e = t := by
    intro t e ht
    unfold onloadeddata
    rw [if_pos]
    simpa using ht
  refine ⟨?_, guard s env, ?_, initialise_element s failure, ?_, ?_⟩
  · intro h
    unfold initialise
    rw [if_pos h]
  · have hk := initialise_keeps
      (fun t => t.audioContextRef = s.audioContextRef ∧ t.analyserRef = s.analyserRef
        ∧ t.visualizerRef = s.visualizerRef ∧ t.rendererRef = s.rendererRef
        ∧ t.animationFrameIdRef = s.animationFrameIdRef ∧ t.pendingFrames = s.pendingFrames
        ∧ t.nextFrameId = s.nextFrameId)
      s failure ⟨rfl, rfl, rfl, rfl, rfl, rfl, rfl⟩ (fun _ _ h => h) (fun _ _ h => h)
      (fun _ _ h => h)
    exact hk
  · intro hno
    exact guard _ next (onloadeddata_context s env hno)
  · have hl := run_loopInv events initialState initialState_loopInv
    rw [hl.2.1]
    cases (run initialState events).animationFrameIdRef <;> simp [Option.toList]

/-- C7 on the started loop (both guards) and on the component awaiting its
audio data (second `initialize()`, second `loadeddata`). -/
theorem init_guards_idempotent_witness :
    initialise (run initialState loopStarted) none = run initialState loopStarted
    ∧ onloadeddata (run initialState loopStarted) setupOk = run initialState loopStarted
    ∧ (∃ kept, (initialise (run initialState awaitingData) none).audioElRef = some kept
        ∧ kept.src = AUDIO_URL ∧ 1 ≤ kept.playPauseListeners)
    ∧ onloadeddata (onloadeddata (run initialState awaitingData) setupOk) setupOk
        = onloadeddata (run initialState awaitingData) setupOk :=
  ⟨(init_guards_idempotent (run initialState loopStarted) none setupOk setupOk []).1
      (by decide),
    (init_guards_idempotent (run initialState loopStarted) none setupOk setupOk []).2.1
      (Or.inl (by decide)),
    (by
      obtain ⟨kept, h1, h2, _, _, _, _, h7⟩ :=
        (init_guards_idempotent (run initialState awaitingData) none setupOk setupOk
          []).2.2.2.1
          { newAudio with playPauseListeners := 1, onerror := true, onloadeddata := true,
                          onstalled := true, onsuspend := true } (by decide)
      exact ⟨kept, h1, h2, h7⟩),
    (init_guards_idempotent (run initialState awaitingData) none setupOk setupOk
      []).2.2.2.2.1 (by decide)⟩

/-! ## C8: the Play and Pause buttons -/

/-- C8: the Play button is disabled iff the refs are not ready or the
component is not initialised or audio is playing; the Pause button is
disabled iff the refs are not ready or the component is not initialised or
audio is not playing.  Hence when ready and initialised Play is disabled
exactly when playing and Pause exactly when not playing, so exactly one of
the two is enabled; otherwise both are disabled. -/
theorem play_pause_disabled (s : State) :
    (playDisabled s = true ↔
      (s.refsReady = false ∨ s.isInitializedRef = false ∨ s.isPlaying = true))
    ∧ (pauseDisabled s = true ↔
      (s.refsReady = false ∨ s.isInitializedRef = false ∨ s.isPlaying = false))
    ∧ (playDisabled s, pauseDisabled s)
        = (if s.refsReady && s.isInitializedRef then (s.isPlaying, !s.isPlaying)
           else (true, true))
    ∧ (if s.refsReady && s.isInitializedRef then playDisabled s ≠ pauseDisabled s
       else playDisabled s = true ∧ pauseDisabled s = true) := by
  unfold playDisabled pauseDisabled
  cases s.refsReady <;> cases s.isInitializedRef <;> cases s.isPlaying <;> simp

/-! ## C9: changing the preset -/

theorem presetsGet_inherited (presets : List (String × Preset)) (name : String)
    (h : name ∈ objectPrototype.map Prod.fst) : (presetsGet presets name).isSome = true := by
  unfold presetsGet
  cases presets.lookup name with
  | some p => rfl
  | none =>
    simp only [objectPrototype, List.map_cons, List.map_nil, List.mem_cons,
      List.mem_singleton, List.not_mem_nil, or_false] at h
    rcases h with h | h | h | h | h | h | h | h | h | h | h | h <;> subst h <;> decide

/-- C9: `handlePresetChange` with key `k` loads `presets[k]` with blend time
`2.0`, sets `currentPresetKey` to `k` and clears the message exactly when the
visualizer exists, `presets[k]` exists, `isInitializedRef` is true and
`loadPreset` does not throw; in every other case the visualizer and
`currentPresetKey` are unchanged and the message is `Preset Error: `
followed by the first applicable reason (or the exception message).  Nothing
else in the state changes.  The read `presets[k]` finds the own entry of the
table under `k`, else the member inherited from `Object.prototype` under `k`:
under each of the twelve inherited names it finds something, and under any
other name that is not a key of the table it finds nothing. -/
theorem preset_change (s : State) (k : String) (failure : Option String) :
    (handlePresetChange s k failure).visualizerRef
      = (if presetChangeOk s k failure then
          s.visualizerRef.map fun (v : Visualizer) =>
            { v with loaded := (presetsGet s.presets k).map fun p => (p, (2 : ℚ)) }
         else s.visualizerRef)
    ∧ (handlePresetChange s k failure).currentPresetKey
      = (if presetChangeOk s k failure then k else s.currentPresetKey)
    ∧ (handlePresetChange s k failure).errorMessage
      = (if presetChangeOk s k failure then ""
         else "Preset Error: " ++ presetErrorText s k failure)
    ∧ { handlePresetChange s k failure with
          visualizerRef := s.visualizerRef, currentPresetKey := s.currentPresetKey,
          errorMessage := s.errorMessage } = s
    ∧ (∀ p, s.presets.lookup k = some p → presetsGet s.presets k = some p)
    ∧ (s.presets.lookup k = none → presetsGet s.presets k = objectPrototype.lookup k)
    ∧ (k ∈ objectPrototype.map Prod.fst → (presetsGet s.presets k).isSome = true)
    ∧ (s.presets.lookup k = none → k ∉ objectPrototype.map Prod.fst →
        presetsGet s.presets k = none) := by
  refine ⟨?_, ?_, ?_, ?_, ?_, ?_, presetsGet_inherited s.presets k, ?_⟩
  · unfold handlePresetChange presetChangeOk
    cases hv : s.visualizerRef <;> cases hp : presetsGet s.presets k <;>
      cases hi : s.isInitializedRef <;> cases failure <;> simp [hv]
  · unfold handlePresetChange presetChangeOk
    cases hv : s.visualizerRef <;> cases hp : presetsGet s.presets k <;>
      cases hi : s.isInitializedRef <;> cases failure <;> simp
  · unfold handlePresetChange presetChangeOk presetErrorText presetReason
    cases hv : s.visualizerRef <;> cases hp : presetsGet s.presets k <;>
      cases hi : s.isInitializedRef <;> cases failure <;> simp [hv, hp, hi]
  · unfold handlePresetChange
    repeat' split
    all_goals rfl
  · intro p hp
    unfold presetsGet
    rw [hp]
  · intro hp
    unfold presetsGet
    rw [hp]
  · intro hp hk
    unfold presetsGet
    rw [hp]
    show objectPrototype.lookup k = none
    rw [List.lookup_eq_none_iff]
    intro q hq
    simp only [bne_iff_ne, ne_eq]
    intro hkq
    exact hk (List.mem_map.mpr ⟨q, hq, hkq.symm⟩)

/-- C9 on the started loop, whose table has the one own key `preset`: the
key `toString`, which the table inherits, passes the test `presets[k]`, so
that `loadPreset` is called, `currentPresetKey` becomes `toString` and the
message is cleared; a key that is neither own nor inherited gives
`Preset Error: Preset not found`; and before the setup, without a visualizer,
the own key gives `Preset Error: Visualizer not ready`. -/
theorem preset_change_witness :
    ((presetsGet (run initialState loopStarted).presets "toString").isSome = true
      ∧ (handlePresetChange (run initialState loopStarted) "toString" none).currentPresetKey
          = "toString"
      ∧ (handlePresetChange (run initialState loopStarted) "toString" none).errorMessage = "")
    ∧ presetsGet (run initialState loopStarted).presets "preset" = some ⟨0⟩
    ∧ (presetsGet (run initialState loopStarted).presets "Geiss - Cosmic Dust 2" = none
      ∧ (handlePresetChange (run initialState loopStarted) "Geiss - Cosmic Dust 2"
          none).errorMessage = "Preset Error: " ++ "Preset not found")
    ∧ (handlePresetChange (run initialState awaitingData) "preset" none).errorMessage
        = "Preset Error: " ++ "Visualizer not ready" :=
  have w := preset_change (run initialState loopStarted) "toString" none
  have o := preset_change (run initialState loopStarted) "preset" none
  have m := preset_change (run initialState loopStarted) "Geiss - Cosmic Dust 2" none
  have a := preset_change (run initialState awaitingData) "preset" none
  have hw : presetChangeOk (run initialState loopStarted) "toString" none = true := by decide
  have hm : presetChangeOk (run initialState loopStarted) "Geiss - Cosmic Dust 2" none
      = false := by decide
  have ha : presetChangeOk (run initialState awaitingData) "preset" none = false := by decide
  ⟨⟨w.2.2.2.2.2.2.1 (by decide), w.2.1.trans (by rw [hw]; rfl),
      w.2.2.1.trans (by rw [hw]; rfl)⟩,
    o.2.2.2.2.1 ⟨0⟩ (by decide),
    ⟨m.2.2.2.2.2.2.2 (by decide) (by decide),
      m.2.2.1.trans (by rw [hm]; decide)⟩,
    a.2.2.1.trans (by rw [ha]; decide)⟩

/-! ## C10: resizing -/

theorem fixedTexture_map (s t : State) (f : Visualizer → Visualizer)
    (ht : t.visualizerRef = s.visualizerRef.map f)
    (hf : ∀ v, (f v).width = v.width ∧ (f v).height = v.height)
    (hs : FixedTexture s) : FixedTexture t := by
  intro v hv
  rw [ht] at hv
  cases hsv : s.visualizerRef with
  | none =>
    rw [hsv] at hv
    cases hv
  | some w =>
    rw [hsv] at hv
    simp only [Option.map_some', Option.some.injEq] at hv
    subst hv
    rw [(hf w).1, (hf w).2]
    exact hs w hsv

theorem fixedTexture_same (s t : State) (ht : t.visualizerRef = s.visualizerRef)
    (hs : FixedTexture s) : FixedTexture t := by
  intro v hv
  rw [ht] at hv
  exact hs v hv

theorem renderCombinedFrame_visualizer (s : State) (env : FrameEnv) :
    (renderCombinedFrame s env).visualizerRef = s.visualizerRef
    ∨ (renderCombinedFrame s env).visualizerRef
        = s.visualizerRef.map fun (v : Visualizer) => { v with renders := v.renders + 1 } := by
  rcases env with ⟨freq, elapsed, failure⟩
  by_cases hg : allRefsSet s = true
  · rcases failure with _ | ⟨st, msg⟩
    · right
      simp [renderCombinedFrame, renderTry, hg, attempt, throwsAt, Outcome.andThen,
        requestAnimationFrame]
      split <;> simp
    · cases st <;>
        simp [renderCombinedFrame, renderTry, hg, attempt, throwsAt, Outcome.andThen,
          requestAnimationFrame, renderCatch, cancelAnimationFrame] <;>
        (repeat' split) <;> simp
  · left
    simp [renderCombinedFrame, hg, requestAnimationFrame]
    split <;> simp

theorem cleanup_visualizer (s : State) :
    (cleanup s).visualizerRef = s.visualizerRef ∨ (cleanup s).visualizerRef = none := by
  by_cases hi : s.isInitializedRef = true
  · right
    exact (cleanup_refs s hi).2.2.2.2.2.2.2.1
  · left
    simp [cleanup, hi]

theorem handlePresetChange_visualizer (s : State) (k : String) (failure : Option String) :
    (handlePresetChange s k failure).visualizerRef = s.visualizerRef
    ∨ (handlePresetChange s k failure).visualizerRef
        = s.visualizerRef.map fun (v : Visualizer) =>
            { v with loaded := (presetsGet s.presets k).map fun p => (p, (2 : ℚ)) } := by
  unfold handlePresetChange
  cases hv : s.visualizerRef <;> cases hp : presetsGet s.presets k <;>
    cases hi : s.isInitializedRef <;> cases failure <;> simp [hv]

theorem step_fixedTexture (s : State) (e : Event) (hs : FixedTexture s) :
    FixedTexture (step s e) := by
  cases e with
  | commit mount => exact hs
  | refCheckEffect =>
    simp only [step, refCheckEffect]
    split <;> exact hs
  | initializeEffect failure =>
    simp only [step, initializeEffect]
    split
    · exact initialise_keeps FixedTexture s failure hs (fun _ _ h => h) (fun _ _ h => h)
        (fun _ _ h => h)
    · exact hs
  | initialise failure =>
    exact initialise_keeps FixedTexture s failure hs (fun _ _ h => h) (fun _ _ h => h)
      (fun _ _ h => h)
  | loadeddata env =>
    simp only [step]
    split
    · split
      · apply onloadeddata_holds FixedTexture FixedTexture FixedTexture FixedTexture env s hs
        · exact fun _ _ => hs
        · intro h
          apply setupTry_holds FixedTexture FixedTexture FixedTexture env s
          · exact attempt_holds _ _ _ _ _ _ h h
          · exact fun t h => h
          · exact fun t h => h
          · exact fun t h => h
          · intro t _ v hv
            simp only [createVisualizer, Option.some.injEq] at hv
            subst hv
            exact ⟨rfl, rfl⟩
          · intro t h
            exact fixedTexture_map t _ (fun (v : Visualizer) => { v with audioConnected := true })
              rfl (fun v => ⟨rfl, rfl⟩) h
          · exact fun t h => h
          · intro t k h
            exact fixedTexture_map t _ (fun (v : Visualizer) =>
              { v with loaded := (env.allPresets.lookup k).map fun p => (p, (0 : ℚ)) })
              rfl (fun v => ⟨rfl, rfl⟩) h
          · exact fun t h => h
          · exact fun t h => h
          · exact fun t m h => h
          · exact fun t m h => h
          · exact fun t h => h
          · exact fun t h => h
          · exact fun t h => h
          · exact fun t a h => h
          · exact fun t h => h
          · exact fun t h => h
        · exact fun t h => h
        · exact fun t c h => h
      · exact hs
    · exact hs
  | frame env =>
    simp only [step, frameCallback]
    split
    · exact hs
    · rename_i id rest hpend
      rcases renderCombinedFrame_visualizer { s with pendingFrames := rest } env with h | h
      · exact fixedTexture_same s _ h hs
      · exact fixedTexture_map s _ _ h (fun v => ⟨rfl, rfl⟩) hs
  | error code =>
    simp only [step, onerror]
    repeat' split
    all_goals exact hs
  | playPause paused =>
    simp only [step]
    repeat' split
    all_goals exact hs
  | cleanup =>
    simp only [step]
    rcases cleanup_visualizer s with h | h
    · exact fixedTexture_same s _ h hs
    · intro v hv
      rw [h] at hv
      cases hv
  | presetChange newKey failure =>
    simp only [step]
    rcases handlePresetChange_visualizer s newKey failure with h | h
    · exact fixedTexture_same s _ h hs
    · exact fixedTexture_map s _ _ h (fun v => ⟨rfl, rfl⟩) hs
  | resize w h =>
    simp only [step, handleResize]
    repeat' split
    all_goals exact hs
  | play env =>
    exact handlePlay_keeps FixedTexture s env hs (fun _ _ h _ => h) (fun _ _ _ h _ => h)
      (fun _ _ h => h) (fun _ _ _ h => h)
  | pause failure =>
    exact handlePause_keeps FixedTexture s failure hs (fun _ _ h _ => h)
      (fun _ _ _ h => h)

theorem run_fixedTexture (events : List Event) (s : State) (hs : FixedTexture s) :
    FixedTexture (run s events) := by
  induction events generalizing s with
  | nil => exact hs
  | cons e es ih => exact ih (step s e) (step_fixedTexture s e hs)

/-- C10: when the mount element, the renderer and the camera exist and
`isInitializedRef` is true, `handleResize` sets the camera aspect to
`clientWidth / clientHeight` of the mount element and the renderer size to
`(clientWidth, clientHeight)`; if any of the four conditions fails it changes
neither.  It changes nothing else, in particular not the visualizer, whose
texture is 1024 x 1024 in every state reached from the initial one, before
and after a resize. -/
theorem resize_effect (s : State) (events : List Event) :
    (handleResize s).cameraRef
      = (if resizeOk s then
          s.cameraRef.map fun (c : Camera) =>
            { c with aspect := ⟨(clientSize s).1, (clientSize s).2⟩,
                     projectionUpdates := c.projectionUpdates + 1 }
         else s.cameraRef)
    ∧ (handleResize s).rendererRef
      = (if resizeOk s then
          s.rendererRef.map fun (r : Renderer) =>
            { r with width := (clientSize s).1, height := (clientSize s).2 }
         else s.rendererRef)
    ∧ { handleResize s with cameraRef := s.cameraRef, rendererRef := s.rendererRef } = s
    ∧ (handleResize s).visualizerRef = s.visualizerRef
    ∧ (∀ v, (run initialState events).visualizerRef = some v →
        v.width = 1024 ∧ v.height = 1024)
    ∧ (∀ v, (handleResize (run initialState events)).visualizerRef = some v →
        v.width = 1024 ∧ v.height = 1024) := by
  have hfix : FixedTexture (run initialState events) :=
    run_fixedTexture events initialState (fun v hv => by cases hv)
  have hviz : ∀ t : State, (handleResize t).visualizerRef = t.visualizerRef := by
    intro t
    unfold handleResize
    split <;> rfl
  refine ⟨?_, ?_, ?_, hviz s, hfix, ?_⟩
  · unfold handleResize resizeOk clientSize
    cases hm : s.mountRef <;> cases hr : s.rendererRef <;> cases hc : s.cameraRef <;>
      cases hi : s.isInitializedRef <;> simp [hc]
  · unfold handleResize resizeOk clientSize
    cases hm : s.mountRef <;> cases hr : s.rendererRef <;> cases hc : s.cameraRef <;>
      cases hi : s.isInitializedRef <;> simp [hr]
  · unfold handleResize
    split <;> rfl
  · intro v hv
    rw [hviz] at hv
    exact hfix v hv

/-- C10 on the started loop: the visualizer is 1024 x 1024 before and after a resize. -/
theorem resize_effect_witness :
    (run initialState loopStarted).visualizerRef
      = some ⟨1024, 1024, true, some (⟨0⟩, 0), 0⟩
    ∧ (handleResize (run initialState loopStarted)).visualizerRef
      = some ⟨1024, 1024, true, some (⟨0⟩, 0), 0⟩
    ∧ ((⟨1024, 1024, true, some (⟨0⟩, 0), 0⟩ : Visualizer).width = 1024
      ∧ (⟨1024, 1024, true, some (⟨0⟩, 0), 0⟩ : Visualizer).height = 1024) :=
  ⟨by decide, by decide,
    (resize_effect (run initialState loopStarted) loopStarted).2.2.2.2.1
      ⟨1024, 1024, true, some (⟨0⟩, 0), 0⟩ (by decide)⟩

/-! ## C11: the Play handler -/

theorem playError_ne_empty (message : String) : "Play Error: " ++ message ≠ "" := by
  intro e
  have h := congrArg String.length e
  rw [String.length_append] at h
  simp at h
  exact absurd h.1 (by decide)

/-- C11, refuted as stated: on the started loop the audio element is paused,
the `AudioContext` is suspended and `isInitializedRef` is true, so `handlePlay`
calls `resume()`; when that rejects, the `catch` block sets the message
`Play Error: NotAllowedError` and `play()` is not called, although the element
is paused. -/
theorem play_skipped_when_resume_rejects :
    (run initialState loopStarted).audioElRef = some listeningAudio
    ∧ listeningAudio.paused = true
    ∧ (run initialState loopStarted).audioContextRef = some ⟨ContextState.suspended⟩
    ∧ (run initialState loopStarted).isInitializedRef = true
    ∧ (handlePlay (run initialState loopStarted) resumeRejected).resumed = true
    ∧ (handlePlay (run initialState loopStarted) resumeRejected).played = false
    ∧ (handlePlay (run initialState loopStarted) resumeRejected).state.errorMessage
        = "Play Error: NotAllowedError" := by
  refine ⟨by decide, by decide, by decide, by decide, by decide, by decide, by decide⟩

/-- C11, amended: `handlePlay` calls `play()` only if the audio element and the
`AudioContext` exist, `isInitializedRef` is true and the context is not
closed.  If one of the first three is missing it only sets the message
`Audio not ready. Please wait or refresh.`; if the context is closed it only
sets `Audio system closed. Please refresh.`; `resume()` is called exactly for
a suspended context, and when it rejects `play()` is not called and the
message becomes `Play Error: ` followed by the exception message; `play()` is
called iff the element is paused and `resume()`, if it was called, did not
reject; and the message is cleared when `play()` has resolved, and in no other
case is it replaced by the empty message. -/
theorem play_guards (s : State) (env : PlayEnv) (audioEl : AudioEl)
    (audioContext : AudioContext) :
    ((handlePlay s env).played = true →
      s.audioElRef.isSome = true ∧ s.isInitializedRef = true
      ∧ ∃ c, s.audioContextRef = some c ∧ c.state ≠ ContextState.closed)
    ∧ (s.audioElRef = none ∨ s.audioContextRef = none ∨ s.isInitializedRef = false →
      handlePlay s env
        = ⟨{ s with errorMessage := "Audio not ready. Please wait or refresh." },
            false, false⟩)
    ∧ (s.audioElRef = some audioEl → s.audioContextRef = some audioContext →
        s.isInitializedRef = true →
        (audioContext.state = ContextState.closed →
          handlePlay s env
            = ⟨{ s with errorMessage := "Audio system closed. Please refresh." },
                false, false⟩)
        ∧ ((handlePlay s env).resumed = true ↔ audioContext.state = ContextState.suspended)
        ∧ (∀ message, audioContext.state = ContextState.suspended →
            env.resumeFailure = some message →
            (handlePlay s env).played = false
            ∧ (handlePlay s env).state.errorMessage = "Play Error: " ++ message)
        ∧ (audioContext.state ≠ ContextState.closed →
            ((handlePlay s env).played = true ↔
              (audioEl.paused = true
                ∧ (audioContext.state = ContextState.suspended → env.resumeFailure = none)))))
    ∧ ((handlePlay s env).played = true → env.playFailure = none →
        (handlePlay s env).state.errorMessage = "")
    ∧ ((handlePlay s env).state.errorMessage = "" →
        (handlePlay s env).state.errorMessage = s.errorMessage
        ∨ ((handlePlay s env).played = true ∧ env.playFailure = none)) := by
  have hne := playError_ne_empty
  rcases env with ⟨resumeFailure, playFailure⟩
  refine ⟨?_, ?_, ?_, ?_, ?_⟩
  · cases he : s.audioElRef with
    | none => simp [handlePlay, he]
    | some el =>
      cases hc : s.audioContextRef with
      | none => simp [handlePlay, he, hc]
      | some ctx =>
        cases hi : s.isInitializedRef with
        | false => simp [handlePlay, he, hc, hi]
        | true =>
          rcases ctx with ⟨st⟩
          cases st <;> cases resumeFailure <;> cases playFailure <;>
            cases hp : el.paused <;>
            simp [handlePlay, he, hc, hi, playIfPaused, playCatch, hp]
  · intro h
    cases he : s.audioElRef <;> cases hc : s.audioContextRef <;>
      cases hi : s.isInitializedRef <;> simp_all [handlePlay]
  · intro he hc hi
    rcases audioContext with ⟨st⟩
    cases st <;> cases resumeFailure <;> cases playFailure <;> cases hp : audioEl.paused <;>
      simp [handlePlay, he, hc, hi, playIfPaused, playCatch, hp]
  · cases he : s.audioElRef with
    | none => simp [handlePlay, he]
    | some el =>
      cases hc : s.audioContextRef with
      | none => simp [handlePlay, he, hc]
      | some ctx =>
        cases hi : s.isInitializedRef with
        | false => simp [handlePlay, he, hc, hi]
        | true =>
          rcases ctx with ⟨st⟩
          cases st <;> cases resumeFailure <;> cases playFailure <;>
            cases hp : el.paused <;>
            simp [handlePlay, he, hc, hi, playIfPaused, playCatch, hp]
  · cases he : s.audioElRef with
    | none => simp [handlePlay, he]
    | some el =>
      cases hc : s.audioContextRef with
      | none => simp [handlePlay, he, hc]
      | some ctx =>
        cases hi : s.isInitializedRef with
        | false => simp [handlePlay, he, hc, hi]
        | true =>
          rcases ctx with ⟨st⟩
          cases st <;> cases resumeFailure <;> cases playFailure <;>
            cases hp : el.paused <;>
            simp [handlePlay, he, hc, hi, playIfPaused, playCatch, hp, hne]

/-- C11 (amended) on the started loop (suspended context, paused element):
when both promises resolve, `resume()` and `play()` are called and the message
is cleared; when `resume()` rejects, `play()` is not called and the message is
the `Play Error`.  On the initial state nothing is ready, and on a closed
context only the message is set. -/
theorem play_guards_witness :
    ((handlePlay (run initialState loopStarted) playOk).played = true
      ∧ (handlePlay (run initialState loopStarted) playOk).resumed = true
      ∧ (handlePlay (run initialState loopStarted) playOk).state.errorMessage = "")
    ∧ ((handlePlay (run initialState loopStarted) resumeRejected).played = false
      ∧ (handlePlay (run initialState loopStarted) resumeRejected).state.errorMessage
          = "Play Error: " ++ "NotAllowedError")
    ∧ handlePlay initialState playOk
        = ⟨{ initialState with errorMessage := "Audio not ready. Please wait or refresh." },
            false, false⟩
    ∧ handlePlay contextClosed playOk
        = ⟨{ contextClosed with errorMessage := "Audio system closed. Please refresh." },
            false, false⟩ :=
  have w := play_guards (run initialState loopStarted) playOk listeningAudio
    ⟨ContextState.suspended⟩
  have ready := w.2.2.1 (by decide) (by decide) (by decide)
  have played : (handlePlay (run initialState loopStarted) playOk).played = true :=
    (ready.2.2.2 (by decide)).2 ⟨by decide, fun _ => rfl⟩
  ⟨⟨played, ready.2.1.2 rfl, w.2.2.2.1 played rfl⟩,
    ((play_guards (run initialState loopStarted) resumeRejected listeningAudio
      ⟨ContextState.suspended⟩).2.2.1 (by decide) (by decide) (by decide)).2.2.1
      "NotAllowedError" rfl rfl,
    (play_guards initialState playOk listeningAudio ⟨ContextState.suspended⟩).2.1
      (Or.inl rfl),
    ((play_guards contextClosed playOk listeningAudio ⟨ContextState.closed⟩).2.2.1
      (by decide) (by decide) (by decide)).1 rfl⟩

/-! ## C12: what the cleanup releases -/

theorem cleanup_frame (s : State) (h : s.isInitializedRef = true)
    (hz : s.animationFrameIdRef ≠ some 0) :
    (cleanup s).animationFrameIdRef = none
    ∧ ∀ id, s.animationFrameIdRef = some id → id ∉ (cleanup s).pendingFrames := by
  cases ha : s.animationFrameIdRef with
  | none =>
    cases hr : s.rendererRef <;> cases he : s.audioElRef <;>
      simp [cleanup, h, ha, hr, he]
  | some a =>
    cases a with
    | zero => exact absurd ha hz
    | succ n =>
      cases hr : s.rendererRef <;> cases he : s.audioElRef <;>
        simp [cleanup, h, ha, hr, he, truthy, cancelAnimationFrame]

theorem cleanup_detaches (s : State) (audioEl : AudioEl) (h : s.isInitializedRef = true)
    (he : s.audioElRef = some audioEl) :
    (cleanup s).detachedAudioEls = releaseAudioEl audioEl :: s.detachedAudioEls := by
  cases ha : s.animationFrameIdRef with
  | none => cases hr : s.rendererRef <;> simp [cleanup, h, ha, hr, he]
  | some a =>
    by_cases ht : truthy (some a) = true
    · cases hr : s.rendererRef <;> simp [cleanup, h, ha, hr, he, ht, cancelAnimationFrame]
    · cases hr : s.rendererRef <;> simp [cleanup, h, ha, hr, he, ht]

/-- C12: when `isInitializedRef` is true at cleanup (and the handle held is
not the falsy `0`, which no reachable state holds), the cleanup cancels the
pending frame, sets `animationFrameIdRef`, `rendererRef`, `sceneRef`,
`textureRef`, `sphereRef`, `cameraRef`, `audioElRef`, `audioContextRef`,
`visualizerRef` and `analyserRef` to `null`, clears the audio element's
`onloadeddata`, `onerror`, `onstalled`, `onsuspend` handlers and its `src`
before letting go of it, and sets `isInitializedRef` to false; when
`isInitializedRef` is false it changes nothing at all. -/
theorem cleanup_releases (s : State) (audioEl : AudioEl) (events : List Event) :
    (s.isInitializedRef = true → s.animationFrameIdRef ≠ some 0 →
      (cleanup s).animationFrameIdRef = none
      ∧ (∀ id, s.animationFrameIdRef = some id → id ∉ (cleanup s).pendingFrames))
    ∧ (s.isInitializedRef = true →
      (cleanup s).rendererRef = none ∧ (cleanup s).sceneRef = none
      ∧ (cleanup s).textureRef = none ∧ (cleanup s).sphereRef = none
      ∧ (cleanup s).cameraRef = none ∧ (cleanup s).audioElRef = none
      ∧ (cleanup s).audioContextRef = none ∧ (cleanup s).visualizerRef = none
      ∧ (cleanup s).analyserRef = none ∧ (cleanup s).isInitializedRef = false)
    ∧ (s.isInitializedRef = true → s.audioElRef = some audioEl →
      (cleanup s).detachedAudioEls = releaseAudioEl audioEl :: s.detachedAudioEls
      ∧ (releaseAudioEl audioEl).onloadeddata = false
      ∧ (releaseAudioEl audioEl).onerror = false
      ∧ (releaseAudioEl audioEl).onstalled = false
      ∧ (releaseAudioEl audioEl).onsuspend = false
      ∧ (releaseAudioEl audioEl).src = "")
    ∧ (s.isInitializedRef = false → cleanup s = s)
    ∧ (run initialState events).animationFrameIdRef ≠ some 0 := by
  refine ⟨cleanup_frame s, ?_, ?_, ?_, ?_⟩
  · intro h
    obtain ⟨r1, r2, r3, r4, r5, r6, r7, r8, r9, r10⟩ := cleanup_refs s h
    exact ⟨r1, r2, r5, r4, r3, r6, r7, r8, r9, r10⟩
  · intro h he
    exact ⟨cleanup_detaches s audioEl h he, rfl, rfl, rfl, rfl, rfl⟩
  · intro h
    simp [cleanup, h]
  · intro h0
    have hl := run_loopInv events initialState initialState_loopInv
    have := hl.2.2.1 0 h0
    omega

/-- C12 on the started loop (flag true: everything is released) and on the
loop after an audio error (flag false: nothing changes). -/
theorem cleanup_releases_witness :
    ((cleanup (run initialState loopStarted)).animationFrameIdRef = none
      ∧ 1 ∉ (cleanup (run initialState loopStarted)).pendingFrames)
    ∧ ((cleanup (run initialState loopStarted)).audioElRef = none
      ∧ (cleanup (run initialState loopStarted)).audioContextRef = none
      ∧ (cleanup (run initialState loopStarted)).isInitializedRef = false)
    ∧ (cleanup (run initialState loopStarted)).detachedAudioEls
        = [releaseAudioEl listeningAudio]
    ∧ cleanup (run initialState audioFailed) = run initialState audioFailed :=
  have w := cleanup_releases (run initialState loopStarted) listeningAudio []
  have f := w.1 (by decide) (by decide)
  have r := w.2.1 (by decide)
  ⟨⟨f.1, f.2 1 (by decide)⟩, ⟨r.2.2.2.2.2.1, r.2.2.2.2.2.2.1, r.2.2.2.2.2.2.2.2.2⟩,
    (w.2.2.1 (by decide) (by decide)).1,
    (cleanup_releases (run initialState audioFailed) listeningAudio []).2.2.2.1 (by decide)⟩

/-! ## C13: the ready flag -/

set_option maxHeartbeats 1000000 in
/-- A setup in which nothing throws has set every ref, started the loop and
set the flag, and has left the audio element alone. -/
theorem setupTry_done (env : SetupEnv) (s : State) (h : (setupTry env s).thrown = none) :
    (setupTry env s).state.isInitializedRef = true
    ∧ (setupTry env s).state.audioContextRef.isSome = true
    ∧ allRefsSet (setupTry env s).state = true
    ∧ (setupTry env s).state.animationFrameIdRef.isSome = true
    ∧ (setupTry env s).state.audioElRef = s.audioElRef := by
  rcases env with ⟨failure, allPresets, contextState, nullMessage⟩
  rcases failure with _ | ⟨st, msg⟩
  · cases hm : s.mountRef <;> cases allPresets <;>
      simp_all [setupTry, setupAudio, setupPresets, setupThree, setupLoop, attempt, throwsAt,
        Outcome.andThen, createAudioContext, createAnalyser, connectNodes, createVisualizer,
        connectAudio, publishPresets, loadFirstPreset, reportNoPresets, createScene,
        createCamera, createRenderer, appendCanvas, createTexture, createSphere,
        allocateDataArray, startLoop, setInitialized, requestAnimationFrame, allRefsSet]
  · cases st <;> cases hm : s.mountRef <;> cases allPresets <;>
      simp_all [setupTry, setupAudio, setupPresets, setupThree, setupLoop, attempt, throwsAt,
        Outcome.andThen, createAudioContext, createAnalyser, connectNodes, createVisualizer,
        connectAudio, publishPresets, loadFirstPreset, reportNoPresets, createScene,
        createCamera, createRenderer, appendCanvas, createTexture, createSphere,
        allocateDataArray, startLoop, setInitialized, requestAnimationFrame, allRefsSet]

set_option maxHeartbeats 1000000 in
/-- The statement picked to throw does throw, with its message, when the
setup gets to it: the mount element exists, and `loadPreset` is only called
when there is a preset. -/
theorem setupTry_thrown (env : SetupEnv) (s : State) (st : SetupStep) (message : String)
    (mount : MountEl) (hf : env.failure = some (st, message)) (hm : s.mountRef = some mount)
    (hp : st = SetupStep.loadPreset → env.allPresets ≠ []) :
    (setupTry env s).thrown = some message := by
  rcases env with ⟨failure, allPresets, contextState, nullMessage⟩
  simp only at hf hp
  subst hf
  cases st <;> cases allPresets <;>
    simp_all [setupTry, setupAudio, setupPresets, setupThree, setupLoop, attempt, throwsAt,
      Outcome.andThen, createAudioContext, createAnalyser, connectNodes, createVisualizer,
      connectAudio, publishPresets, loadFirstPreset, reportNoPresets, createScene,
      createCamera, createRenderer, appendCanvas, createTexture, createSphere,
      allocateDataArray, startLoop, setInitialized, requestAnimationFrame]

/-- The outcome of `onloadeddata` once its guard has let the setup run. -/
theorem onloadeddata_run (s : State) (env : SetupEnv) (hi : s.isInitializedRef = false)
    (hc : s.audioContextRef = none) :
    onloadeddata s env =
      match (setupTry env s).thrown with
      | none => (setupTry env s).state
      | some message =>
        { (setupTry env s).state with
          errorMessage := "Setup Error: " ++ message, isInitializedRef := false } := by
  unfold onloadeddata
  rw [if_neg (by simp [hi, hc])]
  rcases h : setupTry env s with ⟨t, thrown⟩
  cases thrown <;> rfl

theorem readyInv_of_false (t : State) (h : t.isInitializedRef = false) : ReadyInv t := by
  intro ht
  rw [h] at ht
  cases ht

theorem renderCombinedFrame_audioEl (s : State) (env : FrameEnv) :
    (renderCombinedFrame s env).audioElRef = s.audioElRef := by
  rcases env with ⟨freq, elapsed, failure⟩
  by_cases hg : allRefsSet s = true
  · rcases failure with _ | ⟨st, msg⟩
    · simp [renderCombinedFrame, renderTry, hg, attempt, throwsAt, Outcome.andThen,
        requestAnimationFrame]
      split <;> simp
    · cases st <;>
        simp [renderCombinedFrame, renderTry, hg, attempt, throwsAt, Outcome.andThen,
          requestAnimationFrame, renderCatch, cancelAnimationFrame] <;>
        (repeat' split) <;> simp
  · simp [renderCombinedFrame, hg, requestAnimationFrame]
    split <;> simp

theorem renderCombinedFrame_readyInv (t : State) (env : FrameEnv) (ht : ReadyInv t) :
    ReadyInv (renderCombinedFrame t env) := by
  by_cases hq : allRefsSet t = false ∨ env.failure = none
  · obtain ⟨h1, h2, h3, _, _, h6⟩ := renderCombinedFrame_quiet t env hq
    intro hi
    rw [h1] at hi
    obtain ⟨a, b, c, d⟩ := ht hi
    rw [renderCombinedFrame_audioEl, h2, h3, h6, d]
    exact ⟨a, b, c, rfl⟩
  · simp only [not_or, Bool.not_eq_false] at hq
    obtain ⟨hg, hf⟩ := hq
    cases hfe : env.failure with
    | none => exact absurd hfe hf
    | some p =>
      obtain ⟨st, message⟩ := p
      exact readyInv_of_false _ (renderCombinedFrame_thrown t env st message hg hfe).2.1

theorem onloadeddata_readyInv (s : State) (env : SetupEnv) (hs : ReadyInv s)
    (he : s.audioElRef.isSome = true) : ReadyInv (onloadeddata s env) := by
  by_cases hguard : s.isInitializedRef = false ∧ s.audioContextRef = none
  · rw [onloadeddata_run s env hguard.1 hguard.2]
    cases ht : (setupTry env s).thrown with
    | none =>
      obtain ⟨h1, h2, h3, h4, h5⟩ := setupTry_done env s ht
      intro _
      exact ⟨by rw [h5]; exact he, h2, h3, h4⟩
    | some message => exact readyInv_of_false _ rfl
  · have hid : onloadeddata s env = s := by
      unfold onloadeddata
      rw [if_pos]
      cases hi : s.isInitializedRef with
      | true => rfl
      | false =>
        cases hc : s.audioContextRef with
        | none => exact absurd ⟨hi, hc⟩ hguard
        | some c => rfl
    rw [hid]
    exact hs

theorem cleanup_flag (s : State) : (cleanup s).isInitializedRef = false := by
  by_cases hi : s.isInitializedRef = true
  · exact (cleanup_refs s hi).2.2.2.2.2.2.2.2.2
  · simp only [Bool.not_eq_true] at hi
    simp [cleanup, hi]

theorem readyInv_congr (s t : State) (hs : ReadyInv s)
    (h1 : t.isInitializedRef = s.isInitializedRef)
    (h2 : t.audioElRef.isSome = s.audioElRef.isSome)
    (h3 : t.audioContextRef.isSome = s.audioContextRef.isSome)
    (h4 : allRefsSet t = allRefsSet s)
    (h5 : t.animationFrameIdRef.isSome = s.animationFrameIdRef.isSome) : ReadyInv t := by
  intro hi
  rw [h1] at hi
  rw [h2, h3, h4, h5]
  exact hs hi

theorem initialise_readyInv (s : State) (failure : Option (InitStep × String))
    (hs : ReadyInv s) : ReadyInv (initialise s failure) := by
  cases hi : s.isInitializedRef with
  | true =>
    have e : initialise s failure = s := by
      unfold initialise
      rw [if_pos hi]
    rw [e]
    exact hs
  | false =>
    exact readyInv_of_false _
      (initialise_keeps (fun t => t.isInitializedRef = false) s failure hi
        (fun _ _ h => h) (fun _ _ h => h) (fun _ _ _ => rfl))

theorem handlePresetChange_readyInv (s : State) (k : String) (failure : Option String)
    (hs : ReadyInv s) : ReadyInv (handlePresetChange s k failure) := by
  apply readyInv_congr s _ hs
  all_goals
    unfold handlePresetChange
    cases hv : s.visualizerRef <;> cases hp : presetsGet s.presets k <;>
      cases hi : s.isInitializedRef <;> cases failure <;> simp [allRefsSet, hv, hi]

theorem handleResize_readyInv (s : State) (hs : ReadyInv s) : ReadyInv (handleResize s) := by
  apply readyInv_congr s _ hs
  all_goals
    unfold handleResize
    cases hm : s.mountRef <;> cases hr : s.rendererRef <;> cases hc : s.cameraRef <;>
      cases hi : s.isInitializedRef <;> simp [allRefsSet, hr, hc, hi]

theorem step_readyInv (s : State) (e : Event) (hs : ReadyInv s) : ReadyInv (step s e) := by
  cases e with
  | commit mount => exact hs
  | refCheckEffect =>
    simp only [step, refCheckEffect]
    split <;> exact hs
  | initializeEffect failure =>
    simp only [step, initializeEffect]
    split
    · exact initialise_readyInv s failure hs
    · exact hs
  | initialise failure => exact initialise_readyInv s failure hs
  | loadeddata env =>
    simp only [step]
    split
    · rename_i audioEl he
      split
      · exact onloadeddata_readyInv s env hs (by rw [he]; rfl)
      · exact hs
    · exact hs
  | frame env =>
    simp only [step, frameCallback]
    split
    · exact hs
    · exact renderCombinedFrame_readyInv _ env hs
  | error code =>
    simp only [step, onerror]
    split
    · rename_i audioEl he
      split
      · exact readyInv_of_false _ rfl
      · exact readyInv_congr s _ hs rfl (by rw [he]; rfl) rfl rfl rfl
    · exact hs
  | playPause paused =>
    simp only [step]
    split
    · rename_i audioEl he
      split
      · exact readyInv_congr s _ hs rfl (by rw [he]; rfl) rfl rfl rfl
      · exact readyInv_congr s _ hs rfl (by rw [he]; rfl) rfl rfl rfl
    · exact hs
  | cleanup => exact readyInv_of_false _ (cleanup_flag s)
  | presetChange newKey failure => exact handlePresetChange_readyInv s newKey failure hs
  | resize w h =>
    simp only [step]
    exact handleResize_readyInv _ hs
  | play env =>
    refine handlePlay_keeps ReadyInv s env hs ?_ ?_ (fun _ _ h => h) (fun _ _ _ h => h)
    · intro t c ht hc
      exact readyInv_congr t _ ht rfl rfl (by rw [hc]; rfl) rfl rfl
    · intro t el m ht he
      exact readyInv_congr t _ ht rfl (by rw [he]; rfl) rfl rfl rfl
  | pause failure =>
    refine handlePause_keeps ReadyInv s failure hs ?_ (fun _ _ _ h => h)
    intro t el ht he
    exact readyInv_congr t _ ht rfl (by rw [he]; rfl) rfl rfl rfl

theorem run_readyInv (events : List Event) (s : State) (hs : ReadyInv s) :
    ReadyInv (run s events) := by
  induction events generalizing s with
  | nil => exact hs
  | cons e es ih => exact ih (step s e) (step_readyInv s e hs)

/-- C13: in every state reached from the initial one in which
`isInitializedRef` is true, the refs to the audio element, `AudioContext`,
analyser, visualizer, renderer, scene, camera, texture and sphere are all
set, and so is the handle of the render loop.  When the guard of the
`loadeddata` handler lets the setup run and a statement of it throws,
`isInitializedRef` is false afterwards and the message is `Setup Error: `
followed by the exception message; each statement picked to throw does so
once the setup reaches it; and the handler turns the flag on only when
nothing has thrown. -/
theorem ready_flag (events : List Event) (s : State) (env : SetupEnv) (failed : SetupStep)
    (message : String) (mount : MountEl) :
    ((run initialState events).isInitializedRef = true →
      (run initialState events).audioElRef.isSome = true
      ∧ (run initialState events).audioContextRef.isSome = true
      ∧ (run initialState events).analyserRef.isSome = true
      ∧ (run initialState events).visualizerRef.isSome = true
      ∧ (run initialState events).rendererRef.isSome = true
      ∧ (run initialState events).sceneRef.isSome = true
      ∧ (run initialState events).cameraRef.isSome = true
      ∧ (run initialState events).textureRef.isSome = true
      ∧ (run initialState events).sphereRef.isSome = true
      ∧ (run initialState events).animationFrameIdRef.isSome = true)
    ∧ (s.isInitializedRef = false → s.audioContextRef = none →
        (setupTry env s).thrown = some message →
        (onloadeddata s env).isInitializedRef = false
        ∧ (onloadeddata s env).errorMessage = "Setup Error: " ++ message)
    ∧ (s.isInitializedRef = false → s.audioContextRef = none →
        env.failure = some (failed, message) → s.mountRef = some mount →
        (failed = SetupStep.loadPreset → env.allPresets ≠ []) →
        (onloadeddata s env).isInitializedRef = false
        ∧ (onloadeddata s env).errorMessage = "Setup Error: " ++ message)
    ∧ (s.isInitializedRef = false → (onloadeddata s env).isInitializedRef = true →
        (setupTry env s).thrown = none ∧ allRefsSet (onloadeddata s env) = true
        ∧ (onloadeddata s env).animationFrameIdRef.isSome = true) := by
  have caught : s.isInitializedRef = false → s.audioContextRef = none →
      (setupTry env s).thrown = some message →
      (onloadeddata s env).isInitializedRef = false
      ∧ (onloadeddata s env).errorMessage = "Setup Error: " ++ message := by
    intro hi hc ht
    rw [onloadeddata_run s env hi hc, ht]
    exact ⟨rfl, rfl⟩
  refine ⟨?_, caught, ?_, ?_⟩
  · intro hi
    obtain ⟨a, b, c, d⟩ := run_readyInv events initialState (readyInv_of_false _ rfl) hi
    simp only [allRefsSet, Bool.and_eq_true] at c
    obtain ⟨⟨⟨⟨⟨⟨c1, c2⟩, c3⟩, c4⟩, c5⟩, c6⟩, c7⟩ := c
    exact ⟨a, b, c1, c2, c3, c4, c5, c6, c7, d⟩
  · intro hi hc hf hm hp
    exact caught hi hc (setupTry_thrown env s failed message mount hf hm hp)
  · intro hi hdone
    cases hc : s.audioContextRef with
    | some c =>
      have hid : onloadeddata s env = s := by
        unfold onloadeddata
        rw [if_pos (by simp [hc])]
      rw [hid, hi] at hdone
      cases hdone
    | none =>
      rw [onloadeddata_run s env hi hc] at hdone ⊢
      cases ht : (setupTry env s).thrown with
      | none =>
        obtain ⟨_, _, h3, h4, _⟩ := setupTry_done env s ht
        exact ⟨rfl, h3, h4⟩
      | some m =>
        rw [ht] at hdone
        cases hdone

/-- C13 on the started loop (flag true, every ref set) and on a setup in
which `createVisualizer` throws. -/
theorem ready_flag_witness :
    ((run initialState loopStarted).audioElRef.isSome = true
      ∧ (run initialState loopStarted).sphereRef.isSome = true
      ∧ (run initialState loopStarted).animationFrameIdRef.isSome = true)
    ∧ ((onloadeddata (run initialState awaitingData) setupFailing).isInitializedRef = false
      ∧ (onloadeddata (run initialState awaitingData) setupFailing).errorMessage
          = "Setup Error: " ++ "WebGL unavailable")
    ∧ (setupTry setupOk (run initialState awaitingData)).thrown = none :=
  have w := ready_flag loopStarted (run initialState awaitingData) setupFailing
    SetupStep.createVisualizer "WebGL unavailable" mountedAt
  have r := w.1 (by decide)
  ⟨⟨r.1, r.2.2.2.2.2.2.2.2.1, r.2.2.2.2.2.2.2.2.2⟩,
    w.2.2.1 (by decide) (by decide) rfl (by decide) (fun h => by cases h),
    ((ready_flag loopStarted (run initialState awaitingData) setupOk
      SetupStep.createVisualizer "WebGL unavailable" mountedAt).2.2.2
      (by decide) (by decide)).1⟩

/-! ## C14: the initial preset -/

set_option maxHeartbeats 1000000 in
/-- A setup in which nothing throws, on a mounted component: what it leaves
in the state about the presets, the flag and the loop. -/
theorem setupTry_ok (env : SetupEnv) (s : State) (mount : MountEl)
    (hf : env.failure = none) (hm : s.mountRef = some mount) :
    (setupTry env s).thrown = none
    ∧ (setupTry env s).state.presets = env.allPresets
    ∧ (setupTry env s).state.presetKeys = env.allPresets.map Prod.fst
    ∧ (setupTry env s).state.isInitializedRef = true
    ∧ (setupTry env s).state.animationFrameIdRef = some s.nextFrameId
    ∧ (setupTry env s).state.pendingFrames = s.pendingFrames ++ [s.nextFrameId]
    ∧ (env.allPresets = [] →
        (setupTry env s).state.visualizerRef
          = some ⟨1024, 1024, true, none, 0⟩
        ∧ (setupTry env s).state.errorMessage = "No presets found."
        ∧ (setupTry env s).state.currentPresetKey = s.currentPresetKey)
    ∧ (∀ k p rest, env.allPresets = (k, p) :: rest →
        (setupTry env s).state.visualizerRef
          = some ⟨1024, 1024, true, some (p, 0), 0⟩
        ∧ (setupTry env s).state.currentPresetKey = k
        ∧ (setupTry env s).state.errorMessage = s.errorMessage) := by
  rcases env with ⟨failure, allPresets, contextState, nullMessage⟩
  simp only at hf
  subst hf
  cases allPresets with
  | nil =>
    simp [setupTry, setupAudio, setupPresets, setupThree, setupLoop, attempt, throwsAt,
      Outcome.andThen, createAudioContext, createAnalyser, connectNodes, createVisualizer,
      connectAudio, publishPresets, loadFirstPreset, reportNoPresets, createScene,
      createCamera, createRenderer, appendCanvas, createTexture, createSphere,
      allocateDataArray, startLoop, setInitialized, requestAnimationFrame, hm]
  | cons kp rest =>
    rcases kp with ⟨k, p⟩
    simp [setupTry, setupAudio, setupPresets, setupThree, setupLoop, attempt, throwsAt,
      Outcome.andThen, createAudioContext, createAnalyser, connectNodes, createVisualizer,
      connectAudio, publishPresets, loadFirstPreset, reportNoPresets, createScene,
      createCamera, createRenderer, appendCanvas, createTexture, createSphere,
      allocateDataArray, startLoop, setInitialized, requestAnimationFrame, hm, List.lookup]

/-- C14: when the guard of the `loadeddata` handler lets the setup run on a
mounted component and nothing throws, the preset table and its keys are
published; if the table has a first key, the preset under that key is loaded
with blend time `0.0` and `currentPresetKey` becomes that key; if it has no
key, no preset is loaded and the message is `No presets found.`; in both
cases `isInitializedRef` becomes true and the render loop is started with one
pending frame request. -/
theorem initial_preset (s : State) (env : SetupEnv) (mount : MountEl)
    (hi : s.isInitializedRef = false) (hc : s.audioContextRef = none)
    (hf : env.failure = none) (hm : s.mountRef = some mount) :
    (onloadeddata s env).presets = env.allPresets
    ∧ (onloadeddata s env).presetKeys = env.allPresets.map Prod.fst
    ∧ (∀ k p rest, env.allPresets = (k, p) :: rest →
        (env.allPresets.map Prod.fst).head? = some k
        ∧ env.allPresets.lookup k = some p
        ∧ (onloadeddata s env).visualizerRef = some ⟨1024, 1024, true, some (p, 0), 0⟩
        ∧ (onloadeddata s env).currentPresetKey = k
        ∧ (onloadeddata s env).errorMessage = s.errorMessage)
    ∧ (env.allPresets = [] →
        (onloadeddata s env).visualizerRef = some ⟨1024, 1024, true, none, 0⟩
        ∧ (onloadeddata s env).errorMessage = "No presets found."
        ∧ (onloadeddata s env).currentPresetKey = s.currentPresetKey)
    ∧ (onloadeddata s env).isInitializedRef = true
    ∧ (onloadeddata s env).animationFrameIdRef = some s.nextFrameId
    ∧ (onloadeddata s env).pendingFrames = s.pendingFrames ++ [s.nextFrameId] := by
  obtain ⟨h0, h1, h2, h3, h4, h5, h6, h7⟩ := setupTry_ok env s mount hf hm
  have e : onloadeddata s env = (setupTry env s).state := by
    rw [onloadeddata_run s env hi hc, h0]
  rw [e]
  refine ⟨h1, h2, ?_, h6, h3, h4, h5⟩
  intro k p rest hk
  refine ⟨?_, ?_, h7 k p rest hk⟩
  · rw [hk]
    rfl
  · rw [hk]
    simp [List.lookup]

/-- C14 on the mounted component awaiting its data, with one preset and with
none. -/
theorem initial_preset_witness :
    ((onloadeddata (run initialState awaitingData) setupOk).visualizerRef
        = some ⟨1024, 1024, true, some (⟨0⟩, 0), 0⟩
      ∧ (onloadeddata (run initialState awaitingData) setupOk).currentPresetKey = "preset")
    ∧ ((onloadeddata (run initialState awaitingData) setupNoPresets).visualizerRef
        = some ⟨1024, 1024, true, none, 0⟩
      ∧ (onloadeddata (run initialState awaitingData) setupNoPresets).errorMessage
        = "No presets found.")
    ∧ (onloadeddata (run initialState awaitingData) setupNoPresets).isInitializedRef = true
    ∧ (onloadeddata (run initialState awaitingData) setupNoPresets).pendingFrames = [1] :=
  have a := initial_preset (run initialState awaitingData) setupOk mountedAt
    (by decide) (by decide) rfl (by decide)
  have b := initial_preset (run initialState awaitingData) setupNoPresets mountedAt
    (by decide) (by decide) rfl (by decide)
  have a1 := a.2.2.1 "preset" ⟨0⟩ [] rfl
  have b1 := b.2.2.2.1 rfl
  ⟨⟨a1.2.2.1, a1.2.2.2.1⟩, ⟨b1.1, b1.2.1⟩, b.2.2.2.2.1, b.2.2.2.2.2.2⟩

/-! ## C15: the options of the preset drop-down -/

theorem take_length (key : String) (n : Nat) : (key.take n).length = min n key.length := by
  rw [String.take_eq]
  show (List.take n key.data).length = min n key.data.length
  exact List.length_take n key.data

theorem optionLabel_length (key : String) :
    (optionLabel key).length ≤ 40 ∧ (40 < key.length → (optionLabel key).length = 40) := by
  unfold optionLabel
  have hdots : "...".length = 3 := by decide
  split
  · rename_i h
    rw [String.length_append, take_length, hdots]
    constructor
    · omega
    · intro _
      omega
  · rename_i h
    constructor
    · omega
    · intro h'
      omega

/-- C15: the label of a preset key has at most 40 characters: it is the key
itself when the key has at most 40, and otherwise the first 37 characters of
the key followed by `...`, 40 characters in all.  When the drop-down shows
the presets, its options are the keys in order, each with the full key as
value and this label as text, so two options with the same value are the same
option; two distinct keys can have the same label, as the two 44-character
keys `longKeyA` and `longKeyB` do. -/
theorem option_labels (key : String) (s : State) :
    (optionLabel key).length ≤ 40
    ∧ (key.length ≤ 40 → optionLabel key = key)
    ∧ (40 < key.length →
        optionLabel key = key.take 37 ++ "..."
        ∧ (key.take 37).data = key.data.take 37
        ∧ (optionLabel key).length = 40)
    ∧ (selectDisabled s = false →
        presetOptions s = s.presetKeys.map (fun k => (k, optionLabel k))
        ∧ (presetOptions s).map Prod.fst = s.presetKeys)
    ∧ (∀ o ∈ presetOptions s, ∀ o' ∈ presetOptions s, o.1 = o'.1 → o = o')
    ∧ (longKeyA ≠ longKeyB ∧ optionLabel longKeyA = optionLabel longKeyB) := by
  refine ⟨(optionLabel_length key).1, ?_, ?_, ?_, ?_, ?_⟩
  · intro h
    unfold optionLabel
    rw [if_neg (by omega)]
  · intro h
    refine ⟨?_, String.data_take key 37, (optionLabel_length key).2 h⟩
    unfold optionLabel
    rw [if_pos h]
  · intro h
    have e : presetOptions s = s.presetKeys.map (fun k => (k, optionLabel k)) := by
      unfold presetOptions
      rw [h]
      rfl
    refine ⟨e, ?_⟩
    rw [e, List.map_map]
    exact List.map_id _
  · intro o ho o' ho' hv
    unfold presetOptions at ho ho'
    by_cases hd : selectDisabled s = true
    · rw [if_pos hd, List.mem_singleton] at ho ho'
      rw [ho, ho']
    · rw [if_neg hd, List.mem_map] at ho ho'
      obtain ⟨k, _, rfl⟩ := ho
      obtain ⟨k', _, rfl⟩ := ho'
      simp only at hv
      rw [hv]
  · constructor
    · decide
    · unfold optionLabel longKeyA longKeyB
      rw [String.take_eq, String.take_eq]
      decide

/-- C15 on the two long keys: each label has 40 characters, and the
drop-down shows both keys as values under one label. -/
theorem option_labels_witness :
    (optionLabel longKeyA).length = 40
    ∧ optionLabel "Geiss - Cosmic Dust 2" = "Geiss - Cosmic Dust 2"
    ∧ presetOptions longKeysShown
        = [(longKeyA, optionLabel longKeyA), (longKeyB, optionLabel longKeyB)] :=
  ⟨((option_labels longKeyA longKeysShown).2.2.1 (by decide)).2.2,
    (option_labels "Geiss - Cosmic Dust 2" longKeysShown).2.1 (by decide),
    ((option_labels longKeyA longKeysShown).2.2.2.1 (by decide)).1⟩

/-! ## C16: raw, smoothed and overall levels -/

theorem mean3_between (b m t : ℚ) :
    min b (min m t) ≤ (b + m + t) / 3 ∧ (b + m + t) / 3 ≤ max b (max m t) := by
  have h1 : min b (min m t) ≤ b := min_le_left _ _
  have h2 : min b (min m t) ≤ m := le_trans (min_le_right _ _) (min_le_left _ _)
  have h3 : min b (min m t) ≤ t := le_trans (min_le_right _ _) (min_le_right _ _)
  have k1 : b ≤ max b (max m t) := le_max_left _ _
  have k2 : m ≤ max b (max m t) := le_trans (le_max_left _ _) (le_max_right _ _)
  have k3 : t ≤ max b (max m t) := le_trans (le_max_right _ _) (le_max_right _ _)
  constructor <;> linarith

/-- The overall level as computed lies between the values the same
computation gives for three copies of the smallest and of the largest
level. -/
theorem smoothedOverallLevel_between (b m t : ℚ) :
    smoothedOverallLevel (min b (min m t)) (min b (min m t)) (min b (min m t))
      ≤ smoothedOverallLevel b m t
    ∧ smoothedOverallLevel b m t
      ≤ smoothedOverallLevel (max b (max m t)) (max b (max m t)) (max b (max m t)) := by
  have h1 : min b (min m t) ≤ b := min_le_left _ _
  have h2 : min b (min m t) ≤ m := le_trans (min_le_right _ _) (min_le_left _ _)
  have h3 : min b (min m t) ≤ t := le_trans (min_le_right _ _) (min_le_right _ _)
  have k1 : b ≤ max b (max m t) := le_max_left _ _
  have k2 : m ≤ max b (max m t) := le_trans (le_max_left _ _) (le_max_right _ _)
  have k3 : t ≤ max b (max m t) := le_trans (le_max_right _ _) (le_max_right _ _)
  exact ⟨smoothedOverallLevel_mono _ _ _ _ _ _ h1 h2 h3,
    smoothedOverallLevel_mono _ _ _ _ _ _ k1 k2 k3⟩

theorem overall_bounds (t : State) (ht : LevelsInv t) :
    0 ≤ smoothedOverallLevel t.smoothedBassRef t.smoothedMidRef t.smoothedTrebleRef
    ∧ smoothedOverallLevel t.smoothedBassRef t.smoothedMidRef t.smoothedTrebleRef
        ≤ 255 / 128 :=
  smoothedOverallLevel_range _ _ _ ht.1 ht.2.1 ht.2.2.1

theorem renderCombinedFrame_uniformInv (t : State) (env : FrameEnv) (hl : LevelsInv t)
    (hu : UniformInv t) (hf : ∀ x ∈ env.freq, x ≤ 255) :
    UniformInv (renderCombinedFrame t env) := by
  have hl' := renderCombinedFrame_levelsInv t env hl hf
  intro sphere hsphere
  rw [renderCombinedFrame_sphere] at hsphere
  split at hsphere
  · cases hs : t.sphereRef with
    | none =>
      rw [hs] at hsphere
      cases hsphere
    | some old =>
      rw [hs] at hsphere
      simp only [Option.map_some', Option.some.injEq] at hsphere
      by_cases hm : old.shaderMaterial = true
      · rw [if_pos hm] at hsphere
        subst hsphere
        exact overall_bounds _ hl'
      · rw [if_neg hm] at hsphere
        subst hsphere
        exact hu old hs
  · exact hu sphere hsphere

theorem onloadeddata_uniformInv (s : State) (env : SetupEnv) (hs : UniformInv s) :
    UniformInv (onloadeddata s env) := by
  apply onloadeddata_holds UniformInv UniformInv UniformInv UniformInv env s hs
  · exact fun _ _ => hs
  · intro h
    apply setupTry_holds UniformInv UniformInv UniformInv env s
    · exact attempt_holds _ _ _ _ _ _ h h
    · exact fun t h => h
    · exact fun t h => h
    · exact fun t h => h
    · exact fun t h => h
    · exact fun t h => h
    · exact fun t h => h
    · exact fun t k h => h
    · exact fun t h => h
    · exact fun t h => h
    · exact fun t m h => h
    · exact fun t m h => h
    · exact fun t h => h
    · exact fun t h => h
    · intro t _ sphere hsphere
      simp only [createSphere, Option.some.injEq] at hsphere
      subst hsphere
      norm_num
    · exact fun t a h => h
    · exact fun t h => h
    · exact fun t h => h
  · exact fun t h => h
  · exact fun t c h => h

theorem cleanup_sphere (s : State) :
    (cleanup s).sphereRef = s.sphereRef ∨ (cleanup s).sphereRef = none := by
  by_cases hi : s.isInitializedRef = true
  · right
    exact (cleanup_refs s hi).2.2.2.1
  · left
    simp [cleanup, hi]

theorem step_uniformInv (s : State) (e : Event) (hl : LevelsInv s) (hu : UniformInv s)
    (he : byteEvent e = true) : UniformInv (step s e) := by
  cases e with
  | commit mount => exact hu
  | refCheckEffect =>
    simp only [step, refCheckEffect]
    split <;> exact hu
  | initializeEffect failure =>
    simp only [step, initializeEffect]
    split
    · exact initialise_keeps UniformInv s failure hu (fun _ _ h => h) (fun _ _ h => h)
        (fun _ _ h => h)
    · exact hu
  | initialise failure =>
    exact initialise_keeps UniformInv s failure hu (fun _ _ h => h) (fun _ _ h => h)
      (fun _ _ h => h)
  | loadeddata env =>
    simp only [step]
    split
    · split
      · exact onloadeddata_uniformInv s env hu
      · exact hu
    · exact hu
  | frame env =>
    simp only [step, frameCallback]
    have hf : ∀ x ∈ env.freq, x ≤ 255 := by
      intro x hx
      have h := List.all_eq_true.mp he x hx
      exact of_decide_eq_true h
    split
    · exact hu
    · exact renderCombinedFrame_uniformInv _ env hl hu hf
  | error code =>
    simp only [step, onerror]
    repeat' split
    all_goals exact hu
  | playPause paused =>
    simp only [step]
    repeat' split
    all_goals exact hu
  | cleanup =>
    simp only [step]
    rcases cleanup_sphere s with h | h
    · intro sphere hsphere
      rw [h] at hsphere
      exact hu sphere hsphere
    · intro sphere hsphere
      rw [h] at hsphere
      cases hsphere
  | presetChange newKey failure =>
    simp only [step, handlePresetChange]
    repeat' split
    all_goals exact hu
  | resize w h =>
    simp only [step, handleResize]
    repeat' split
    all_goals exact hu
  | play env =>
    exact handlePlay_keeps UniformInv s env hu (fun _ _ h _ => h) (fun _ _ _ h _ => h)
      (fun _ _ h => h) (fun _ _ _ h => h)
  | pause failure =>
    exact handlePause_keeps UniformInv s failure hu (fun _ _ h _ => h) (fun _ _ _ h => h)

theorem run_uniformInv (events : List Event) (s : State) (hl : LevelsInv s)
    (hu : UniformInv s) (he : byteFrames events = true) : UniformInv (run s events) := by
  induction events generalizing s with
  | nil => exact hu
  | cons e es ih =>
    simp only [byteFrames, List.all_cons, Bool.and_eq_true] at he
    exact ih (step s e) (step_levelsInv s e hl he.1) (step_uniformInv s e hl hu he.1) he.2

theorem quietFrame_1 :
    smooth (0) (5 / 128) = 3602879701896397 / 1152921504606846976 := by
  apply smooth_cert _ _ (5 / 128) (3602879701896397 / 1152921504606846976)
  · apply toDouble_cert _ _ 5629499534213120 (-57) <;> norm_num
  · apply toDouble_cert _ _ 7205759403792794 (-61) <;> norm_num
  · apply toDouble_cert _ _ 7205759403792794 (-61) <;> norm_num

theorem quietOverall :
    smoothedOverallLevel (3602879701896397 / 1152921504606846976)
        (3602879701896397 / 1152921504606846976)
        (3602879701896397 / 1152921504606846976)
      = 7205759403792795 / 2305843009213693952 := by
  have h1 : toDouble (3602879701896397 / 1152921504606846976
      + 3602879701896397 / 1152921504606846976)
      = 3602879701896397 / 576460752303423488 := by
    apply toDouble_cert _ _ 7205759403792794 (-60) <;> norm_num
  have h2 : toDouble (3602879701896397 / 576460752303423488
      + 3602879701896397 / 1152921504606846976)
      = 1351079888211149 / 144115188075855872 := by
    apply toDouble_cert_tie _ _ 5404319552844596 (-59) <;> norm_num
  have h3 : toDouble (1351079888211149 / 144115188075855872 / 3)
      = 7205759403792795 / 2305843009213693952 := by
    apply toDouble_cert _ _ 7205759403792795 (-61) <;> norm_num
  unfold smoothedOverallLevel
  rw [h1, h2, h3]

/-- C16, refuted as stated: after the loop has started, one frame with every
bin at 5 is a byte-valued frame; it leaves each of the three smoothed levels
at the double `0.003125` and writes the double `0.0031250000000000006` into
`uAudioLevel`, which is larger than the largest of the three levels. -/
theorem overall_level_exceeds_max :
    byteFrames quietFrames = true
    ∧ (run initialState quietFrames).smoothedBassRef
        = 3602879701896397 / 1152921504606846976
    ∧ (run initialState quietFrames).smoothedMidRef
        = 3602879701896397 / 1152921504606846976
    ∧ (run initialState quietFrames).smoothedTrebleRef
        = 3602879701896397 / 1152921504606846976
    ∧ (run initialState quietFrames).sphereRef.map (fun sphere => sphere.uniforms.uAudioLevel)
        = some (7205759403792795 / 2305843009213693952)
    ∧ max (run initialState quietFrames).smoothedBassRef
          (max (run initialState quietFrames).smoothedMidRef
            (run initialState quietFrames).smoothedTrebleRef)
        < 7205759403792795 / 2305843009213693952 := by
  obtain ⟨g0, l0, a0, n0, b0, m0, t0, s0⟩ := loopStarted_ready
  obtain ⟨_, _, _, _, b1, m1, t1, s1⟩ := flatFrame_step _ 5 (by norm_num) g0 l0 a0 n0
  have hrun : run initialState quietFrames
      = step (run initialState loopStarted) (Event.frame (flatFrame 5)) := by
    unfold quietFrames
    rw [run_append]
    rfl
  have e : ((5 : Nat) : ℚ) / 128 = 5 / 128 := by norm_num
  rw [b0, e, quietFrame_1] at b1
  rw [m0, e, quietFrame_1] at m1
  rw [t0, e, quietFrame_1] at t1
  have hbytes : byteFrames quietFrames = true := by
    unfold quietFrames
    rw [byteFrames_append]
    simp only [byteFrames, List.all_cons, List.all_nil, Bool.and_true,
      byteEvent_flatFrame 5 (by norm_num)]
    decide
  rw [hrun]
  refine ⟨hbytes, b1, m1, t1, ?_, ?_⟩
  · rw [s1, s0]
    simp only [Option.map_some', if_true, uniformsOf, b1, m1, t1, quietOverall]
  · rw [b1, m1, t1]
    norm_num

/-- C16, amended: for a byte-valued buffer each normalised raw band level
`bandAverage / 128` lies in `[0, 255/128]`; from the initial state, after any
sequence of events whose frames carry byte-valued data, each smoothed level
and the overall level held in the uniform `uAudioLevel` lie in
`[0, 255/128]`.  A frame that writes the uniforms writes into `uAudioLevel`
the double evaluation of `(bass + mid + treble) / 3.0` of the three smoothed
levels it leaves.  The exact mean of the three levels lies between the
smallest and the largest of them; the value written lies between the values
the same evaluation gives for three copies of the smallest and for three
copies of the largest level, and for levels in `[0, 255/128]` it differs from
the exact mean by at most `2^-51`, so that it lies between the smallest level
minus `2^-51` and the largest level plus `2^-51`. -/
theorem levels_and_overall (a : List Nat) (events : List Event) (s : State)
    (env : FrameEnv) (ha : ∀ x ∈ a, x ≤ 255) (he : byteFrames events = true) :
    ((0 ≤ normBassRaw a ∧ normBassRaw a ≤ 255 / 128)
      ∧ (0 ≤ normMidRaw a ∧ normMidRaw a ≤ 255 / 128)
      ∧ (0 ≤ normTrebleRaw a ∧ normTrebleRaw a ≤ 255 / 128))
    ∧ ((0 ≤ (run initialState events).smoothedBassRef
        ∧ (run initialState events).smoothedBassRef ≤ 255 / 128)
      ∧ (0 ≤ (run initialState events).smoothedMidRef
        ∧ (run initialState events).smoothedMidRef ≤ 255 / 128)
      ∧ (0 ≤ (run initialState events).smoothedTrebleRef
        ∧ (run initialState events).smoothedTrebleRef ≤ 255 / 128))
    ∧ (∀ sphere, (run initialState events).sphereRef = some sphere →
        0 ≤ sphere.uniforms.uAudioLevel ∧ sphere.uniforms.uAudioLevel ≤ 255 / 128)
    ∧ (writesUniforms s env = true →
        ∀ sphere, (renderCombinedFrame s env).sphereRef = some sphere →
          sphere.shaderMaterial = true →
          sphere.uniforms.uAudioLevel
            = smoothedOverallLevel (renderCombinedFrame s env).smoothedBassRef
                (renderCombinedFrame s env).smoothedMidRef
                (renderCombinedFrame s env).smoothedTrebleRef)
    ∧ (∀ b m t : ℚ,
        smoothedOverallLevel b m t = toDouble (toDouble (toDouble (b + m) + t) / 3)
        ∧ (min b (min m t) ≤ (b + m + t) / 3 ∧ (b + m + t) / 3 ≤ max b (max m t))
        ∧ (smoothedOverallLevel (min b (min m t)) (min b (min m t)) (min b (min m t))
            ≤ smoothedOverallLevel b m t
          ∧ smoothedOverallLevel b m t
            ≤ smoothedOverallLevel (max b (max m t)) (max b (max m t)) (max b (max m t)))
        ∧ ((0 ≤ b ∧ b ≤ 255 / 128) → (0 ≤ m ∧ m ≤ 255 / 128) →
            (0 ≤ t ∧ t ≤ 255 / 128) →
            |smoothedOverallLevel b m t - (b + m + t) / 3| ≤ 1 / 2 ^ 51
            ∧ min b (min m t) - 1 / 2 ^ 51 ≤ smoothedOverallLevel b m t
            ∧ smoothedOverallLevel b m t ≤ max b (max m t) + 1 / 2 ^ 51)) := by
  have hl := run_levelsInv events initialState initialState_levelsInv he
  have hu := run_uniformInv events initialState initialState_levelsInv
    (fun sphere h => by cases h) he
  refine ⟨normRaw_range a ha, ⟨hl.1, hl.2.1, hl.2.2.1⟩, hu, ?_, ?_⟩
  · intro hw sphere hsphere hmat
    rw [renderCombinedFrame_sphere, if_pos hw] at hsphere
    cases hs : s.sphereRef with
    | none =>
      rw [hs] at hsphere
      cases hsphere
    | some old =>
      rw [hs] at hsphere
      simp only [Option.map_some', Option.some.injEq] at hsphere
      by_cases hm : old.shaderMaterial = true
      · rw [if_pos hm] at hsphere
        subst hsphere
        rfl
      · rw [if_neg hm] at hsphere
        subst hsphere
        exact absurd hmat hm
  · intro b m t
    refine ⟨rfl, mean3_between b m t, smoothedOverallLevel_between b m t, ?_⟩
    intro hb hm ht
    have herr := smoothedOverallLevel_error b m t hb hm ht
    obtain ⟨lo, hi⟩ := mean3_between b m t
    refine ⟨herr, ?_, ?_⟩
    · have := (abs_le.mp herr).1
      linarith
    · have := (abs_le.mp herr).2
      linarith

/-- C16 (amended) on a three-bin buffer, on the short run, on a silent frame
of the started loop, and on three levels at `1/2`, `1` and `3/2`. -/
theorem levels_and_overall_witness :
    (0 ≤ normBassRaw [0, 128, 255] ∧ normBassRaw [0, 128, 255] ≤ 255 / 128)
    ∧ (0 ≤ (run initialState shortRun).smoothedTrebleRef
      ∧ (run initialState shortRun).smoothedTrebleRef ≤ 255 / 128)
    ∧ (0 ≤ (uniformsOf (run initialState shortRun) ⟨[0, 128, 255], 1, none⟩).uAudioLevel
      ∧ (uniformsOf (run initialState shortRun) ⟨[0, 128, 255], 1, none⟩).uAudioLevel
          ≤ 255 / 128)
    ∧ (uniformsOf (renderCombinedFrame (run initialState loopStarted) silentFrame)
        silentFrame).uAudioLevel
      = smoothedOverallLevel
          (renderCombinedFrame (run initialState loopStarted) silentFrame).smoothedBassRef
          (renderCombinedFrame (run initialState loopStarted) silentFrame).smoothedMidRef
          (renderCombinedFrame (run initialState loopStarted) silentFrame).smoothedTrebleRef
    ∧ (|smoothedOverallLevel (1 / 2) 1 (3 / 2) - (1 / 2 + 1 + 3 / 2) / 3| ≤ 1 / 2 ^ 51
      ∧ min (1 / 2) (min 1 (3 / 2)) - 1 / 2 ^ 51 ≤ smoothedOverallLevel (1 / 2) 1 (3 / 2)
      ∧ smoothedOverallLevel (1 / 2) 1 (3 / 2) ≤ max (1 / 2) (max 1 (3 / 2)) + 1 / 2 ^ 51) :=
  have w := levels_and_overall [0, 128, 255] shortRun (run initialState loopStarted)
    silentFrame (by decide) (by decide)
  ⟨w.1.1, w.2.1.2.2,
    w.2.2.1 ⟨true, uniformsOf (run initialState shortRun) ⟨[0, 128, 255], 1, none⟩⟩
      rfl,
    w.2.2.2.1 (by decide)
      ⟨true, uniformsOf (renderCombinedFrame (run initialState loopStarted) silentFrame)
        silentFrame⟩ rfl rfl,
    (w.2.2.2.2 (1 / 2) 1 (3 / 2)).2.2.2 ⟨by norm_num, by norm_num⟩
      ⟨by norm_num, by norm_num⟩ ⟨by norm_num, by norm_num⟩⟩

/-! ## C17: one render loop -/

/-- What a frame does to the animation-frame requests: either it requests
exactly one successor, which `animationFrameIdRef` then holds, and this only
if the ref held a handle on entry; or it requests none. -/
theorem renderCombinedFrame_requests (s : State) (env : FrameEnv) :
    ((renderCombinedFrame s env).nextFrameId = s.nextFrameId + 1
      ∧ (renderCombinedFrame s env).animationFrameIdRef = some s.nextFrameId
      ∧ (renderCombinedFrame s env).pendingFrames = s.pendingFrames ++ [s.nextFrameId]
      ∧ s.animationFrameIdRef.isSome = true)
    ∨ ((renderCombinedFrame s env).nextFrameId = s.nextFrameId
      ∧ (∀ id ∈ (renderCombinedFrame s env).pendingFrames, id ∈ s.pendingFrames)) := by
  by_cases hq : allRefsSet s = false ∨ env.failure = none
  · obtain ⟨_, _, h3, h4, h5, _⟩ := renderCombinedFrame_quiet s env hq
    cases ha : s.animationFrameIdRef with
    | none =>
      right
      rw [ha] at h4 h5
      simp only [Option.isSome_none, Bool.false_eq_true, if_false] at h4 h5
      refine ⟨h5, ?_⟩
      intro id hid
      rw [h4] at hid
      exact hid
    | some a =>
      left
      rw [ha] at h3 h4 h5
      simp only [Option.isSome_some, if_true] at h3 h4 h5
      exact ⟨h5, h3, h4, rfl⟩
  · right
    simp only [not_or, Bool.not_eq_false] at hq
    obtain ⟨hg, hf⟩ := hq
    cases hfe : env.failure with
    | none => exact absurd hfe hf
    | some p =>
      obtain ⟨st, message⟩ := p
      obtain ⟨_, _, _, h4, _, h6⟩ := renderCombinedFrame_thrown s env st message hg hfe
      refine ⟨h4, ?_⟩
      intro id hid
      rw [h6] at hid
      split at hid
      · split at hid
        · exact List.mem_of_mem_filter hid
        · exact hid
      · exact hid

/-- C17: in every state reached from the initial one at most one animation
frame request is pending.  A frame callback requests at most one successor,
and none unless `animationFrameIdRef` holds a handle; whatever else is pending
after it was pending before.  The `loadeddata` handler requests a frame only
when `isInitializedRef` is false and no `AudioContext` exists. -/
theorem single_render_loop (events : List Event) (s : State) (env : FrameEnv)
    (setup : SetupEnv) :
    (run initialState events).pendingFrames.length ≤ 1
    ∧ (renderCombinedFrame s env).nextFrameId ≤ s.nextFrameId + 1
    ∧ ((renderCombinedFrame s env).nextFrameId ≠ s.nextFrameId →
        s.animationFrameIdRef.isSome = true
        ∧ (renderCombinedFrame s env).animationFrameIdRef = some s.nextFrameId)
    ∧ (∀ id ∈ (renderCombinedFrame s env).pendingFrames,
        id ∈ s.pendingFrames ∨ id = s.nextFrameId)
    ∧ ((onloadeddata s setup).nextFrameId ≠ s.nextFrameId
        ∨ (onloadeddata s setup).pendingFrames ≠ s.pendingFrames →
        s.isInitializedRef = false ∧ s.audioContextRef = none) := by
  refine ⟨?_, ?_, ?_, ?_, ?_⟩
  · have hl := run_loopInv events initialState initialState_loopInv
    rw [hl.2.1]
    cases (run initialState events).animationFrameIdRef <;> simp [Option.toList]
  · rcases renderCombinedFrame_requests s env with h | h
    · omega
    · omega
  · intro hne
    rcases renderCombinedFrame_requests s env with h | h
    · exact ⟨h.2.2.2, h.2.1⟩
    · exact absurd h.1 hne
  · intro id hid
    rcases renderCombinedFrame_requests s env with h | h
    · rw [h.2.2.1] at hid
      rcases List.mem_append.mp hid with h1 | h1
      · exact Or.inl h1
      · exact Or.inr (List.mem_singleton.mp h1)
    · exact Or.inl (h.2 id hid)
  · intro hchange
    by_cases hguard : s.isInitializedRef = false ∧ s.audioContextRef = none
    · exact hguard
    · have hid : onloadeddata s setup = s := by
        unfold onloadeddata
        rw [if_pos]
        cases hi : s.isInitializedRef with
        | true => rfl
        | false =>
          cases hc : s.audioContextRef with
          | none => exact absurd ⟨hi, hc⟩ hguard
          | some c => rfl
      rw [hid] at hchange
      rcases hchange with h | h
      · exact absurd rfl h
      · exact absurd rfl h

/-- C17 on the started loop: one frame is pending, a frame callback requests
its one successor, and the `loadeddata` that started the loop ran under its
guard. -/
theorem single_render_loop_witness :
    (run initialState loopStarted).pendingFrames.length ≤ 1
    ∧ ((run initialState loopStarted).animationFrameIdRef.isSome = true
      ∧ (renderCombinedFrame (run initialState loopStarted) silentFrame).animationFrameIdRef
          = some (run initialState loopStarted).nextFrameId)
    ∧ ((run initialState awaitingData).isInitializedRef = false
      ∧ (run initialState awaitingData).audioContextRef = none) :=
  have w := single_render_loop loopStarted (run initialState loopStarted) silentFrame setupOk
  ⟨w.1, w.2.2.1 (by decide),
    (single_render_loop loopStarted (run initialState awaitingData) silentFrame
      setupOk).2.2.2.2 (Or.inl (by decide))⟩

end Butterchurn
